import Mathlib

/-!
# cronjob-executor: task dispatch and result delivery

A shallow embedding of the executor's dispatch queue (`services/dispatcher_service.go`),
task invocation, result delivery loop (`services/result_send_service.go`) and request
signing (`utils/utils.go`), followed by the properties proved about them.

Conventions of the embedding:
* Go `int64`/`int32`/`int` values are `Int`; where Go arithmetic can wrap, the wrap is
  explicit (`wrapInt64`).
* Go strings are `String`; their bytes are the UTF-8 encoding (`goBytes`).
* Mutable state (the two queues, the process-wide flags) is passed explicitly.
* Clock readings, the answer of the remote scheduler and the stack trace are inputs.
-/

namespace CronjobExecutor

/-! ## Machine integers -/

/-- Two's complement wrap of an integer into the `int64` range. -/
def wrapInt64 (x : Int) : Int :=
  (x + 9223372036854775808) % 18446744073709551616 - 9223372036854775808

/-- The value is representable as a Go `int64`. -/
def isInt64 (x : Int) : Prop := -9223372036854775808 ≤ x ∧ x ≤ 9223372036854775807

instance (x : Int) : Decidable (isInt64 x) := by
  unfold isInt64
  infer_instance

/-! ## Package `task` -/

/-- Go `task.TaskParams`. -/
structure TaskParams where
  Page : Int := 0
  Total : Int := 0
  TaskLogId : Int := 0
  TaskId : Int := 0
  Method : String := ""
  ExeType : Int := 0
  Cron : String := ""
  Tag : String := ""
  ExecutionTime : Int := 0
  ReceivedDispatcherTime : Int := 0
  Params : String := ""
deriving DecidableEq

/-- Go `task.HandlerResult`. -/
structure HandlerResult where
  Code : Int := 0
  Msg : String := ""
deriving DecidableEq

/-- Go `(*HandlerResult).IsSuccess`. -/
def HandlerResult.IsSuccess (result : HandlerResult) : Bool :=
  result.Code == 0

/-- Go `task.TaskLogState` (an `int32` with ten named values). -/
inductive TaskLogState where
  | INITIALIZE
  | QUEUEING
  | EXECUTION
  | EXECUTION_SUCCESS
  | EXECUTION_FAILED
  | EXECUTION_CANCEL
  | EXECUTION_EXPIRED
  | EXECUTION_FAILED_DISCARD
  | EXECUTION_FAILED_RETRYING
  | EXECUTION_FAILED_NOT_FOUND
deriving DecidableEq

/-- The numeric value of a `TaskLogState` constant. -/
def TaskLogState.value : TaskLogState → Int
  | .INITIALIZE => 1
  | .QUEUEING => 2
  | .EXECUTION => 3
  | .EXECUTION_SUCCESS => 4
  | .EXECUTION_FAILED => 5
  | .EXECUTION_CANCEL => 6
  | .EXECUTION_EXPIRED => 7
  | .EXECUTION_FAILED_DISCARD => 8
  | .EXECUTION_FAILED_RETRYING => 9
  | .EXECUTION_FAILED_NOT_FOUND => 10

/-- Go `task.TaskResult`; a field left out of a composite literal has its zero value.
`State` has no named zero value in Go: a literal always sets it in this program. -/
structure TaskResult where
  TaskLogId : Int := 0
  TaskId : Int := 0
  State : TaskLogState
  FailedReason : String := ""
  RealExecutionTime : Int := 0
  ElapsedTime : Int := 0
  Address : String := ""
deriving DecidableEq

/-! ## Package `context` -/

/-- The process-wide flags and the wait group of package `context`
(`WaitGroup` is the wait group's counter). -/
structure Context where
  Shutdown : Bool := false
  DispatcherStopped : Bool := false
  WaitGroup : Int := 0
deriving DecidableEq

/-! ## Go maps -/

/-- A Go `map[string]β` as an association list; `put` keeps the keys distinct, and the order
of the list stands for the (unspecified) iteration order of the map. -/
abbrev GoMap (β : Type) := List (String × β)

/-- The map read `m[k]`, `none` for a missing key. -/
def GoMap.get {β : Type} (m : GoMap β) (k : String) : Option β :=
  List.lookup k m

/-- The map write `m[k] = v`: replaces the entry of an existing key, adds one otherwise. -/
def GoMap.put {β : Type} (m : GoMap β) (k : String) (v : β) : GoMap β :=
  if m.any (fun e => e.1 == k) then m.map (fun e => if e.1 == k then (k, v) else e)
  else m ++ [(k, v)]

/-- The keys of the map, in iteration order. -/
def GoMap.keys {β : Type} (m : GoMap β) : List String :=
  m.map (fun e => e.1)

/-! ## The priority queue

Both queues are `priorityqueue.Queue` values of the imported library
`github.com/emirpasic/gods`, built with a comparator. -/

/-- Modelled from the spec: `utils.Int64Comparator` of the imported queue library (its source
is not part of the repository), the comparison behind "ordered by `ExecutionTime` ascending":
1 when the first value is greater, -1 when it is smaller, 0 when they are equal. -/
def Int64Comparator (a b : Int) : Int :=
  if a > b then 1 else if a < b then -1 else 0

/-- Modelled from the spec: the array list under the priority queue belongs to the imported
queue library, whose source is not part of the repository. `Swap` exchanges the elements at
two indices when both are in range and does nothing otherwise. -/
def Swap {α : Type} (l : List α) (i j : Nat) : List α :=
  match l[i]?, l[j]? with
  | some a, some b => (l.set i b).set j a
  | _, _ => l

/-- Modelled from the spec: the queue is described as a min-priority queue with O(log n)
enqueue whose ties are broken arbitrarily; the imported library implements it as an array
backed binary heap, modelled here. `bubbleUpFrom` is the loop of the library's `bubbleUp`:
while the element at `index` is not at the root and its parent compares greater, exchange the
two and continue at the parent. `fuel` bounds the number of passes (the index halves on each
pass, so `index` passes suffice). -/
def bubbleUpFrom {α : Type} (cmp : α → α → Int) : Nat → List α → Nat → List α
  | 0, l, _ => l
  | fuel + 1, l, index =>
    if index > 0 then
      match l[index]?, l[(index - 1) / 2]? with
      | some indexValue, some parentValue =>
        if cmp parentValue indexValue ≤ 0 then l
        else bubbleUpFrom cmp fuel (Swap l index ((index - 1) / 2)) ((index - 1) / 2)
      | _, _ => l
    else l

/-- Modelled from the spec: `bubbleUp` of the library's binary heap places the last element. -/
def bubbleUp {α : Type} (cmp : α → α → Int) (l : List α) : List α :=
  bubbleUpFrom cmp l.length l (l.length - 1)

/-- Modelled from the spec: the index of the smaller child in the library's `bubbleDownIndex`:
the right child when it exists and the left child compares greater than it, the left child
otherwise. -/
def smallerIndex {α : Type} (cmp : α → α → Int) (l : List α) (index : Nat) : Nat :=
  match l[2 * index + 1]?, l[2 * index + 2]? with
  | some leftValue, some rightValue =>
    if cmp leftValue rightValue > 0 then 2 * index + 2 else 2 * index + 1
  | _, _ => 2 * index + 1

/-- Modelled from the spec: the loop of the library's `bubbleDownIndex`: while the element at
`index` has a child and compares greater than its smaller child, exchange the two and continue
at that child. `fuel` bounds the number of passes (the index grows on each pass). -/
def bubbleDownIndex {α : Type} (cmp : α → α → Int) : Nat → List α → Nat → List α
  | 0, l, _ => l
  | fuel + 1, l, index =>
    if 2 * index + 1 < l.length then
      match l[index]?, l[smallerIndex cmp l index]? with
      | some indexValue, some smallerValue =>
        if cmp indexValue smallerValue > 0 then
          bubbleDownIndex cmp fuel (Swap l index (smallerIndex cmp l index))
            (smallerIndex cmp l index)
        else l
      | _, _ => l
    else l

/-- Modelled from the spec: `Push` of the library's binary heap (one value): append the value
and bubble it up. -/
def Push {α : Type} (cmp : α → α → Int) (l : List α) (x : α) : List α :=
  bubbleUp cmp (l ++ [x])

/-- Modelled from the spec: `Pop` of the library's binary heap: nothing on an empty heap;
otherwise the root is returned, the last element takes its place and is bubbled down. -/
def Pop {α : Type} (cmp : α → α → Int) (l : List α) : Option α × List α :=
  match l[0]? with
  | none => (none, l)
  | some value =>
    (some value,
      bubbleDownIndex cmp l.length ((Swap l 0 (l.length - 1)).eraseIdx (l.length - 1)) 0)

/-- Modelled from the spec: `Enqueue` of the library's priority queue (a heap push). -/
def Enqueue {α : Type} (cmp : α → α → Int) (queue : List α) (x : α) : List α :=
  Push cmp queue x

/-- Modelled from the spec: `Dequeue` of the library's priority queue (a heap pop). -/
def Dequeue {α : Type} (cmp : α → α → Int) (queue : List α) : Option α × List α :=
  Pop cmp queue

/-- Modelled from the spec: `Size` of the library's priority queue. -/
def Size {α : Type} (queue : List α) : Nat :=
  queue.length

/-- The comparator that orders by an `int64` key, the shape of both comparators of the
program. -/
def cmpBy {α : Type} (key : α → Int) : α → α → Int :=
  fun a b => Int64Comparator (key a) (key b)

/-- The key of the element at an index, 0 out of range. -/
def keyAt {α : Type} (key : α → Int) (l : List α) (i : Nat) : Int :=
  match l[i]? with
  | some a => key a
  | none => 0

/-- The heap order of the array: no element has a smaller key than its parent. -/
def HeapOrdered {α : Type} (key : α → Int) (l : List α) : Prop :=
  ∀ i, i < l.length → 0 < i → keyAt key l ((i - 1) / 2) ≤ keyAt key l i

instance {α : Type} (key : α → Int) (l : List α) : Decidable (HeapOrdered key l) := by
  unfold HeapOrdered
  infer_instance

/-- Heap order everywhere except possibly between index `i` and its parent. -/
def UpInv {α : Type} (key : α → Int) (l : List α) (i : Nat) : Prop :=
  i < l.length ∧
  (∀ j, 0 < j → j < l.length → j ≠ i → keyAt key l ((j - 1) / 2) ≤ keyAt key l j) ∧
  (∀ j, 0 < j → j < l.length → (j - 1) / 2 = i → 0 < i →
    keyAt key l ((i - 1) / 2) ≤ keyAt key l j)

/-- Heap order everywhere except possibly between index `i` and its children. -/
def DownInv {α : Type} (key : α → Int) (l : List α) (i : Nat) : Prop :=
  (∀ j, 0 < j → j < l.length → (j - 1) / 2 ≠ i → keyAt key l ((j - 1) / 2) ≤ keyAt key l j) ∧
  (∀ j, 0 < j → j < l.length → (j - 1) / 2 = i → 0 < i →
    keyAt key l ((i - 1) / 2) ≤ keyAt key l j)

/-! ## The dispatcher service (`services/dispatcher_service.go`) -/

/-- Go `taskComparator`: orders tasks by `ExecutionTime`. -/
def taskComparator (a b : TaskParams) : Int :=
  Int64Comparator a.ExecutionTime b.ExecutionTime

namespace dispatcherServiceImpl

/-- Go `AddTask`: enqueue the task and return the size of the queue; the first component is
the task queue afterwards. -/
def AddTask (taskQueue : List TaskParams) (params : TaskParams) : List TaskParams × Nat :=
  (Enqueue taskComparator taskQueue params, Size (Enqueue taskComparator taskQueue params))

/-- Go `getTask`: dequeue a task, `none` for Go's `nil`; the second component is the task
queue afterwards. -/
def getTask (taskQueue : List TaskParams) : Option TaskParams × List TaskParams :=
  match Dequeue taskComparator taskQueue with
  | (none, queue) => (none, queue)
  | (some taskParams, queue) => (some taskParams, queue)

/-- The queue after adding the tasks one by one, in list order, to an empty queue. -/
def addAll (tasks : List TaskParams) : List TaskParams :=
  tasks.foldl (fun queue params => (AddTask queue params).1) []

/-- The answers of `n` successive calls of `getTask`, and the queue after them. -/
def getTasks : Nat → List TaskParams → List (Option TaskParams) × List TaskParams
  | 0, taskQueue => ([], taskQueue)
  | n + 1, taskQueue =>
    ((getTask taskQueue).1 :: (getTasks n (getTask taskQueue).2).1,
      (getTasks n (getTask taskQueue).2).2)

/-- What one pass of the run loop of `Start` did. -/
inductive Dispatch where
  /-- The queue was empty: the loop sleeps 200 ms. -/
  | idle
  /-- The test `remaining > 0` held: the task was added back; `remaining` is the value of
  the local variable, and the loop then asks `time.Sleep` for `requeueSleep remaining`. -/
  | requeued (taskParams : TaskParams) (remaining : Int)
  /-- The task was handed to `invokeTask` on a goroutine of its own. -/
  | invoked (taskParams : TaskParams)
deriving DecidableEq

/-- Go `time.Duration(remaining)*time.Millisecond - 1`, in nanoseconds: an `int64` product
and an `int64` difference, both wrapping as in Go. `time.Sleep` returns at once when it is
asked for a duration that is not positive. -/
def requeueSleep (remaining : Int) : Int :=
  wrapInt64 (wrapInt64 (remaining * 1000000) - 1)

/-- The nanoseconds a pass of the run loop asks `time.Sleep` for (0 when it does not
sleep). -/
def Dispatch.Sleep : Dispatch → Int
  | Dispatch.idle => 200 * 1000000
  | Dispatch.requeued _ remaining => requeueSleep remaining
  | Dispatch.invoked _ => 0

/-- One pass of the body of the run loop of Go `Start`; `now` is the reading of
`time.Now().UnixMilli()` taken in that pass. The `int64` subtraction wraps as in Go. -/
def StartBody (now : Int) (taskQueue : List TaskParams) : List TaskParams × Dispatch :=
  match getTask taskQueue with
  | (none, queue) => (queue, Dispatch.idle)
  | (some taskParams, queue) =>
    let remaining := wrapInt64 (taskParams.ExecutionTime - now)
    if remaining > 0 then
      ((AddTask queue taskParams).1, Dispatch.requeued taskParams remaining)
    else
      (queue, Dispatch.invoked taskParams)

end dispatcherServiceImpl

/-! ## The result queue (`services/result_send_service.go`) -/

/-- Go `taskResultComparator`: orders results by `RealExecutionTime`. -/
def taskResultComparator (a b : TaskResult) : Int :=
  Int64Comparator a.RealExecutionTime b.RealExecutionTime

namespace resultSendServiceImpl

/-- Go `AddResult`: enqueue the result and return the size of the queue; the first component
is the result queue afterwards. -/
def AddResult (resultQueue : List TaskResult) (result : TaskResult) : List TaskResult × Nat :=
  (Enqueue taskResultComparator resultQueue result,
    Size (Enqueue taskResultComparator resultQueue result))

/-- Go `getTaskResult`: dequeue a result, `none` for Go's `nil`. -/
def getTaskResult (resultQueue : List TaskResult) : Option TaskResult × List TaskResult :=
  match Dequeue taskResultComparator resultQueue with
  | (none, queue) => (none, queue)
  | (some taskResult, queue) => (some taskResult, queue)

end resultSendServiceImpl

/-! ## Task invocation (`invokeTask`) -/

/-- How a call of a registered `Handle` method ends. A panic value is represented by its
rendering under the `%v` verb (a panic value is never nil: `panic(nil)` raises a non-nil
runtime error). -/
inductive HandlerOutcome where
  /-- The handler panics with the value whose `%v` rendering is `r`. -/
  | panics (r : String)
  /-- The handler returns a nil `*HandlerResult`. -/
  | returnsNil
  /-- The handler returns a result. -/
  | returns (result : HandlerResult)
deriving DecidableEq

/-- A call of a registered `Handle` method as `invokeTask` sees it: how the call ends, and
the params as the call leaves them. The method is handed the pointer `*TaskParams`, so what
it writes through the pointer is what `invokeTask` reads afterwards. -/
structure HandlerCall where
  outcome : HandlerOutcome
  params : TaskParams
deriving DecidableEq

/-- A registered handler: the reflected `Handle` method, as a function of the params it is
handed. -/
abbrev Handler := TaskParams → HandlerCall

/-- How a Go function body ends: by returning, or with a panic in flight. -/
inductive Completion where
  | returned
  | panicking (r : String)
deriving DecidableEq

/-- The local variables `state` and `failureReason` of `invokeTask`. -/
structure InvokeLocals where
  state : TaskLogState
  failureReason : String
deriving DecidableEq

/-- The effect of a call of `invokeTask`. -/
structure InvokeEffect where
  /-- The result queue afterwards. -/
  resultQueue : List TaskResult
  /-- How `invokeTask` itself ends: a panic still in flight reaches its caller. -/
  completion : Completion
  /-- The number of handler calls made. -/
  handlerCalls : Nat
  /-- The params behind the pointer when `invokeTask` ends. -/
  params : TaskParams
deriving DecidableEq

namespace dispatcherServiceImpl

/-- The part of Go `invokeTask` after the deferred function is registered: call the target
method and inspect what it returns. Yields the locals as they stand when the body ends, and
how it ends. `params.Method` is read after the call, through the pointer the handler was
handed. -/
def invokeTaskBody (reflectValue : Handler) (params : TaskParams) : InvokeLocals × Completion :=
  match (reflectValue params).outcome with
  | HandlerOutcome.panics r =>
    ({ state := TaskLogState.EXECUTION_SUCCESS, failureReason := "" }, Completion.panicking r)
  | HandlerOutcome.returnsNil =>
    ({ state := TaskLogState.EXECUTION_FAILED,
       failureReason :=
        "result is null, please check the return value of the method: "
          ++ (reflectValue params).params.Method },
      Completion.returned)
  | HandlerOutcome.returns handlerResult =>
    if !handlerResult.IsSuccess then
      ({ state := TaskLogState.EXECUTION_FAILED,
         failureReason := "cron job task handler failed, code:" ++ toString handlerResult.Code
          ++ ", msg:" ++ handlerResult.Msg },
        Completion.returned)
    else
      ({ state := TaskLogState.EXECUTION_SUCCESS, failureReason := "" }, Completion.returned)

/-- The deferred function of Go `invokeTask`: `recover()` stops a panic in flight and yields
its value, which overwrites the locals; then one result is added to the result queue.
`params` is what the pointer holds when the deferred function runs, `stack` is the text of
`debug.Stack()`, `endTime` the clock reading taken here. -/
def invokeTaskDeferred (address : String) (params : TaskParams) (startTime endTime : Int)
    (stack : String) (locals : InvokeLocals) (completion : Completion)
    (resultQueue : List TaskResult) : List TaskResult × Completion :=
  let locals : InvokeLocals :=
    match completion with
    | Completion.panicking r =>
      { state := TaskLogState.EXECUTION_FAILED, failureReason := r ++ "\r\n\r\n" ++ stack }
    | Completion.returned => locals
  ((resultSendServiceImpl.AddResult resultQueue
      { TaskLogId := params.TaskLogId
        TaskId := params.TaskId
        State := locals.state
        FailedReason := locals.failureReason
        RealExecutionTime := startTime
        ElapsedTime := wrapInt64 (endTime - startTime)
        Address := address }).1,
    Completion.returned)

/-- Go `invokeTask`. `handlers` is the handler registry, `startTime` and `endTime` are the two
clock readings, `stack` the stack trace text, `resultQueue` the result queue before the call.
The handler is looked up under the method the params hold before the call; the deferred
function reads the ids from the params as the handler left them. -/
def invokeTask (handlers : GoMap Handler) (address : String) (params : TaskParams)
    (startTime endTime : Int) (stack : String) (resultQueue : List TaskResult) : InvokeEffect :=
  match GoMap.get handlers params.Method with
  | none =>
    { resultQueue :=
        (resultSendServiceImpl.AddResult resultQueue
          { TaskLogId := params.TaskLogId
            TaskId := params.TaskId
            State := TaskLogState.EXECUTION_FAILED_NOT_FOUND }).1
      completion := Completion.returned
      handlerCalls := 0
      params := params }
  | some reflectValue =>
    { resultQueue :=
        (invokeTaskDeferred address (reflectValue params).params startTime endTime stack
          (invokeTaskBody reflectValue params).1 (invokeTaskBody reflectValue params).2
          resultQueue).1
      completion :=
        (invokeTaskDeferred address (reflectValue params).params startTime endTime stack
          (invokeTaskBody reflectValue params).1 (invokeTaskBody reflectValue params).2
          resultQueue).2
      handlerCalls := 1
      params := (reflectValue params).params }

end dispatcherServiceImpl

/-- A handler that returns a failing result and leaves the params alone. -/
def demoHandlerFailing : Handler := fun params =>
  { outcome := HandlerOutcome.returns { Code := 7, Msg := "bad" }, params := params }

/-- A handler that panics with the message "boom" and leaves the params alone. -/
def demoHandlerPanicking : Handler := fun params =>
  { outcome := HandlerOutcome.panics "boom", params := params }

/-- A handler that overwrites the ids of the params it is handed and returns success. -/
def demoHandlerRewriting : Handler := fun params =>
  { outcome := HandlerOutcome.returns { Code := 0, Msg := "success" }
    params := { params with TaskLogId := 999, TaskId := 888 } }

/-! ## The delivery loop (`resultSendServiceImpl.Start`) -/

namespace resultSendServiceImpl

/-- The test of the loop of Go `Start`, its three reads taken on one state. -/
def StartCondition (ctx : Context) (resultQueue : List TaskResult) : Bool :=
  decide (Size resultQueue > 0) || !ctx.Shutdown || !ctx.DispatcherStopped

/-- One pass of the body of the loop of Go `Start`. `success` is the answer of
`SendTaskResult` in this pass (it is not asked when the queue is empty). Yields the result
queue afterwards and the send attempted, if any, with its answer. -/
def StartBody (success : Bool) (resultQueue : List TaskResult) :
    List TaskResult × Option (TaskResult × Bool) :=
  match getTaskResult resultQueue with
  | (none, queue) => (queue, none)
  | (some taskResult, queue) =>
    if !success then ((AddResult queue taskResult).1, some (taskResult, success))
    else (queue, some (taskResult, success))

/-- Where the goroutine running `Start` is: in its loop, or past it. -/
inductive Phase where
  | looping
  | stopped
deriving DecidableEq

/-- The state the delivery loop runs on, with a record of what it did. -/
structure SendService where
  ctx : Context
  resultQueue : List TaskResult
  phase : Phase
  /-- The sends attempted so far, oldest first, each with its answer. -/
  sent : List (TaskResult × Bool)
  /-- The number of calls of `WaitGroup.Done` made so far. -/
  doneCalls : Nat
deriving DecidableEq

/-- What can happen next: the loop goroutine makes its next move, or another goroutine
touches the shared state. -/
inductive Event where
  /-- The loop evaluates its test and, when it holds, runs one pass of its body, in which
  `SendTaskResult` answers `success`; when the test fails the loop is left. -/
  | pass (success : Bool)
  /-- A task invocation adds a result. -/
  | addResult (result : TaskResult)
  /-- The stop routine stores `true` into `Shutdown`. -/
  | shutdown
  /-- The dispatcher stores `true` into `DispatcherStopped`. -/
  | dispatcherStopped
deriving DecidableEq

/-- Entry of Go `Start`: `WaitGroup.Add(1)`, then the loop. -/
def StartEnter (ctx : Context) (resultQueue : List TaskResult) : SendService :=
  { ctx := { ctx with WaitGroup := ctx.WaitGroup + 1 }
    resultQueue := resultQueue
    phase := Phase.looping
    sent := []
    doneCalls := 0 }

/-- One step of the system around the loop of Go `Start`. -/
def step (s : SendService) : Event → SendService
  | Event.pass success =>
    match s.phase with
    | Phase.stopped => s
    | Phase.looping =>
      if StartCondition s.ctx s.resultQueue then
        { s with
          resultQueue := (StartBody success s.resultQueue).1
          sent :=
            match (StartBody success s.resultQueue).2 with
            | some attempt => s.sent ++ [attempt]
            | none => s.sent }
      else
        { s with
          ctx := { s.ctx with WaitGroup := s.ctx.WaitGroup - 1 }
          phase := Phase.stopped
          doneCalls := s.doneCalls + 1 }
  | Event.addResult result => { s with resultQueue := (AddResult s.resultQueue result).1 }
  | Event.shutdown => { s with ctx := { s.ctx with Shutdown := true } }
  | Event.dispatcherStopped => { s with ctx := { s.ctx with DispatcherStopped := true } }

/-- The state after a sequence of events. -/
def run (s : SendService) (events : List Event) : SendService :=
  events.foldl step s

/-- The results a sequence of events adds. -/
def added : List Event → List TaskResult
  | [] => []
  | Event.addResult result :: events => result :: added events
  | _ :: events => added events

/-- The results of the sends that succeeded. -/
def delivered (sent : List (TaskResult × Bool)) : List TaskResult :=
  (sent.filter (fun attempt => attempt.2)).map (fun attempt => attempt.1)

/-- The answers of the sends of one result, oldest first. -/
def answersFor (result : TaskResult) (sent : List (TaskResult × Bool)) : List Bool :=
  (sent.filter (fun attempt => decide (attempt.1 = result))).map (fun attempt => attempt.2)

/-- The sends of one result so far are failures only and it is not delivered, or they are
failures followed by one success, after which the result is delivered once and no longer
queued. -/
def SentOnce (r : TaskResult) (s : SendService) : Prop :=
  ((∃ k, answersFor r s.sent = List.replicate k false) ∧ (delivered s.sent).count r = 0) ∨
  ((∃ k, answersFor r s.sent = List.replicate k false ++ [true]) ∧
    s.resultQueue.count r = 0 ∧ (delivered s.sent).count r = 1)

/-- The loop is running and has not called Done, or it is left and has called Done once. -/
def DoneOnce (w : Int) (s : SendService) : Prop :=
  (s.phase = Phase.looping ∧ s.doneCalls = 0 ∧ s.ctx.WaitGroup = w + 1) ∨
  (s.phase = Phase.stopped ∧ s.doneCalls = 1 ∧ s.ctx.WaitGroup = w)

end resultSendServiceImpl

/-! ## Request signing (`utils.Sign`) -/

/-- The UTF-8 encoding of a character, as bytes. -/
def utf8EncodeChar (c : Char) : List Nat :=
  if c.toNat < 128 then [c.toNat]
  else if c.toNat < 2048 then [192 + c.toNat / 64, 128 + c.toNat % 64]
  else if c.toNat < 65536 then
    [224 + c.toNat / 4096, 128 + c.toNat / 64 % 64, 128 + c.toNat % 64]
  else
    [240 + c.toNat / 262144, 128 + c.toNat / 4096 % 64, 128 + c.toNat / 64 % 64,
      128 + c.toNat % 64]

/-- The bytes of a Go string: Go `[]byte(s)`. -/
def goBytes (s : String) : List Nat :=
  s.data.flatMap utf8EncodeChar

/-- Lexicographic "less" on byte sequences: Go's `<` on strings. -/
def bytesLess : List Nat → List Nat → Bool
  | [], [] => false
  | [], _ :: _ => true
  | _ :: _, [] => false
  | a :: as, b :: bs => if a < b then true else if b < a then false else bytesLess as bs

/-- The order `sort.Strings` sorts by: `a` is not after `b` in byte order. -/
def stringLE (a b : String) : Prop :=
  bytesLess (goBytes b) (goBytes a) = false

instance (a b : String) : Decidable (stringLE a b) := by
  unfold stringLE
  infer_instance

/-- Modelled from the spec: `sort.Strings` of Go's standard library, "sort all keys
lexicographically (byte-wise)"; here by insertion into a list kept in `stringLE` order. -/
def sortStrings (keys : List String) : List String :=
  keys.insertionSort stringLE

namespace md5

/-- The per-round left rotation amounts of MD5. -/
def shifts : List Nat :=
  [7, 12, 17, 22, 7, 12, 17, 22, 7, 12, 17, 22, 7, 12, 17, 22,
   5, 9, 14, 20, 5, 9, 14, 20, 5, 9, 14, 20, 5, 9, 14, 20,
   4, 11, 16, 23, 4, 11, 16, 23, 4, 11, 16, 23, 4, 11, 16, 23,
   6, 10, 15, 21, 6, 10, 15, 21, 6, 10, 15, 21, 6, 10, 15, 21]

/-- The per-round additive constants of MD5 (the integer parts of 2^32 |sin (i + 1)|). -/
def sines : List Nat :=
  [0xd76aa478, 0xe8c7b756, 0x242070db, 0xc1bdceee, 0xf57c0faf, 0x4787c62a, 0xa8304613,
   0xfd469501, 0x698098d8, 0x8b44f7af, 0xffff5bb1, 0x895cd7be, 0x6b901122, 0xfd987193,
   0xa679438e, 0x49b40821, 0xf61e2562, 0xc040b340, 0x265e5a51, 0xe9b6c7aa, 0xd62f105d,
   0x02441453, 0xd8a1e681, 0xe7d3fbc8, 0x21e1cde6, 0xc33707d6, 0xf4d50d87, 0x455a14ed,
   0xa9e3e905, 0xfcefa3f8, 0x676f02d9, 0x8d2a4c8a, 0xfffa3942, 0x8771f681, 0x6d9d6122,
   0xfde5380c, 0xa4beea44, 0x4bdecfa9, 0xf6bb4b60, 0xbebfbc70, 0x289b7ec6, 0xeaa127fa,
   0xd4ef3085, 0x04881d05, 0xd9d4d039, 0xe6db99e5, 0x1fa27cf8, 0xc4ac5665, 0xf4292244,
   0x432aff97, 0xab9423a7, 0xfc93a039, 0x655b59c3, 0x8f0ccc92, 0xffeff47d, 0x85845dd1,
   0x6fa87e4f, 0xfe2ce6e0, 0xa3014314, 0x4e0811a1, 0xf7537e82, 0xbd3af235, 0x2ad7d2bb,
   0xeb86d391]

/-- Reduction to a 32-bit word. -/
def w32 (x : Nat) : Nat := x % 4294967296

/-- Left rotation of a 32-bit word. -/
def rotl (x c : Nat) : Nat := w32 (x <<< c) ||| (x >>> (32 - c))

/-- Bitwise complement of a 32-bit word. -/
def not32 (x : Nat) : Nat := 4294967295 - x

/-- The four chaining words of MD5. -/
structure State where
  a : Nat
  b : Nat
  c : Nat
  d : Nat

/-- MD5 padding: a 0x80 byte, zero bytes up to 56 modulo 64, then the bit length of the
message as eight little-endian bytes. -/
def pad (msg : List Nat) : List Nat :=
  msg ++ [128] ++ List.replicate ((55 + 64 - msg.length % 64) % 64) 0
    ++ (List.range 8).map (fun i => 8 * msg.length / 256 ^ i % 256)

/-- The little-endian 32-bit word number `g` of a block. -/
def wordAt (block : List Nat) (g : Nat) : Nat :=
  block.getD (4 * g) 0 + 256 * block.getD (4 * g + 1) 0 + 65536 * block.getD (4 * g + 2) 0
    + 16777216 * block.getD (4 * g + 3) 0

/-- Operation number `i` (0 to 63) of the MD5 compression function. -/
def round (block : List Nat) (s : State) (i : Nat) : State :=
  let f :=
    if i < 16 then (s.b &&& s.c) ||| (not32 s.b &&& s.d)
    else if i < 32 then (s.d &&& s.b) ||| (not32 s.d &&& s.c)
    else if i < 48 then s.b ^^^ s.c ^^^ s.d
    else s.c ^^^ (s.b ||| not32 s.d)
  let g :=
    if i < 16 then i
    else if i < 32 then (5 * i + 1) % 16
    else if i < 48 then (3 * i + 5) % 16
    else (7 * i) % 16
  { a := s.d
    b := w32 (s.b + rotl (w32 (f + s.a + sines.getD i 0 + wordAt block g)) (shifts.getD i 0))
    c := s.b
    d := s.c }

/-- The MD5 compression function on one 64-byte block. -/
def processBlock (s : State) (block : List Nat) : State :=
  { a := w32 (s.a + ((List.range 64).foldl (round block) s).a)
    b := w32 (s.b + ((List.range 64).foldl (round block) s).b)
    c := w32 (s.c + ((List.range 64).foldl (round block) s).c)
    d := w32 (s.d + ((List.range 64).foldl (round block) s).d) }

/-- The first `n` 64-byte blocks of a byte sequence. -/
def blocks : Nat → List Nat → List (List Nat)
  | 0, _ => []
  | n + 1, bytes => bytes.take 64 :: blocks n (bytes.drop 64)

/-- The four bytes of a 32-bit word, least significant first. -/
def le32 (x : Nat) : List Nat :=
  [x % 256, x / 256 % 256, x / 65536 % 256, x / 16777216 % 256]

/-- Modelled from the spec: `md5.Sum` of Go's standard library, "hash the resulting byte
string" with MD5 (RFC 1321): the 16 bytes of the digest. -/
def Sum (msg : List Nat) : List Nat :=
  le32 (((blocks ((pad msg).length / 64) (pad msg)).foldl processBlock
      { a := 0x67452301, b := 0xefcdab89, c := 0x98badcfe, d := 0x10325476 }).a)
    ++ le32 (((blocks ((pad msg).length / 64) (pad msg)).foldl processBlock
      { a := 0x67452301, b := 0xefcdab89, c := 0x98badcfe, d := 0x10325476 }).b)
    ++ le32 (((blocks ((pad msg).length / 64) (pad msg)).foldl processBlock
      { a := 0x67452301, b := 0xefcdab89, c := 0x98badcfe, d := 0x10325476 }).c)
    ++ le32 (((blocks ((pad msg).length / 64) (pad msg)).foldl processBlock
      { a := 0x67452301, b := 0xefcdab89, c := 0x98badcfe, d := 0x10325476 }).d)

end md5

/-- The lowercase hexadecimal digit of a value below 16. -/
def hexDigit (n : Nat) : Char :=
  "0123456789abcdef".data.getD n '0'

/-- Go `fmt.Sprintf("%x", hash)` on a byte array: two lowercase hexadecimal digits per
byte. -/
def sprintfHex (bytes : List Nat) : String :=
  String.mk (bytes.flatMap (fun b => [hexDigit (b / 16), hexDigit (b % 16)]))

/-- Go `fmt.Sprintf("%v", paramsMap[key])` for map values that are kept as their `%v`
rendering; a missing key reads as nil. -/
def sprintfV (value : Option String) : String :=
  match value with
  | some v => v
  | none => "<nil>"

/-- The parameter map that Go `Sign` builds: the four fixed entries, then the entries of
`params` written over them in iteration order. -/
def signParamsMap (signKey token times body : String) (params : GoMap String) : GoMap String :=
  params.foldl (fun paramsMap e => GoMap.put paramsMap e.1 e.2)
    (GoMap.put (GoMap.put (GoMap.put (GoMap.put [] "_signKey_" signKey) "times" times)
      "token" token) "rb" body)

/-- The string that Go `Sign` builds in `sb` and hashes: for every key of the parameter map,
in sorted order, the key, "=", the value and "&". -/
def signString (signKey token times body : String) (params : GoMap String) : String :=
  (sortStrings (GoMap.keys (signParamsMap signKey token times body params))).foldl
    (fun sb key =>
      sb ++ key ++ "=" ++ sprintfV (GoMap.get (signParamsMap signKey token times body params) key)
        ++ "&")
    ""

/-- Go `utils.Sign`. The values of `params` are kept as their `%v` rendering. -/
def Sign (signKey token times body : String) (params : GoMap String) : String :=
  sprintfHex (md5.Sum (goBytes (signString signKey token times body params)))

/-- The value that the merged parameters hold for a key: that of the last entry of the extra
params with the key, else that of the fixed entry with the key. -/
def mergedValue (signKey token times body : String) (params : GoMap String) (key : String) :
    Option String :=
  (List.lookup key params.reverse).or
    (if key = "_signKey_" then some signKey
     else if key = "times" then some times
     else if key = "token" then some token
     else if key = "rb" then some body
     else none)

/-! ## Package `webresult` -/

/-- Go `webresult.MsgObject`; `Data` is nil in every message of this development. -/
structure MsgObject where
  Code : Int := 0
  Msg : String := ""
deriving DecidableEq

/-- Go `webresult.SUCCESS`. -/
def SUCCESS : MsgObject := { Code := 0, Msg := "" }

/-- Go `webresult.ERROR_SIGN`. -/
def ERROR_SIGN : MsgObject := { Code := 6, Msg := "非法请求！" }

/-- Go `webresult.ERROR_EXECUTE_SHUTDOWN`. -/
def ERROR_EXECUTE_SHUTDOWN : MsgObject := { Code := 15, Msg := "执行器已关闭" }

/-- Go `webresult.ERROR`. -/
def ERROR : MsgObject := { Code := 1000, Msg := "操作失败" }

/-- Go `webresult.ERROR_PARAMS`. -/
def ERROR_PARAMS : MsgObject := { Code := 1001, Msg := "参数错误" }

/-! ## Outbound requests (`httpclients.Request`) -/

/-- A Go `interface{}` value as it occurs in the header and parameter maps: nil, a string, an
int, or a value of another type, kept as its `%v` rendering. -/
inductive GoValue where
  | nil
  | string (s : String)
  | int (n : Int)
  | other (rendering : String)
deriving DecidableEq

/-- Go `fmt.Sprintf("%v", v)` of an `interface{}` value. -/
def GoValue.sprintfV : GoValue → String
  | GoValue.nil => "<nil>"
  | GoValue.string s => s
  | GoValue.int n => toString n
  | GoValue.other rendering => rendering

/-- The read `m[k]` of a `map[string]interface{}`: nil for a missing key. -/
def GoValue.index (m : GoMap GoValue) (k : String) : GoValue :=
  match GoMap.get m k with
  | some v => v
  | none => GoValue.nil

/-! ## HTTP header names (`net/textproto`, `net/http`) -/

/-- Go `validHeaderFieldByte`: whether the byte with code `c` may occur in a header name,
that is, whether it is a letter, a digit or one of the fifteen punctuation bytes of an HTTP
token (codes 33, 35 to 39, 42, 43, 45, 46, 94 to 96, 124 and 126). -/
def validHeaderFieldByte (c : Nat) : Bool :=
  (48 ≤ c && c ≤ 57) || (97 ≤ c && c ≤ 122) || (65 ≤ c && c ≤ 90) ||
    c == 33 || (35 ≤ c && c ≤ 39) || c == 42 || c == 43 || c == 45 || c == 46 ||
    (94 ≤ c && c ≤ 96) || c == 124 || c == 126

/-- One byte of the canonical form of a header name: an upper-case letter where `upper`
holds (at the start and after a hyphen), a lower-case letter elsewhere, any other byte as it
is. -/
def canonicalByte (upper : Bool) (c : Nat) : Nat :=
  if upper && (97 ≤ c && c ≤ 122) then c - 32
  else if !upper && (65 ≤ c && c ≤ 90) then c + 32
  else c

/-- The loop of Go `canonicalMIMEHeaderKey` over the bytes of a name; `upper` says whether
the next letter is to be upper case. -/
def canonicalBytes : Bool → List Nat → List Nat
  | _, [] => []
  | upper, c :: cs =>
    canonicalByte upper c :: canonicalBytes (canonicalByte upper c == 45) cs

/-- Go `textproto.CanonicalMIMEHeaderKey`: a name made of header-name bytes only is put in
canonical form (`token` becomes `Token`, `user-agent` becomes `User-Agent`); a name with any
other byte is returned unchanged. A character outside ASCII is encoded in bytes of 128 and
above, none of which is a header-name byte. -/
def CanonicalMIMEHeaderKey (s : String) : String :=
  if s.data.all (fun c => validHeaderFieldByte c.toNat) then
    String.mk ((canonicalBytes true (s.data.map Char.toNat)).map Char.ofNat)
  else s

namespace httpClientImpl

end httpClientImpl

/-! ## Inbound dispatch (`webserver/executor_controller.go`) -/

/-- An inbound request as it reaches the controller: its header lines in the order received,
each with its name as sent, and its body when it could be read (`none` when `io.ReadAll`
fails). -/
structure InboundRequest where
  Header : GoMap String
  Body : Option String

/-- Go `context.GetHeader(key)`, that is `Request.Header.Get(key)`: the server files every
header line under the canonical form of its name, and `Get` answers the first value filed
under the canonical form of `key`, or the empty string when there is none. So the lookup
does not depend on the letter case of the name, neither as sent nor as asked for. -/
def InboundRequest.GetHeader (request : InboundRequest) (key : String) : String :=
  match request.Header.find?
      (fun e => CanonicalMIMEHeaderKey e.1 == CanonicalMIMEHeaderKey key) with
  | some e => e.2
  | none => ""

namespace ExecutorControllerImpl

/-- Go `verifySign`; `signKey` is the string stored in `context.SignKey`. -/
def verifySign (signKey : String) (request : InboundRequest) (body : String) : Bool :=
  Sign signKey (request.GetHeader "token") (request.GetHeader "times") body []
    == request.GetHeader "sign"

/-- Go `Dispatcher`, the handler of `POST /dispatch`, with the dispatcher service in place.
`unmarshal` is `json.Unmarshal` into a `TaskParams` (`none` for an error), `now` the clock
reading; yields the message rendered and the execution queue afterwards. -/
def Dispatcher (unmarshal : String → Option TaskParams) (signKey : String)
    (Shutdown : Bool) (now : Int) (request : InboundRequest) (taskQueue : List TaskParams) :
    MsgObject × List TaskParams :=
  match request.Body with
  | none => (ERROR, taskQueue)
  | some body =>
    if !verifySign signKey request body then (ERROR_SIGN, taskQueue)
    else if Shutdown then (ERROR_EXECUTE_SHUTDOWN, taskQueue)
    else
      match unmarshal body with
      | none => (ERROR, taskQueue)
      | some taskParams =>
        (SUCCESS,
          (dispatcherServiceImpl.AddTask taskQueue
            { taskParams with ReceivedDispatcherTime := now }).1)

end ExecutorControllerImpl

/-- A decoder that accepts the one body "{}" (as the zero TaskParams), for examples. -/
def demoUnmarshal (body : String) : Option TaskParams :=
  if body = "{}" then some {} else none

/-! ## Package `bean` -/

/-- Go `bean.ExecutorOptions`. -/
structure ExecutorOptions where
  Address : String := ""
  Tenant : String := ""
  AppName : String := ""
  AppDesc : String := ""
  Tag : String := ""
  SignKey : String := ""
deriving DecidableEq

/-- Go `bean.RANDOM`. -/
def RANDOM : Int := 1

/-- Go `bean.SHARDING`. -/
def SHARDING : Int := 2

/-- Go `bean.ExpiredDiscard`. -/
def ExpiredDiscard : Int := 1

/-- Go `bean.ExpiredExecute`. -/
def ExpiredExecute : Int := 2

/-- Go `bean.FailureRetry`. -/
def FailureRetry : Int := 1

/-- Go `bean.FailureDiscard`. -/
def FailureDiscard : Int := 2

/-- Go `bean.TaskOptions`; the strategies are integer types. -/
structure TaskOptions where
  Name : String := ""
  Cron : String := ""
  RouterStrategy : Int := 0
  ExpiredStrategy : Int := 0
  ExpireTime : Int := 0
  FailureStrategy : Int := 0
  MaxRetryCount : Int := 0
  FailureRetryInterval : Int := 0
  Timeout : Int := 0
  Remark : String := ""
deriving DecidableEq

/-! ## The executor client (`cronjob.go`) -/

/-- A non-nil value of the interface `task.TaskHandler`, as far as `AddTask` looks at it: the
string of its dynamic type and its `Handle` method. -/
structure TaskHandler where
  /-- The text of `reflect.TypeOf(handler).String()`. -/
  TypeString : String
  Handle : Handler

/-- Go `reflect.ValueOf(handler).MethodByName(name)`, `none` for an invalid method value; a
`TaskHandler` has the one method `Handle`. -/
def TaskHandler.MethodByName (handler : TaskHandler) (name : String) : Option Handler :=
  if name = "Handle" then some handler.Handle else none

/-- Go `executorClientImpl`. -/
structure executorClientImpl where
  options : ExecutorOptions
  handlers : GoMap Handler
  taskOptions : GoMap TaskOptions

namespace executorClientImpl

/-- The client that Go `GetExecutorClient` builds: both registries empty. -/
def init (options : ExecutorOptions) : executorClientImpl :=
  { options := options, handlers := [], taskOptions := [] }

/-- The defaulting of Go `AddTask`: every zero field is set to its default. -/
def applyDefaults (options : TaskOptions) : TaskOptions :=
  let options :=
    if options.RouterStrategy = 0 then { options with RouterStrategy := RANDOM } else options
  let options :=
    if options.ExpiredStrategy = 0 then { options with ExpiredStrategy := ExpiredExecute }
    else options
  let options :=
    if options.ExpireTime = 0 then { options with ExpireTime := 3 * 60 * 1000 } else options
  let options :=
    if options.FailureStrategy = 0 then { options with FailureStrategy := FailureRetry }
    else options
  let options :=
    if options.MaxRetryCount = 0 then { options with MaxRetryCount := 5 } else options
  let options :=
    if options.FailureRetryInterval = 0 then { options with FailureRetryInterval := 5000 }
    else options
  if options.Timeout = 0 then { options with Timeout := 10000 } else options

/-- The registry key that Go `AddTask` builds. -/
def taskKey (AppName : String) (handler : TaskHandler) : String :=
  AppName ++ "/" ++ handler.TypeString ++ ".Handle"

/-- Go `AddTask`: the client afterwards, and the panic value when it panics. -/
def AddTask (client : executorClientImpl) (handler : TaskHandler) (options : TaskOptions) :
    executorClientImpl × Option String :=
  if options.Cron = "" then (client, some "invalid cronjob options, please set cron.")
  else if options.Name = "" then (client, some "invalid task options, please set name.")
  else
    match handler.MethodByName "Handle" with
    | none => (client, some "Handle method can not be found")
    | some handleMethod =>
      ({ client with
          handlers := GoMap.put client.handlers (taskKey client.options.AppName handler)
            handleMethod
          taskOptions := GoMap.put client.taskOptions (taskKey client.options.AppName handler)
            (applyDefaults options) },
        none)

/-- The client after a sequence of `AddTask` calls; a call that panics leaves it as it was. -/
def addTasks (client : executorClientImpl) (tasks : List (TaskHandler × TaskOptions)) :
    executorClientImpl :=
  tasks.foldl (fun client task => (AddTask client task.1 task.2).1) client

end executorClientImpl

/-- The two registries of a client hold the same keys, each once. -/
def RegistriesAgree (client : executorClientImpl) : Prop :=
  GoMap.keys client.handlers = GoMap.keys client.taskOptions ∧
    (GoMap.keys client.handlers).Nodup

/-- A handler type with a `Handle` method that returns `task.Success()`. -/
def demoTask : TaskHandler :=
  { TypeString := "cronjob.DemoTask"
    Handle := fun params =>
      { outcome := HandlerOutcome.returns { Code := 0, Msg := "success" }, params := params } }

/-! ## The register service (`services/register_service.go`) -/

/-- What a call of `RegisterExecutor` or `RegisterTask` did within the passes it was given. -/
structure RegisterRun where
  /-- The number of registration requests sent. -/
  attempts : Nat
  /-- Whether the call has returned. -/
  returned : Bool
  /-- The value of the flag `success` of the register service afterwards. -/
  success : Bool
deriving DecidableEq

namespace registerServiceImpl

/-- Go `RegisterExecutor`, which calls itself to retry. `answer i` is the answer of the remote
scheduler to request number `i`, `shutdown i` the value of `Shutdown` read after it; `attempt`
is the number of the next request and `success` the flag of the service before it. `fuel`
bounds the depth of the calls that are followed. -/
def RegisterExecutor (answer shutdown : Nat → Bool) :
    Nat → Nat → Bool → RegisterRun
  | 0, _, success => { attempts := 0, returned := false, success := success }
  | fuel + 1, attempt, _ =>
    if shutdown attempt then
      { attempts := 1, returned := true, success := answer attempt }
    else if !answer attempt then
      { attempts := 1 + (RegisterExecutor answer shutdown fuel (attempt + 1)
          (answer attempt)).attempts
        returned := (RegisterExecutor answer shutdown fuel (attempt + 1)
          (answer attempt)).returned
        success := (RegisterExecutor answer shutdown fuel (attempt + 1)
          (answer attempt)).success }
    else
      { attempts := 1, returned := true, success := answer attempt }

/-- Go `RegisterTask`, which calls itself to retry; it leaves the flag `success` alone. -/
def RegisterTask (answer shutdown : Nat → Bool) :
    Nat → Nat → Bool → RegisterRun
  | 0, _, success => { attempts := 0, returned := false, success := success }
  | fuel + 1, attempt, success =>
    if shutdown attempt then
      { attempts := 1, returned := true, success := success }
    else if !answer attempt then
      { attempts := 1 + (RegisterTask answer shutdown fuel (attempt + 1) success).attempts
        returned := (RegisterTask answer shutdown fuel (attempt + 1) success).returned
        success := (RegisterTask answer shutdown fuel (attempt + 1) success).success }
    else
      { attempts := 1, returned := true, success := success }

end registerServiceImpl

/-! ## The heartbeat (`services/heartbeat_service.go`) -/

/-- What one tick of the heartbeat task did. -/
structure HeartbeatTick where
  /-- The addresses of the heartbeat requests sent, oldest first. -/
  heartbeats : List String
  /-- Whether the tick slept for a second before returning. -/
  slept : Bool
deriving DecidableEq

namespace heartbeatServiceImpl

/-- The function that Go `Start` schedules every three seconds. `Shutdown` is the value the
tick loads from `context.Shutdown`, `IsSuccess` the answer of the register service. -/
def StartTick (Shutdown IsSuccess : Bool) (address : String) : HeartbeatTick :=
  if Shutdown then { heartbeats := [], slept := false }
  else if !IsSuccess then { heartbeats := [], slept := true }
  else { heartbeats := [address], slept := false }

end heartbeatServiceImpl

/-! ## HTTP results (`httpclients.HttpResult`) -/

/-- Go `httpclients.HttpResult`; `Body` is the byte slice, `Err` is `none` for a nil error
and otherwise the error's text. -/
structure HttpResult where
  Status : Int := 0
  Body : List Nat := []
  Header : GoMap (List String) := []
  Cookies : GoMap String := []
  ContentLength : Int := 0
  Err : Option String := none
  Elapsed : Int := 0
  MsgObject : MsgObject := {}
deriving DecidableEq

namespace HttpResult

/-- Go `IsStatusSuccess`. -/
def IsStatusSuccess (result : HttpResult) : Bool :=
  if result.Status = 200 ∨ result.Status = 201 ∨ result.Status = 302 then
    if result.Err = none then true else false
  else false

/-- Go `toMsgObject`: the result afterwards, the pointer returned (`none` for nil) and the
error returned (`none` for nil). `unmarshal` is `json.Unmarshal` into a fresh `MsgObject`. -/
def toMsgObject (unmarshal : List Nat → Except String CronjobExecutor.MsgObject) (result : HttpResult) :
    HttpResult × Option CronjobExecutor.MsgObject × Option String :=
  if !result.IsStatusSuccess then (result, none, result.Err)
  else
    match unmarshal result.Body with
    | Except.error err => (result, none, some err)
    | Except.ok msgObject => ({ result with MsgObject := msgObject }, some msgObject, none)

/-- Go `IsSuccess`: the result afterwards and the answer; the answer is `none` if the call
panics by reading `Code` through a nil pointer. -/
def IsSuccess (unmarshal : List Nat → Except String CronjobExecutor.MsgObject) (result : HttpResult) :
    HttpResult × Option Bool :=
  if result.Status = 200 ∨ result.Status = 201 ∨ result.Status = 302 then
    if result.Err = none then
      match toMsgObject unmarshal result with
      | (result, _, some _) => (result, some false)
      | (result, some msgObject, none) => (result, some (msgObject.Code == SUCCESS.Code))
      | (result, none, none) => (result, none)
    else (result, some false)
  else (result, some false)

end HttpResult

/-- A decoder for examples: the body `{"code":N}` with one decimal digit `N` decodes to the
message object with that code, every other body is an error. -/
def demoUnmarshalMsg (body : List Nat) : Except String MsgObject :=
  match body with
  | [123, 34, 99, 111, 100, 101, 34, 58, d, 125] =>
    if 48 ≤ d ∧ d ≤ 57 then Except.ok { Code := (d : Int) - 48 }
    else Except.error "invalid character"
  | _ => Except.error "unexpected end of JSON input"

/-! ## The run loop of the dispatcher (`dispatcherServiceImpl.Start`) -/

namespace dispatcherServiceImpl

/-- The test of the loop of Go `Start`, its two reads taken on one state. -/
def StartCondition (ctx : Context) (taskQueue : List TaskParams) : Bool :=
  decide (Size taskQueue > 0) || !ctx.Shutdown

/-- Where the goroutine running `Start` is: in its loop, past it and asleep for the three
seconds that follow, or past the store into `DispatcherStopped`. -/
inductive RunPhase where
  | looping
  | leaving
  | stopped
deriving DecidableEq

/-- The state the run loop works on, with a record of the tasks it released. -/
structure RunState where
  ctx : Context
  taskQueue : List TaskParams
  phase : RunPhase
  /-- The tasks handed to `invokeTask` so far, oldest first. -/
  released : List TaskParams
deriving DecidableEq

/-- What can happen next: the goroutine of `Start` makes its next move, or another goroutine
touches the shared state. -/
inductive RunEvent where
  /-- The loop evaluates its test and, when it holds, runs one pass of its body with the
  clock reading `now`; when the test fails the loop is left. -/
  | pass (now : Int)
  /-- The controller adds a task. -/
  | addTask (params : TaskParams)
  /-- The stop routine stores `true` into `Shutdown`. -/
  | shutdown
  /-- The sleep after the loop ends and `true` is stored into `DispatcherStopped`. -/
  | wake
deriving DecidableEq

/-- Entry of the loop of Go `Start`. -/
def RunEnter (ctx : Context) (taskQueue : List TaskParams) : RunState :=
  { ctx := ctx, taskQueue := taskQueue, phase := RunPhase.looping, released := [] }

/-- The record of released tasks after a pass of the body: a task handed to `invokeTask` is
appended. -/
def recordRelease (released : List TaskParams) : Dispatch → List TaskParams
  | Dispatch.invoked taskParams => released ++ [taskParams]
  | _ => released

/-- One step of the system around the loop of Go `Start`. -/
def runStep (s : RunState) : RunEvent → RunState
  | RunEvent.pass now =>
    match s.phase with
    | RunPhase.looping =>
      if StartCondition s.ctx s.taskQueue then
        { s with
          taskQueue := (StartBody now s.taskQueue).1
          released := recordRelease s.released (StartBody now s.taskQueue).2 }
      else { s with phase := RunPhase.leaving }
    | _ => s
  | RunEvent.addTask params => { s with taskQueue := (AddTask s.taskQueue params).1 }
  | RunEvent.shutdown => { s with ctx := { s.ctx with Shutdown := true } }
  | RunEvent.wake =>
    match s.phase with
    | RunPhase.leaving =>
      { s with ctx := { s.ctx with DispatcherStopped := true }, phase := RunPhase.stopped }
    | _ => s

/-- The state after a sequence of events. -/
def runEvents (s : RunState) (events : List RunEvent) : RunState :=
  events.foldl runStep s

/-- The tasks a sequence of events adds. -/
def addedTasks : List RunEvent → List TaskParams
  | [] => []
  | RunEvent.addTask params :: events => params :: addedTasks events
  | _ :: events => addedTasks events

end dispatcherServiceImpl

/-! ## Stopping (`executorClientImpl.stop`, `registerServiceImpl.Unregister`) -/

/-- A step of the stop routine that other goroutines or the remote scheduler can see. -/
inductive StopStep where
  /-- The value `true` is stored into `context.Shutdown`. -/
  | storeShutdown
  /-- A value is stored into the flag `success` of the register service. -/
  | storeSuccess (value : Bool)
  /-- The unregister request for `address` is sent; `Shutdown` and `success` are the values
  of the two flags at that moment. -/
  | unregisterExecutor (address : String) (Shutdown success : Bool)
  /-- The routine enters `WaitGroup.Wait()`. -/
  | waitGroupWait
deriving DecidableEq

/-- The flags the stop routine works on, with the steps taken so far, oldest first. -/
structure StopState where
  ctx : Context
  /-- The flag `success` of the register service. -/
  success : Bool
  steps : List StopStep
deriving DecidableEq

namespace registerServiceImpl

/-- Go `IsSuccess`. -/
def IsSuccess (s : StopState) : Bool :=
  s.success

/-- Go `Unregister`; `answer` is what `UnregisterExecutor` of the open API service returns.
Yields the state afterwards and the value returned. -/
def Unregister (answer : Bool) (address : String) (s : StopState) : StopState × Bool :=
  let s : StopState :=
    { s with success := false, steps := s.steps ++ [StopStep.storeSuccess false] }
  let s : StopState :=
    { s with
      steps := s.steps ++ [StopStep.unregisterExecutor address s.ctx.Shutdown s.success] }
  (s, answer)

end registerServiceImpl

namespace executorClientImpl

/-- Go `stop` up to the point where it blocks in `WaitGroup.Wait()`; `address` is the answer
of `GetHttpServer().GetAddress()`. -/
def stop (answer : Bool) (address : String) (s : StopState) : StopState :=
  let s : StopState :=
    { s with
      ctx := { s.ctx with Shutdown := true }
      steps := s.steps ++ [StopStep.storeShutdown] }
  let s : StopState := (registerServiceImpl.Unregister answer address s).1
  { s with steps := s.steps ++ [StopStep.waitGroupWait] }

end executorClientImpl

/-! ## Task registration parameters (`buildTaskRegisterParams`) -/

/-- Go `bean.TaskRegisterParams`. -/
structure TaskRegisterParams where
  AppDesc : String := ""
  AppName : String := ""
  Cron : String := ""
  ExpiredStrategy : Int := 0
  ExpiredTime : Int := 0
  FailureRetryInterval : Int := 0
  FailureStrategy : Int := 0
  MaxRetryCount : Int := 0
  Method : String := ""
  Name : String := ""
  Remark : String := ""
  RouterStrategy : Int := 0
  Tag : String := ""
  Tenant : String := ""
  Timeout : Int := 0
deriving DecidableEq

namespace registerServiceImpl

/-- The composite literal that the loop of Go `buildTaskRegisterParams` appends for one
entry of the registry. -/
def taskRegisterParams (options : ExecutorOptions) (key : String) (taskOption : TaskOptions) :
    TaskRegisterParams :=
  { AppDesc := options.AppDesc
    AppName := options.AppName
    Cron := taskOption.Cron
    ExpiredStrategy := taskOption.ExpiredStrategy
    ExpiredTime := taskOption.ExpireTime
    FailureRetryInterval := taskOption.FailureRetryInterval
    FailureStrategy := taskOption.FailureStrategy
    MaxRetryCount := taskOption.MaxRetryCount
    Method := key
    Name := taskOption.Name
    Remark := taskOption.Remark
    RouterStrategy := taskOption.RouterStrategy
    Tag := options.Tag
    Tenant := options.Tenant
    Timeout := taskOption.Timeout }

/-- Go `buildTaskRegisterParams`: one `append` per entry of the registry, in the order the
`range` loop visits them (the order of the association list). -/
def buildTaskRegisterParams (options : ExecutorOptions) (taskOptions : GoMap TaskOptions) :
    List TaskRegisterParams :=
  taskOptions.foldl
    (fun params e => params ++ [taskRegisterParams options e.1 e.2]) []

end registerServiceImpl

/-! ## Results in the delivery queue -/

namespace resultSendServiceImpl

/-- The result queue after adding the results one by one, in list order, to an empty
queue. -/
def addAllResults (results : List TaskResult) : List TaskResult :=
  results.foldl (fun queue result => (AddResult queue result).1) []

end resultSendServiceImpl

/-! # Properties

## The binary heap -/

theorem Int64Comparator_le (a b : Int) : Int64Comparator a b ≤ 0 ↔ a ≤ b := by
  unfold Int64Comparator
  split_ifs <;> omega

theorem Int64Comparator_pos (a b : Int) : Int64Comparator a b > 0 ↔ a > b := by
  unfold Int64Comparator
  split_ifs <;> omega

theorem length_Swap {α : Type} (l : List α) (i j : Nat) : (Swap l i j).length = l.length := by
  unfold Swap
  split <;> simp

theorem getElem?_Swap {α : Type} (l : List α) (i j k : Nat) (hi : i < l.length) (hj : j < l.length) :
    (Swap l i j)[k]? = if k = j then l[i]? else if k = i then l[j]? else l[k]? := by
  unfold Swap
  rw [List.getElem?_eq_getElem hi, List.getElem?_eq_getElem hj]
  simp only [List.getElem?_set, List.length_set]
  by_cases h1 : k = j
  · subst h1; simp [hj]
  · by_cases h2 : k = i
    · subst h2; simp [h1, hi, Ne.symm h1]
    · simp [h1, h2, Ne.symm h1, Ne.symm h2]

theorem keyAt_Swap {α : Type} (key : α → Int) (l : List α) (i j k : Nat) (hi : i < l.length)
    (hj : j < l.length) :
    keyAt key (Swap l i j) k = if k = j then keyAt key l i else if k = i then keyAt key l j
      else keyAt key l k := by
  unfold keyAt
  rw [getElem?_Swap l i j k hi hj]
  split_ifs <;> rfl

theorem cons_set_perm {α : Type} (x b : α) : ∀ (xs : List α) (j : Nat), xs[j]? = some b →
    (b :: xs.set j x).Perm (x :: xs)
  | [], j, h => by simp at h
  | y :: ys, 0, h => by
    simp at h
    subst h
    simpa using List.Perm.swap x y ys
  | y :: ys, j + 1, h => by
    simp at h
    have ih := cons_set_perm x b ys j h
    simp only [List.set_cons_succ]
    exact ((List.Perm.swap y b _).trans (ih.cons y)).trans (List.Perm.swap x y ys)

theorem Swap_perm {α : Type} : ∀ (l : List α) (i j : Nat), (Swap l i j).Perm l := by
  intro l
  induction l with
  | nil => intro i j; simp [Swap]
  | cons x xs ih =>
    intro i j
    rcases i with _ | i <;> rcases j with _ | j
    · unfold Swap; simp
    · unfold Swap
      simp only [List.getElem?_cons_zero, List.getElem?_cons_succ]
      cases h : xs[j]? with
      | none => simp
      | some b => simpa using cons_set_perm x b xs j h
    · unfold Swap
      simp only [List.getElem?_cons_zero, List.getElem?_cons_succ]
      cases h : xs[i]? with
      | none => simp
      | some a => simpa using cons_set_perm x a xs i h
    · have := ih i j
      unfold Swap at this ⊢
      simp only [List.getElem?_cons_succ]
      cases h1 : xs[i]? with
      | none => simp
      | some a =>
        cases h2 : xs[j]? with
        | none => simp
        | some b =>
          simp only [h1, h2] at this
          simpa using this.cons x

theorem bubbleUpFrom_perm {α : Type} (cmp : α → α → Int) :
    ∀ (fuel : Nat) (l : List α) (i : Nat), (bubbleUpFrom cmp fuel l i).Perm l := by
  intro fuel
  induction fuel with
  | zero => intro l i; simp [bubbleUpFrom]
  | succ n ih =>
    intro l i
    unfold bubbleUpFrom
    split_ifs with h0
    · split
      · split_ifs
        · exact List.Perm.refl _
        · exact (ih _ _).trans (Swap_perm l _ _)
      · exact List.Perm.refl _
    · exact List.Perm.refl _

theorem bubbleDownIndex_perm {α : Type} (cmp : α → α → Int) :
    ∀ (fuel : Nat) (l : List α) (i : Nat), (bubbleDownIndex cmp fuel l i).Perm l := by
  intro fuel
  induction fuel with
  | zero => intro l i; simp [bubbleDownIndex]
  | succ n ih =>
    intro l i
    unfold bubbleDownIndex
    split_ifs
    · split
      · split_ifs
        · exact (ih _ _).trans (Swap_perm l _ _)
        · exact List.Perm.refl _
      · exact List.Perm.refl _
    · exact List.Perm.refl _

theorem keyAt_of_getElem? {α : Type} (key : α → Int) (l : List α) (i : Nat) (a : α)
    (h : l[i]? = some a) : keyAt key l i = key a := by
  simp [keyAt, h]

theorem bubbleUpFrom_ordered {α : Type} (key : α → Int) :
    ∀ (fuel : Nat) (l : List α) (i : Nat), i ≤ fuel → UpInv key l i →
      HeapOrdered key (bubbleUpFrom (cmpBy key) fuel l i) := by
  intro fuel
  induction fuel with
  | zero =>
    intro l i hi ⟨_, h1, _⟩
    have : i = 0 := by omega
    subst this
    intro j hjl hj0
    simp only [bubbleUpFrom] at hjl ⊢
    exact h1 j hj0 hjl (by omega)
  | succ n ih =>
    intro l i hi ⟨hil, h1, h2⟩
    unfold bubbleUpFrom
    split_ifs with h0
    · have hp : (i - 1) / 2 < l.length := by omega
      rw [List.getElem?_eq_getElem hil, List.getElem?_eq_getElem hp]
      dsimp only
      have ki : keyAt key l i = key l[i] := keyAt_of_getElem? key l i _ (List.getElem?_eq_getElem hil)
      have kp : keyAt key l ((i - 1) / 2) = key l[(i - 1) / 2] :=
        keyAt_of_getElem? key l _ _ (List.getElem?_eq_getElem hp)
      split_ifs with hc
      · intro j hjl hj0
        by_cases hji : j = i
        · subst hji
          rw [ki, kp]
          exact (Int64Comparator_le _ _).1 hc
        · exact h1 j hj0 hjl hji
      · have hlt : keyAt key l i < keyAt key l ((i - 1) / 2) := by
          rw [ki, kp]
          have := (Int64Comparator_le (key l[(i - 1) / 2]) (key l[i])).not.1 hc
          omega
        apply ih _ _ (by omega)
        refine ⟨by rw [length_Swap]; exact hp, ?_, ?_⟩
        · intro j hj0 hjl hjp
          rw [length_Swap] at hjl
          have hjp2 : (j - 1) / 2 < l.length := by omega
          rw [keyAt_Swap key l _ _ _ hil hp, keyAt_Swap key l _ _ _ hil hp]
          by_cases hji : j = i
          · subst hji
            rw [if_pos rfl, if_neg hjp, if_pos rfl]
            omega
          · simp only [if_neg hjp, if_neg hji]
            by_cases hpi : (j - 1) / 2 = i
            · have hne : (j - 1) / 2 ≠ (i - 1) / 2 := by omega
              simp only [if_neg hne, if_pos hpi]
              exact h2 j hj0 hjl hpi h0
            · by_cases hpp : (j - 1) / 2 = (i - 1) / 2
              · simp only [if_pos hpp]
                have := h1 j hj0 hjl hji
                rw [hpp] at this
                omega
              · simp only [if_neg hpp, if_neg hpi]
                exact h1 j hj0 hjl hji
        · intro j hj0 hjl hjp hp0
          rw [length_Swap] at hjl
          rw [keyAt_Swap key l _ _ _ hil hp, keyAt_Swap key l _ _ _ hil hp]
          have hne1 : ((i - 1) / 2 - 1) / 2 ≠ (i - 1) / 2 := by omega
          have hne2 : ((i - 1) / 2 - 1) / 2 ≠ i := by omega
          have hne3 : j ≠ (i - 1) / 2 := by omega
          simp only [if_neg hne1, if_neg hne2, if_neg hne3]
          have hpar := h1 ((i - 1) / 2) hp0 hp (by omega)
          by_cases hji : j = i
          · simp only [if_pos hji]
            exact hpar
          · simp only [if_neg hji]
            have := h1 j hj0 hjl hji
            rw [hjp] at this
            omega
    · have : i = 0 := by omega
      subst this
      intro j hjl hj0
      exact h1 j hj0 hjl (by omega)


theorem smallerIndex_spec {α : Type} (key : α → Int) (l : List α) (i : Nat)
    (h : 2 * i + 1 < l.length) :
    (smallerIndex (cmpBy key) l i = 2 * i + 1 ∨ smallerIndex (cmpBy key) l i = 2 * i + 2) ∧
    smallerIndex (cmpBy key) l i < l.length ∧
    keyAt key l (smallerIndex (cmpBy key) l i) ≤ keyAt key l (2 * i + 1) ∧
    (2 * i + 2 < l.length →
      keyAt key l (smallerIndex (cmpBy key) l i) ≤ keyAt key l (2 * i + 2)) := by
  unfold smallerIndex
  rw [List.getElem?_eq_getElem h]
  by_cases h2 : 2 * i + 2 < l.length
  · rw [List.getElem?_eq_getElem h2]
    dsimp only
    have k1 := keyAt_of_getElem? key l _ _ (List.getElem?_eq_getElem h)
    have k2 := keyAt_of_getElem? key l _ _ (List.getElem?_eq_getElem h2)
    split_ifs with hc
    · have := (Int64Comparator_pos _ _).1 hc
      refine ⟨Or.inr rfl, h2, ?_, fun _ => le_refl _⟩
      rw [k1, k2]; omega
    · have := (Int64Comparator_pos (key l[2 * i + 1]) (key l[2 * i + 2])).not.1 hc
      refine ⟨Or.inl rfl, h, le_refl _, fun _ => ?_⟩
      rw [k1, k2]; omega
  · rw [List.getElem?_eq_none (by omega)]
    exact ⟨Or.inl rfl, h, le_refl _, fun h3 => absurd h3 h2⟩

theorem bubbleDownIndex_ordered {α : Type} (key : α → Int) :
    ∀ (fuel : Nat) (l : List α) (i : Nat), l.length ≤ fuel + i → DownInv key l i →
      HeapOrdered key (bubbleDownIndex (cmpBy key) fuel l i) := by
  intro fuel
  induction fuel with
  | zero =>
    intro l i hi ⟨h1, _⟩ j hjl hj0
    simp only [bubbleDownIndex] at hjl ⊢
    exact h1 j hj0 hjl (by omega)
  | succ n ih =>
    intro l i hi ⟨h1, h2⟩
    unfold bubbleDownIndex
    split_ifs with hl
    · obtain ⟨hs, hsl, hs1, hs2⟩ := smallerIndex_spec key l i hl
      generalize smallerIndex (cmpBy key) l i = s at hs hsl hs1 hs2 ⊢
      have hil : i < l.length := by omega
      rw [List.getElem?_eq_getElem hil, List.getElem?_eq_getElem hsl]
      dsimp only
      have ki := keyAt_of_getElem? key l _ _ (List.getElem?_eq_getElem hil)
      have ks := keyAt_of_getElem? key l _ _ (List.getElem?_eq_getElem hsl)
      have hsmall : ∀ j, 0 < j → j < l.length → (j - 1) / 2 = i →
          keyAt key l s ≤ keyAt key l j := by
        intro j hj0 hjl hji
        have : j = 2 * i + 1 ∨ j = 2 * i + 2 := by omega
        rcases this with rfl | rfl
        · exact hs1
        · exact hs2 hjl
      split_ifs with hc
      · have hlt : keyAt key l s < keyAt key l i := by
          rw [ki, ks]
          have := (Int64Comparator_pos (key l[i]) (key l[s])).1 hc
          omega
        apply ih _ _ (by rw [length_Swap]; omega)
        refine ⟨?_, ?_⟩
        · intro j hj0 hjl hjp
          rw [length_Swap] at hjl
          rw [keyAt_Swap key l _ _ _ hil hsl, keyAt_Swap key l _ _ _ hil hsl]
          rw [if_neg hjp]
          by_cases hjs : j = s
          · have hpi : (j - 1) / 2 = i := by omega
            rw [if_pos hpi, if_pos hjs]
            omega
          · rw [if_neg hjs]
            by_cases hji : j = i
            · rw [if_pos hji]
              have hne : (j - 1) / 2 ≠ i := by omega
              rw [if_neg hne]
              subst hji
              exact h2 s (by omega) hsl (by omega) hj0
            · rw [if_neg hji]
              by_cases hpi : (j - 1) / 2 = i
              · rw [if_pos hpi]
                exact hsmall j hj0 hjl hpi
              · rw [if_neg hpi]
                exact h1 j hj0 hjl hpi
        · intro j hj0 hjl hjp hs0
          rw [length_Swap] at hjl
          rw [keyAt_Swap key l _ _ _ hil hsl, keyAt_Swap key l _ _ _ hil hsl]
          have hpsi : (s - 1) / 2 = i := by omega
          have hne1 : (s - 1) / 2 ≠ s := by omega
          have hne2 : j ≠ s := by omega
          have hne3 : j ≠ i := by omega
          rw [if_neg hne1, if_pos hpsi, if_neg hne2, if_neg hne3]
          have := h1 j hj0 hjl (by omega)
          rw [hjp] at this
          exact this
      · have hle : keyAt key l i ≤ keyAt key l s := by
          rw [ki, ks]
          have := (Int64Comparator_pos (key l[i]) (key l[s])).not.1 hc
          omega
        intro j hjl hj0
        by_cases hpi : (j - 1) / 2 = i
        · rw [hpi]
          exact le_trans hle (hsmall j hj0 hjl hpi)
        · exact h1 j hj0 hjl hpi
    · intro j hjl hj0
      exact h1 j hj0 hjl (by omega)

theorem HeapOrdered_root_le {α : Type} (key : α → Int) (l : List α) (h : HeapOrdered key l) :
    ∀ i, i < l.length → keyAt key l 0 ≤ keyAt key l i := by
  intro i
  induction i using Nat.strong_induction_on with
  | _ i ih =>
    intro hi
    by_cases h0 : i = 0
    · subst h0; exact le_refl _
    · exact le_trans (ih ((i - 1) / 2) (by omega) (by omega)) (h i hi (by omega))


theorem keyAt_append_left {α : Type} (key : α → Int) (l : List α) (x : α) (i : Nat)
    (h : i < l.length) : keyAt key (l ++ [x]) i = keyAt key l i := by
  unfold keyAt
  rw [List.getElem?_append_left h]

theorem Push_perm {α : Type} (cmp : α → α → Int) (l : List α) (x : α) :
    (Push cmp l x).Perm (x :: l) := by
  unfold Push bubbleUp
  exact (bubbleUpFrom_perm cmp _ _ _).trans (List.perm_append_singleton x l)

theorem Push_ordered {α : Type} (key : α → Int) (l : List α) (x : α) (h : HeapOrdered key l) :
    HeapOrdered key (Push (cmpBy key) l x) := by
  unfold Push bubbleUp
  have hlen : (l ++ [x]).length - 1 = l.length := by simp
  rw [hlen]
  apply bubbleUpFrom_ordered key _ _ _ (by simp)
  refine ⟨by simp, ?_, ?_⟩
  · intro j hj0 hjl hjn
    have hjl2 : j < l.length := by
      simp only [List.length_append, List.length_singleton] at hjl
      omega
    rw [keyAt_append_left key l x _ (by omega), keyAt_append_left key l x _ hjl2]
    exact h j hjl2 hj0
  · intro j hj0 hjl hjp
    simp only [List.length_append, List.length_singleton] at hjl
    omega

theorem Pop_fst_eq_none {α : Type} (cmp : α → α → Int) (l : List α) :
    (Pop cmp l).1 = none ↔ l = [] := by
  unfold Pop
  cases l with
  | nil => simp
  | cons a t => simp

theorem Pop_nil {α : Type} (cmp : α → α → Int) : Pop cmp ([] : List α) = (none, []) := rfl

theorem perm_cons_eraseIdx {α : Type} (a : α) : ∀ (l : List α) (i : Nat), l[i]? = some a →
    (a :: l.eraseIdx i).Perm l
  | [], i, h => by simp at h
  | y :: ys, 0, h => by
    simp at h
    subst h
    simp
  | y :: ys, i + 1, h => by
    simp at h
    have ih := perm_cons_eraseIdx a ys i h
    simp only [List.eraseIdx_cons_succ]
    exact (List.Perm.swap y a _).trans (ih.cons y)

theorem Pop_perm {α : Type} (cmp : α → α → Int) (l : List α) (v : α)
    (h : (Pop cmp l).1 = some v) : (v :: (Pop cmp l).2).Perm l := by
  unfold Pop at h ⊢
  cases h0 : l[0]? with
  | none => simp [h0] at h
  | some w =>
    simp only [h0] at h ⊢
    cases h
    have hl : 0 < l.length := by
      rcases List.getElem?_eq_some.1 h0 with ⟨hl, _⟩
      exact hl
    have hlast : (Swap l 0 (l.length - 1))[l.length - 1]? = some v := by
      rw [getElem?_Swap l 0 (l.length - 1) _ hl (by omega), if_pos rfl, h0]
    exact ((bubbleDownIndex_perm cmp _ _ _).cons v).trans
      ((perm_cons_eraseIdx v _ _ hlast).trans (Swap_perm l _ _))

theorem Pop_ordered {α : Type} (key : α → Int) (l : List α) (h : HeapOrdered key l) :
    HeapOrdered key (Pop (cmpBy key) l).2 := by
  unfold Pop
  cases h0 : l[0]? with
  | none => exact h
  | some w =>
    dsimp only
    have hl : 0 < l.length := by
      rcases List.getElem?_eq_some.1 h0 with ⟨hl, _⟩
      exact hl
    have hlen : ((Swap l 0 (l.length - 1)).eraseIdx (l.length - 1)).length = l.length - 1 := by
      rw [List.length_eraseIdx, length_Swap, if_pos (by omega)]
    apply bubbleDownIndex_ordered key _ _ _ (by rw [hlen]; omega)
    have hk : ∀ k, 0 < k → k < l.length - 1 →
        keyAt key ((Swap l 0 (l.length - 1)).eraseIdx (l.length - 1)) k = keyAt key l k := by
      intro k hk0 hkl
      unfold keyAt
      rw [List.getElem?_eraseIdx, if_pos hkl,
        getElem?_Swap l 0 (l.length - 1) k hl (by omega), if_neg (by omega), if_neg (by omega)]
    refine ⟨?_, ?_⟩
    · intro j hj0 hjl hjp
      rw [hlen] at hjl
      rw [hk j hj0 hjl, hk _ (by omega) (by omega)]
      exact h j (by omega) hj0
    · intro j _ _ _ h00
      exact absurd h00 (lt_irrefl 0)

theorem Pop_min {α : Type} (key : α → Int) (l : List α) (h : HeapOrdered key l) (v : α)
    (hv : (Pop (cmpBy key) l).1 = some v) : ∀ a ∈ l, key v ≤ key a := by
  intro a ha
  unfold Pop at hv
  cases h0 : l[0]? with
  | none => simp [h0] at hv
  | some w =>
    simp only [h0] at hv
    cases hv
    obtain ⟨n, hn⟩ := List.mem_iff_getElem?.1 ha
    have hnl : n < l.length := by
      rcases List.getElem?_eq_some.1 hn with ⟨hl, _⟩
      exact hl
    have := HeapOrdered_root_le key l h n hnl
    rwa [keyAt_of_getElem? key l 0 v h0, keyAt_of_getElem? key l n a hn] at this


/-! ## The dispatch queue -/

section DispatchQueue

open dispatcherServiceImpl

theorem taskComparator_eq : taskComparator = cmpBy TaskParams.ExecutionTime := rfl

theorem getTask_eq (queue : List TaskParams) :
    getTask queue = Pop taskComparator queue := by
  unfold getTask Dequeue
  rcases h : Pop taskComparator queue with ⟨_ | v, q⟩ <;> rfl

theorem AddTask_fst (queue : List TaskParams) (params : TaskParams) :
    (AddTask queue params).1 = Push taskComparator queue params := rfl

theorem HeapOrdered_nil {α : Type} (key : α → Int) : HeapOrdered key ([] : List α) := by
  intro i hi
  simp at hi

theorem addAll_from_ordered (tasks : List TaskParams) :
    ∀ queue : List TaskParams, HeapOrdered TaskParams.ExecutionTime queue →
      HeapOrdered TaskParams.ExecutionTime
        (tasks.foldl (fun queue params => (AddTask queue params).1) queue) ∧
      (tasks.foldl (fun queue params => (AddTask queue params).1) queue).Perm (queue ++ tasks) := by
  induction tasks with
  | nil => intro queue h; simpa using h
  | cons t ts ih =>
    intro queue h
    simp only [List.foldl_cons]
    have h1 : HeapOrdered TaskParams.ExecutionTime (AddTask queue t).1 := by
      rw [AddTask_fst, taskComparator_eq]
      exact Push_ordered _ _ _ h
    obtain ⟨ho, hp⟩ := ih _ h1
    refine ⟨ho, hp.trans ?_⟩
    rw [AddTask_fst]
    have := (Push_perm taskComparator queue t).trans (List.perm_append_singleton t queue).symm
    simpa using this.append_right ts

theorem getTasks_drain :
    ∀ (n : Nat) (queue : List TaskParams), HeapOrdered TaskParams.ExecutionTime queue →
      queue.length = n →
      ∃ out : List TaskParams, getTasks n queue = (out.map some, []) ∧ out.Perm queue ∧
        out.Pairwise (fun a b => a.ExecutionTime ≤ b.ExecutionTime) := by
  intro n
  induction n with
  | zero =>
    intro queue _ hlen
    refine ⟨[], ?_, ?_, List.Pairwise.nil⟩
    · have : queue = [] := List.length_eq_zero.1 hlen
      subst this
      rfl
    · have : queue = [] := List.length_eq_zero.1 hlen
      subst this
      exact List.Perm.refl _
  | succ n ih =>
    intro queue ho hlen
    cases hp : (Pop taskComparator queue).1 with
    | none =>
      have := (Pop_fst_eq_none taskComparator queue).1 hp
      subst this
      simp at hlen
    | some v =>
      have hperm := Pop_perm taskComparator queue v hp
      have hord : HeapOrdered TaskParams.ExecutionTime (Pop taskComparator queue).2 := by
        rw [taskComparator_eq]; exact Pop_ordered _ _ ho
      have hmin := Pop_min TaskParams.ExecutionTime queue ho v (by rw [← taskComparator_eq]; exact hp)
      have hlen2 : (Pop taskComparator queue).2.length = n := by
        have := hperm.length_eq
        simp only [List.length_cons] at this
        omega
      obtain ⟨out, hout, hpo, hso⟩ := ih _ hord hlen2
      refine ⟨v :: out, ?_, ?_, ?_⟩
      · simp only [getTasks, getTask_eq, hp, hout, List.map_cons]
      · exact (hpo.cons v).trans hperm
      · refine List.Pairwise.cons ?_ hso
        intro a ha
        exact hmin a (hperm.subset (List.mem_cons_of_mem _ (hpo.subset ha)))

theorem getTasks_nil (k : Nat) : getTasks k [] = (List.replicate k none, []) := by
  induction k with
  | zero => rfl
  | succ k ih =>
    simp only [getTasks, getTask_eq, Pop_nil, ih, List.replicate_succ]

theorem getTasks_add (n k : Nat) : ∀ queue : List TaskParams,
    getTasks (n + k) queue =
      ((getTasks n queue).1 ++ (getTasks k (getTasks n queue).2).1,
        (getTasks k (getTasks n queue).2).2) := by
  induction n with
  | zero => intro queue; simp [getTasks]
  | succ n ih =>
    intro queue
    have : n + 1 + k = (n + k) + 1 := by omega
    rw [this]
    simp only [getTasks, ih, List.cons_append]


theorem sorted_perm_unique (out expected : List TaskParams) (hp : out.Perm expected)
    (hs : out.Pairwise (fun a b => a.ExecutionTime ≤ b.ExecutionTime))
    (he : expected.Pairwise (fun a b => a.ExecutionTime < b.ExecutionTime)) :
    out = expected := by
  haveI : IsAntisymm TaskParams (fun a b => a.ExecutionTime < b.ExecutionTime) :=
    ⟨fun a b h1 h2 => (lt_asymm h1 h2).elim⟩
  have hne : expected.Pairwise (fun a b => a.ExecutionTime ≠ b.ExecutionTime) :=
    he.imp (fun h => ne_of_lt h)
  have hne2 : out.Pairwise (fun a b => a.ExecutionTime ≠ b.ExecutionTime) :=
    hp.symm.pairwise hne (fun h => Ne.symm h)
  have hlt : out.Pairwise (fun a b => a.ExecutionTime < b.ExecutionTime) :=
    (hs.and hne2).imp (fun h => lt_of_le_of_ne h.1 h.2)
  exact List.eq_of_perm_of_sorted hp hlt he

/-- C1: tasks added with AddTask in any order come back from repeated getTask calls in
non-decreasing ExecutionTime order, each exactly once, and getTask answers nil exactly when
the queue is empty; tasks due at now+200, now+50, now+100 come out as 50, 100, 200. -/
theorem C1_getTask_in_ExecutionTime_order (tasks : List TaskParams) :
    (∃ out : List TaskParams,
      getTasks tasks.length (addAll tasks) = (out.map some, []) ∧
      out.Perm tasks ∧
      out.Pairwise (fun a b => a.ExecutionTime ≤ b.ExecutionTime) ∧
      ∀ k, (getTasks (tasks.length + k) (addAll tasks)).1
        = out.map some ++ List.replicate k none) ∧
    (∀ queue : List TaskParams, (getTask queue).1 = none ↔ Size queue = 0) ∧
    (∀ now : Int,
      (getTasks 3 (addAll [{ ExecutionTime := now + 200 }, { ExecutionTime := now + 50 },
        { ExecutionTime := now + 100 }])).1
      = [some { ExecutionTime := now + 50 }, some { ExecutionTime := now + 100 },
          some { ExecutionTime := now + 200 }]) := by
  have key : ∀ ts : List TaskParams, ∃ out : List TaskParams,
      getTasks ts.length (addAll ts) = (out.map some, []) ∧ out.Perm ts ∧
      out.Pairwise (fun a b => a.ExecutionTime ≤ b.ExecutionTime) := by
    intro ts
    obtain ⟨ho, hp⟩ := addAll_from_ordered ts [] (HeapOrdered_nil _)
    simp only [List.nil_append] at hp
    obtain ⟨out, h1, h2, h3⟩ := getTasks_drain ts.length (addAll ts) ho hp.length_eq
    exact ⟨out, h1, h2.trans hp, h3⟩
  refine ⟨?_, ?_, ?_⟩
  · obtain ⟨out, h1, h2, h3⟩ := key tasks
    refine ⟨out, h1, h2, h3, ?_⟩
    intro k
    rw [getTasks_add, h1]
    simp only [getTasks_nil]
  · intro queue
    rw [getTask_eq, Pop_fst_eq_none]
    exact List.length_eq_zero.symm
  · intro now
    obtain ⟨out, h1, h2, h3⟩ := key [{ ExecutionTime := now + 200 }, { ExecutionTime := now + 50 },
        { ExecutionTime := now + 100 }]
    have h4 : out = [{ ExecutionTime := now + 50 }, { ExecutionTime := now + 100 },
        { ExecutionTime := now + 200 }] := by
      apply sorted_perm_unique out _ _ h3
      · simp
      · refine h2.trans ?_
        exact (List.Perm.swap _ _ _).trans ((List.Perm.swap _ _ _).cons _)
    simp only [List.length_cons, List.length_nil] at h1
    rw [h1, h4]
    rfl

end DispatchQueue

/-! ## The run loop of the dispatcher -/

section DispatchLoop

open dispatcherServiceImpl

theorem wrapInt64_of_isInt64 (x : Int) (h : isInt64 x) : wrapInt64 x = x := by
  unfold isInt64 at h
  unfold wrapInt64
  omega

theorem getTask_mem (taskQueue : List TaskParams) (t : TaskParams)
    (h : (getTask taskQueue).1 = some t) : t ∈ taskQueue := by
  rw [getTask_eq] at h
  exact (Pop_perm taskComparator taskQueue t h).subset (List.mem_cons_self _ _)

theorem StartBody_of_getTask (now : Int) (taskQueue : List TaskParams) (t : TaskParams)
    (h : (getTask taskQueue).1 = some t) :
    StartBody now taskQueue =
      if wrapInt64 (t.ExecutionTime - now) > 0 then
        ((AddTask (getTask taskQueue).2 t).1,
          Dispatch.requeued t (wrapInt64 (t.ExecutionTime - now)))
      else ((getTask taskQueue).2, Dispatch.invoked t) := by
  unfold StartBody
  rcases hg : getTask taskQueue with ⟨_ | v, q⟩
  · rw [hg] at h; simp at h
  · rw [hg] at h
    simp only [Option.some.injEq] at h
    subst h
    rfl

theorem StartBody_invoked (now : Int) (taskQueue : List TaskParams) (t : TaskParams)
    (h : (StartBody now taskQueue).2 = Dispatch.invoked t) :
    (getTask taskQueue).1 = some t ∧ wrapInt64 (t.ExecutionTime - now) ≤ 0 := by
  unfold StartBody at h
  rcases hg : getTask taskQueue with ⟨_ | v, q⟩
  · rw [hg] at h; simp at h
  · rw [hg] at h
    dsimp only at h
    split_ifs at h with hr
    · simp only [Dispatch.invoked.injEq] at h
      subst h
      exact ⟨rfl, by omega⟩

/-- C2: for every queue of int64 execution times and every int64 clock reading now ≥ 0 (an
epoch-millisecond reading of time.Now().UnixMilli()), a pass of the run loop hands the popped
task to invokeTask only if its ExecutionTime - now ≤ 0 (computed in int64 and exactly); when
the popped task has ExecutionTime > now the pass releases nothing: it adds the task back,
with remaining = ExecutionTime - now, and asks time.Sleep for
Duration(remaining)*Millisecond - 1 nanoseconds, a product that wraps in int64. -/
theorem C2_no_release_before_ExecutionTime (now : Int) (taskQueue : List TaskParams)
    (hnow : 0 ≤ now) (hnow64 : isInt64 now)
    (hq : ∀ t ∈ taskQueue, isInt64 t.ExecutionTime) :
    (∀ t, (StartBody now taskQueue).2 = Dispatch.invoked t →
      (getTask taskQueue).1 = some t ∧ wrapInt64 (t.ExecutionTime - now) ≤ 0 ∧
        t.ExecutionTime - now ≤ 0) ∧
    (∀ t, (getTask taskQueue).1 = some t → t.ExecutionTime > now →
      (StartBody now taskQueue).2 = Dispatch.requeued t (t.ExecutionTime - now) ∧
      (∀ t2, (StartBody now taskQueue).2 ≠ Dispatch.invoked t2) ∧
      (StartBody now taskQueue).2.Sleep
        = wrapInt64 (wrapInt64 ((t.ExecutionTime - now) * 1000000) - 1)) := by
  have hw : ∀ t, (getTask taskQueue).1 = some t → 0 < t.ExecutionTime - now →
      wrapInt64 (t.ExecutionTime - now) = t.ExecutionTime - now := by
    intro t ht hpos
    have h64 := hq t (getTask_mem taskQueue t ht)
    apply wrapInt64_of_isInt64
    unfold isInt64 at h64 hnow64 ⊢
    omega
  refine ⟨?_, ?_⟩
  · intro t ht
    obtain ⟨hg, hr⟩ := StartBody_invoked now taskQueue t ht
    refine ⟨hg, hr, ?_⟩
    by_contra hcon
    have := hw t hg (by omega)
    omega
  · intro t hg hlt
    have h1 := hw t hg (by omega)
    rw [StartBody_of_getTask now taskQueue t hg, h1, if_pos (by omega)]
    exact ⟨rfl, fun t2 h => (by simp at h), rfl⟩

/-- C2 at the clock reading 1000, with one task due at 500 and with one due at 1500. -/
theorem C2_no_release_before_ExecutionTime_witness :
    (0 : Int) ≤ 1000 ∧ isInt64 1000 ∧
    (StartBody 1000 [{ ExecutionTime := 500 }]).2 = Dispatch.invoked { ExecutionTime := 500 } ∧
    (StartBody 1000 [{ ExecutionTime := 1500 }]).2
      = Dispatch.requeued { ExecutionTime := 1500 } 500 :=
  ⟨by decide, by decide, by decide,
    ((C2_no_release_before_ExecutionTime 1000 [{ ExecutionTime := 1500 }] (by decide) (by decide)
      (by decide)).2 { ExecutionTime := 1500 } (by decide) (by decide)).1⟩

end DispatchLoop

/-! ## Task invocation -/

section Invocation

open dispatcherServiceImpl resultSendServiceImpl

theorem AddResult_fst (resultQueue : List TaskResult) (result : TaskResult) :
    (AddResult resultQueue result).1 = Push taskResultComparator resultQueue result := rfl

theorem AddResult_perm (resultQueue : List TaskResult) (result : TaskResult) :
    (AddResult resultQueue result).1.Perm (result :: resultQueue) := by
  rw [AddResult_fst]
  exact Push_perm _ _ _

theorem perm_cons_inj {α : Type} [DecidableEq α] (a b : α) (l : List α)
    (h : (a :: l).Perm (b :: l)) : a = b := by
  have := h.count_eq a
  simp only [List.count_cons_self, List.count_cons] at this
  by_contra hne
  have hb : (b == a) = false := by simpa using Ne.symm hne
  rw [hb] at this
  simp at this

theorem invokeTask_returns (handlers : GoMap Handler) (address : String) (params : TaskParams)
    (startTime endTime : Int) (stack : String) (resultQueue : List TaskResult)
    (handler : Handler) (hfound : GoMap.get handlers params.Method = some handler)
    (handlerResult : HandlerResult)
    (hres : (handler params).outcome = HandlerOutcome.returns handlerResult) :
    invokeTask handlers address params startTime endTime stack resultQueue =
      { resultQueue :=
          (AddResult resultQueue
            { TaskLogId := (handler params).params.TaskLogId
              TaskId := (handler params).params.TaskId
              State :=
                if handlerResult.Code = 0 then TaskLogState.EXECUTION_SUCCESS
                else TaskLogState.EXECUTION_FAILED
              FailedReason :=
                if handlerResult.Code = 0 then ""
                else "cron job task handler failed, code:" ++ toString handlerResult.Code
                  ++ ", msg:" ++ handlerResult.Msg
              RealExecutionTime := startTime
              ElapsedTime := wrapInt64 (endTime - startTime)
              Address := address }).1
        completion := Completion.returned
        handlerCalls := 1
        params := (handler params).params } := by
  unfold invokeTask
  rw [hfound]
  simp only [invokeTaskDeferred, invokeTaskBody, hres, HandlerResult.IsSuccess]
  by_cases hc : handlerResult.Code = 0
  · simp [hc]
  · simp [hc]

theorem invokeTask_returnsNil (handlers : GoMap Handler) (address : String)
    (params : TaskParams) (startTime endTime : Int) (stack : String)
    (resultQueue : List TaskResult) (handler : Handler)
    (hfound : GoMap.get handlers params.Method = some handler)
    (hres : (handler params).outcome = HandlerOutcome.returnsNil) :
    invokeTask handlers address params startTime endTime stack resultQueue =
      { resultQueue :=
          (AddResult resultQueue
            { TaskLogId := (handler params).params.TaskLogId
              TaskId := (handler params).params.TaskId
              State := TaskLogState.EXECUTION_FAILED
              FailedReason :=
                "result is null, please check the return value of the method: "
                  ++ (handler params).params.Method
              RealExecutionTime := startTime
              ElapsedTime := wrapInt64 (endTime - startTime)
              Address := address }).1
        completion := Completion.returned
        handlerCalls := 1
        params := (handler params).params } := by
  unfold invokeTask
  rw [hfound]
  simp only [invokeTaskDeferred, invokeTaskBody, hres]

theorem invokeTask_panics (handlers : GoMap Handler) (address : String)
    (params : TaskParams) (startTime endTime : Int) (stack : String)
    (resultQueue : List TaskResult) (handler : Handler)
    (hfound : GoMap.get handlers params.Method = some handler) (r : String)
    (hres : (handler params).outcome = HandlerOutcome.panics r) :
    invokeTask handlers address params startTime endTime stack resultQueue =
      { resultQueue :=
          (AddResult resultQueue
            { TaskLogId := (handler params).params.TaskLogId
              TaskId := (handler params).params.TaskId
              State := TaskLogState.EXECUTION_FAILED
              FailedReason := r ++ "\r\n\r\n" ++ stack
              RealExecutionTime := startTime
              ElapsedTime := wrapInt64 (endTime - startTime)
              Address := address }).1
        completion := Completion.returned
        handlerCalls := 1
        params := (handler params).params } := by
  unfold invokeTask
  rw [hfound]
  simp only [invokeTaskDeferred, invokeTaskBody, hres]

theorem invokeTask_not_found (handlers : GoMap Handler) (address : String)
    (params : TaskParams) (startTime endTime : Int) (stack : String)
    (resultQueue : List TaskResult)
    (hmissing : GoMap.get handlers params.Method = none) :
    invokeTask handlers address params startTime endTime stack resultQueue =
      { resultQueue :=
          (AddResult resultQueue
            { TaskLogId := params.TaskLogId
              TaskId := params.TaskId
              State := TaskLogState.EXECUTION_FAILED_NOT_FOUND }).1
        completion := Completion.returned
        handlerCalls := 0
        params := params } := by
  unfold invokeTask
  rw [hmissing]

/-- C4: when the registered handler panics with a value r, invokeTask ends by returning (the
panic does not reach its caller) and adds one result, with State EXECUTION_FAILED and a
FailedReason made of the formatted r, "\r\n\r\n" and the stack trace, so the reason contains
the panic message; the ids of the result are read from the params as the handler left
them. -/
theorem C4_invokeTask_contains_panic (handlers : GoMap Handler) (address : String)
    (params : TaskParams) (startTime endTime : Int) (stack : String)
    (resultQueue : List TaskResult) (handler : Handler)
    (hfound : GoMap.get handlers params.Method = some handler) (r : String)
    (hpanic : (handler params).outcome = HandlerOutcome.panics r) :
    (invokeTask handlers address params startTime endTime stack resultQueue).completion
      = Completion.returned ∧
    (invokeTask handlers address params startTime endTime stack resultQueue).resultQueue =
      (AddResult resultQueue
        { TaskLogId := (handler params).params.TaskLogId
          TaskId := (handler params).params.TaskId
          State := TaskLogState.EXECUTION_FAILED
          FailedReason := r ++ "\r\n\r\n" ++ stack
          RealExecutionTime := startTime
          ElapsedTime := wrapInt64 (endTime - startTime)
          Address := address }).1 ∧
    (∃ result : TaskResult,
      (invokeTask handlers address params startTime endTime stack resultQueue).resultQueue.Perm
        (result :: resultQueue) ∧
      result.State = TaskLogState.EXECUTION_FAILED ∧
      ∃ rest : String, result.FailedReason = r ++ rest) := by
  rw [invokeTask_panics handlers address params startTime endTime stack resultQueue handler
    hfound r hpanic]
  refine ⟨rfl, rfl, ⟨_, AddResult_perm _ _, rfl, "\r\n\r\n" ++ stack, ?_⟩⟩
  simp [String.append_assoc]

/-- C4 at a handler that panics with "boom": invokeTask returns and the one result in the
queue is EXECUTION_FAILED with a reason that starts with "boom". -/
theorem C4_invokeTask_contains_panic_witness :
    GoMap.get [("app/main.Demo.Handle", demoHandlerPanicking)]
      ({ Method := "app/main.Demo.Handle", TaskLogId := 11, TaskId := 3 } : TaskParams).Method
      = some demoHandlerPanicking ∧
    (demoHandlerPanicking
      { Method := "app/main.Demo.Handle", TaskLogId := 11, TaskId := 3 }).outcome
      = HandlerOutcome.panics "boom" ∧
    (invokeTask [("app/main.Demo.Handle", demoHandlerPanicking)]
      "10.0.0.1:8080" { Method := "app/main.Demo.Handle", TaskLogId := 11, TaskId := 3 }
      1000 1250 "goroutine 7 [running]:" []).resultQueue =
      [{ TaskLogId := 11
         TaskId := 3
         State := TaskLogState.EXECUTION_FAILED
         FailedReason := "boom\r\n\r\ngoroutine 7 [running]:"
         RealExecutionTime := 1000
         ElapsedTime := 250
         Address := "10.0.0.1:8080" }] :=
  ⟨rfl, rfl,
    ((C4_invokeTask_contains_panic [("app/main.Demo.Handle", demoHandlerPanicking)]
      "10.0.0.1:8080" { Method := "app/main.Demo.Handle", TaskLogId := 11, TaskId := 3 }
      1000 1250 "goroutine 7 [running]:" [] demoHandlerPanicking rfl "boom" rfl).2.1).trans
        (by decide)⟩

/-- C5: when the method of the params is not a key of the handler registry, invokeTask calls
no handler and adds a result with State EXECUTION_FAILED_NOT_FOUND that carries the TaskLogId
and TaskId of the params. -/
theorem C5_invokeTask_not_found (handlers : GoMap Handler) (address : String)
    (params : TaskParams) (startTime endTime : Int) (stack : String)
    (resultQueue : List TaskResult)
    (hmissing : GoMap.get handlers params.Method = none) :
    (invokeTask handlers address params startTime endTime stack resultQueue).handlerCalls = 0 ∧
    (invokeTask handlers address params startTime endTime stack resultQueue).completion
      = Completion.returned ∧
    ∃ result : TaskResult,
      (invokeTask handlers address params startTime endTime stack resultQueue).resultQueue
        = (AddResult resultQueue result).1 ∧
      (invokeTask handlers address params startTime endTime stack resultQueue).resultQueue.Perm
        (result :: resultQueue) ∧
      result.State = TaskLogState.EXECUTION_FAILED_NOT_FOUND ∧
      result.TaskLogId = params.TaskLogId ∧ result.TaskId = params.TaskId := by
  rw [invokeTask_not_found handlers address params startTime endTime stack resultQueue hmissing]
  exact ⟨rfl, rfl, _, rfl, AddResult_perm _ _, rfl, rfl, rfl⟩

/-- C5 at a registry that holds another method only. -/
theorem C5_invokeTask_not_found_witness :
    GoMap.get [("app/main.Demo.Handle", demoHandlerFailing)]
      ({ Method := "app/main.Other.Handle", TaskLogId := 11, TaskId := 3 } : TaskParams).Method
      = none ∧
    (invokeTask [("app/main.Demo.Handle", demoHandlerFailing)]
      "10.0.0.1:8080" { Method := "app/main.Other.Handle", TaskLogId := 11, TaskId := 3 }
      1000 1250 "stack" []).handlerCalls = 0 ∧
    (invokeTask [("app/main.Demo.Handle", demoHandlerFailing)]
      "10.0.0.1:8080" { Method := "app/main.Other.Handle", TaskLogId := 11, TaskId := 3 }
      1000 1250 "stack" []).resultQueue =
      [{ TaskLogId := 11, TaskId := 3, State := TaskLogState.EXECUTION_FAILED_NOT_FOUND }] :=
  ⟨rfl,
    (C5_invokeTask_not_found [("app/main.Demo.Handle", demoHandlerFailing)]
      "10.0.0.1:8080" { Method := "app/main.Other.Handle", TaskLogId := 11, TaskId := 3 }
      1000 1250 "stack" [] rfl).1,
    by decide⟩

/-- C6 (as stated, refuted): a registered handler that overwrites the ids of the params it is
handed (to 999 and 888) and returns success makes invokeTask, called with params whose
TaskLogId is 11 and TaskId is 3, add a result that carries 999 and 888. -/
theorem C6_result_carries_ids_written_by_handler :
    GoMap.get [("app/main.Demo.Handle", demoHandlerRewriting)]
      ({ Method := "app/main.Demo.Handle", TaskLogId := 11, TaskId := 3 } : TaskParams).Method
      = some demoHandlerRewriting ∧
    (invokeTask [("app/main.Demo.Handle", demoHandlerRewriting)]
      "10.0.0.1:8080" { Method := "app/main.Demo.Handle", TaskLogId := 11, TaskId := 3 }
      1000 1250 "stack" []).resultQueue =
      [{ TaskLogId := 999
         TaskId := 888
         State := TaskLogState.EXECUTION_SUCCESS
         FailedReason := ""
         RealExecutionTime := 1000
         ElapsedTime := 250
         Address := "10.0.0.1:8080" }] ∧
    ¬ ∃ result : TaskResult,
      (invokeTask [("app/main.Demo.Handle", demoHandlerRewriting)]
        "10.0.0.1:8080" { Method := "app/main.Demo.Handle", TaskLogId := 11, TaskId := 3 }
        1000 1250 "stack" []).resultQueue.Perm [result] ∧
      result.TaskLogId = 11 ∧ result.TaskId = 3 := by
  refine ⟨rfl, by decide, ?_⟩
  rintro ⟨result, hperm, hid, _⟩
  have hq : (invokeTask [("app/main.Demo.Handle", demoHandlerRewriting)]
      "10.0.0.1:8080" { Method := "app/main.Demo.Handle", TaskLogId := 11, TaskId := 3 }
      1000 1250 "stack" []).resultQueue =
      [{ TaskLogId := 999
         TaskId := 888
         State := TaskLogState.EXECUTION_SUCCESS
         FailedReason := ""
         RealExecutionTime := 1000
         ElapsedTime := 250
         Address := "10.0.0.1:8080" }] := by decide
  rw [hq] at hperm
  have := List.singleton_perm_singleton.1 hperm
  rw [← this] at hid
  exact absurd hid (by decide)

theorem invokeTask_one_result (handlers : GoMap Handler) (address : String)
    (params : TaskParams) (startTime endTime : Int) (stack : String)
    (resultQueue : List TaskResult) :
    (∃ result : TaskResult,
      (invokeTask handlers address params startTime endTime stack resultQueue).resultQueue
        = (AddResult resultQueue result).1 ∧
      result.TaskLogId
        = (invokeTask handlers address params startTime endTime stack
            resultQueue).params.TaskLogId ∧
      result.TaskId
        = (invokeTask handlers address params startTime endTime stack
            resultQueue).params.TaskId) ∧
    (invokeTask handlers address params startTime endTime stack resultQueue).completion
      = Completion.returned ∧
    (GoMap.get handlers params.Method = none →
      (invokeTask handlers address params startTime endTime stack resultQueue).params
        = params) ∧
    (∀ handler : Handler, GoMap.get handlers params.Method = some handler →
      (invokeTask handlers address params startTime endTime stack resultQueue).params
        = (handler params).params) := by
  cases hget : GoMap.get handlers params.Method with
  | none =>
    rw [invokeTask_not_found handlers address params startTime endTime stack resultQueue hget]
    exact ⟨⟨_, rfl, rfl, rfl⟩, rfl, fun _ => rfl, fun _ h => (by cases h)⟩
  | some handler =>
    have hsome : ∀ h2 : Handler, some handler = some h2 → handler = h2 :=
      fun _ h => Option.some.inj h
    cases hres : (handler params).outcome with
    | panics r =>
      rw [invokeTask_panics handlers address params startTime endTime stack resultQueue handler
        hget r hres]
      exact ⟨⟨_, rfl, rfl, rfl⟩, rfl, fun h => (by cases h),
        fun h2 h => (by rw [← hsome h2 h])⟩
    | returnsNil =>
      rw [invokeTask_returnsNil handlers address params startTime endTime stack resultQueue
        handler hget hres]
      exact ⟨⟨_, rfl, rfl, rfl⟩, rfl, fun h => (by cases h),
        fun h2 h => (by rw [← hsome h2 h])⟩
    | returns hr =>
      rw [invokeTask_returns handlers address params startTime endTime stack resultQueue
        handler hget hr hres]
      exact ⟨⟨_, rfl, rfl, rfl⟩, rfl, fun h => (by cases h),
        fun h2 h => (by rw [← hsome h2 h])⟩

/-- C6 (amended): whatever the registry holds and whatever the handler does (missing key,
panic, nil result, non-zero code, zero code), one call of invokeTask ends by returning and
adds exactly one result to the result queue: the queue afterwards is the queue before with
one result r added, and no other result r2 fits in place of r. That result carries the
TaskLogId and TaskId that the params hold when invokeTask ends: those of the params
dispatched when no handler is registered and whenever the handler leaves the params as they
were, those the handler wrote through the pointer otherwise. -/
theorem C6_invokeTask_adds_exactly_one_result (handlers : GoMap Handler) (address : String)
    (params : TaskParams) (startTime endTime : Int) (stack : String)
    (resultQueue : List TaskResult) :
    ∃ result : TaskResult,
      (invokeTask handlers address params startTime endTime stack resultQueue).resultQueue
        = (AddResult resultQueue result).1 ∧
      (invokeTask handlers address params startTime endTime stack resultQueue).resultQueue.Perm
        (result :: resultQueue) ∧
      Size (invokeTask handlers address params startTime endTime stack resultQueue).resultQueue
        = Size resultQueue + 1 ∧
      (∀ r2 : TaskResult,
        (invokeTask handlers address params startTime endTime stack
          resultQueue).resultQueue.Perm (r2 :: resultQueue) → r2 = result) ∧
      (invokeTask handlers address params startTime endTime stack resultQueue).completion
        = Completion.returned ∧
      result.TaskLogId
        = (invokeTask handlers address params startTime endTime stack
            resultQueue).params.TaskLogId ∧
      result.TaskId
        = (invokeTask handlers address params startTime endTime stack
            resultQueue).params.TaskId ∧
      (GoMap.get handlers params.Method = none →
        result.TaskLogId = params.TaskLogId ∧ result.TaskId = params.TaskId) ∧
      (∀ handler : Handler, GoMap.get handlers params.Method = some handler →
        result.TaskLogId = (handler params).params.TaskLogId ∧
        result.TaskId = (handler params).params.TaskId ∧
        ((handler params).params = params →
          result.TaskLogId = params.TaskLogId ∧ result.TaskId = params.TaskId)) := by
  obtain ⟨⟨result, hq, h1, h2⟩, hc, hnone, hsome⟩ :=
    invokeTask_one_result handlers address params startTime endTime stack resultQueue
  have hp : (invokeTask handlers address params startTime endTime stack
      resultQueue).resultQueue.Perm (result :: resultQueue) := hq ▸ AddResult_perm _ _
  refine ⟨result, hq, hp, ?_, ?_, hc, h1, h2, ?_, ?_⟩
  · simpa [Size] using hp.length_eq
  · intro r2 h
    exact perm_cons_inj r2 result resultQueue (h.symm.trans hp)
  · intro hg
    rw [hnone hg] at h1 h2
    exact ⟨h1, h2⟩
  · intro handler hg
    rw [hsome handler hg] at h1 h2
    refine ⟨h1, h2, fun hsame => ?_⟩
    rw [hsame] at h1 h2
    exact ⟨h1, h2⟩

end Invocation

/-! ## The delivery loop -/

section Delivery

open resultSendServiceImpl

theorem taskResultComparator_eq :
    taskResultComparator = cmpBy TaskResult.RealExecutionTime := rfl

theorem getTaskResult_eq (resultQueue : List TaskResult) :
    getTaskResult resultQueue = Pop taskResultComparator resultQueue := by
  unfold getTaskResult Dequeue
  rcases h : Pop taskResultComparator resultQueue with ⟨_ | v, q⟩ <;> rfl

theorem AddResult_ordered (resultQueue : List TaskResult) (result : TaskResult)
    (h : HeapOrdered TaskResult.RealExecutionTime resultQueue) :
    HeapOrdered TaskResult.RealExecutionTime (AddResult resultQueue result).1 := by
  rw [AddResult_fst, taskResultComparator_eq]
  exact Push_ordered _ _ _ h

theorem getTaskResult_ordered (resultQueue : List TaskResult)
    (h : HeapOrdered TaskResult.RealExecutionTime resultQueue) :
    HeapOrdered TaskResult.RealExecutionTime (getTaskResult resultQueue).2 := by
  rw [getTaskResult_eq, taskResultComparator_eq]
  exact Pop_ordered _ _ h

theorem StartBody_none (success : Bool) (resultQueue : List TaskResult)
    (h : (getTaskResult resultQueue).1 = none) :
    resultSendServiceImpl.StartBody success resultQueue = (resultQueue, none) := by
  have hnil : resultQueue = [] := by
    rw [getTaskResult_eq] at h
    exact (Pop_fst_eq_none _ _).1 h
  subst hnil
  rfl

theorem StartBody_some (success : Bool) (resultQueue : List TaskResult) (v : TaskResult)
    (h : (getTaskResult resultQueue).1 = some v) :
    resultSendServiceImpl.StartBody success resultQueue =
      if !success then ((AddResult (getTaskResult resultQueue).2 v).1, some (v, success))
      else ((getTaskResult resultQueue).2, some (v, success)) := by
  unfold resultSendServiceImpl.StartBody
  rcases hg : getTaskResult resultQueue with ⟨_ | w, q⟩
  · rw [hg] at h; simp at h
  · rw [hg] at h
    simp only [Option.some.injEq] at h
    subst h
    rfl

theorem getTaskResult_perm (resultQueue : List TaskResult) (v : TaskResult)
    (h : (getTaskResult resultQueue).1 = some v) :
    (v :: (getTaskResult resultQueue).2).Perm resultQueue := by
  rw [getTaskResult_eq] at h ⊢
  exact Pop_perm _ _ _ h

/-- C7: on a non-empty result queue (in heap order, as every queue built by AddResult and
getTaskResult is), one pass of the delivery loop takes out a result whose RealExecutionTime is
smallest and attempts to send it; when the send fails that same result is added back and
the queue holds the same results as before; when the send succeeds the queue holds the
previous results without that one. -/
theorem C7_delivery_pass_requeues_on_failure (resultQueue : List TaskResult)
    (hord : HeapOrdered TaskResult.RealExecutionTime resultQueue)
    (hne : Size resultQueue > 0) :
    ∃ taskResult : TaskResult,
      (getTaskResult resultQueue).1 = some taskResult ∧
      taskResult ∈ resultQueue ∧
      (∀ r ∈ resultQueue, taskResult.RealExecutionTime ≤ r.RealExecutionTime) ∧
      (∀ success : Bool,
        (resultSendServiceImpl.StartBody success resultQueue).2 = some (taskResult, success)) ∧
      (resultSendServiceImpl.StartBody false resultQueue).1
        = (AddResult (getTaskResult resultQueue).2 taskResult).1 ∧
      (resultSendServiceImpl.StartBody false resultQueue).1.Perm resultQueue ∧
      (taskResult :: (resultSendServiceImpl.StartBody true resultQueue).1).Perm resultQueue ∧
      (∀ success : Bool, HeapOrdered TaskResult.RealExecutionTime
        (resultSendServiceImpl.StartBody success resultQueue).1) := by
  cases hg : (getTaskResult resultQueue).1 with
  | none =>
    rw [getTaskResult_eq] at hg
    have := (Pop_fst_eq_none _ _).1 hg
    subst this
    simp [Size] at hne
  | some v =>
    have hperm := getTaskResult_perm resultQueue v hg
    have hmin : ∀ r ∈ resultQueue, v.RealExecutionTime ≤ r.RealExecutionTime := by
      apply Pop_min TaskResult.RealExecutionTime resultQueue hord v
      rw [← taskResultComparator_eq, ← getTaskResult_eq]
      exact hg
    refine ⟨v, rfl, hperm.subset (List.mem_cons_self _ _), hmin, ?_, ?_, ?_, ?_, ?_⟩
    · intro success
      rw [StartBody_some success resultQueue v hg]
      cases success <;> rfl
    · rw [StartBody_some false resultQueue v hg]
      rfl
    · rw [StartBody_some false resultQueue v hg]
      exact (AddResult_perm _ _).trans hperm
    · rw [StartBody_some true resultQueue v hg]
      exact hperm
    · intro success
      rw [StartBody_some success resultQueue v hg]
      cases success
      · exact AddResult_ordered _ _ (getTaskResult_ordered _ hord)
      · exact getTaskResult_ordered _ hord

/-- C7 on a queue of two results: the pass takes the one that ran at 5. -/
theorem C7_delivery_pass_requeues_on_failure_witness :
    HeapOrdered TaskResult.RealExecutionTime
      [{ TaskLogId := 1, State := TaskLogState.EXECUTION_SUCCESS, RealExecutionTime := 5 },
        { TaskLogId := 2, State := TaskLogState.EXECUTION_FAILED, RealExecutionTime := 9 }] ∧
    (resultSendServiceImpl.StartBody false
      [{ TaskLogId := 1, State := TaskLogState.EXECUTION_SUCCESS, RealExecutionTime := 5 },
        { TaskLogId := 2, State := TaskLogState.EXECUTION_FAILED, RealExecutionTime := 9 }]).2
      = some ({ TaskLogId := 1, State := TaskLogState.EXECUTION_SUCCESS,
                RealExecutionTime := 5 }, false) ∧
    ∃ taskResult : TaskResult,
      (getTaskResult
        [{ TaskLogId := 1, State := TaskLogState.EXECUTION_SUCCESS, RealExecutionTime := 5 },
          { TaskLogId := 2, State := TaskLogState.EXECUTION_FAILED, RealExecutionTime := 9 }]).1
        = some taskResult :=
  ⟨by decide, by decide,
    (C7_delivery_pass_requeues_on_failure
      [{ TaskLogId := 1, State := TaskLogState.EXECUTION_SUCCESS, RealExecutionTime := 5 },
        { TaskLogId := 2, State := TaskLogState.EXECUTION_FAILED, RealExecutionTime := 9 }]
      (by decide) (by decide)).imp (fun _ h => h.1)⟩

end Delivery

section DeliveryRun

open resultSendServiceImpl

theorem run_nil (s : SendService) : run s [] = s := rfl

theorem run_cons (s : SendService) (e : Event) (events : List Event) :
    run s (e :: events) = run (step s e) events := rfl

theorem run_append (s : SendService) (es1 es2 : List Event) :
    run s (es1 ++ es2) = run (run s es1) es2 := by
  unfold run
  rw [List.foldl_append]

theorem added_append (es1 es2 : List Event) : added (es1 ++ es2) = added es1 ++ added es2 := by
  induction es1 with
  | nil => rfl
  | cons e es ih =>
    cases e <;> simp [added, ih]

theorem delivered_append (sent : List (TaskResult × Bool)) (v : TaskResult) (b : Bool) :
    delivered (sent ++ [(v, b)]) = delivered sent ++ (if b then [v] else []) := by
  unfold delivered
  cases b <;> simp [List.filter_append]

theorem answersFor_append (r : TaskResult) (sent : List (TaskResult × Bool)) (v : TaskResult)
    (b : Bool) :
    answersFor r (sent ++ [(v, b)]) = answersFor r sent ++ (if v = r then [b] else []) := by
  unfold answersFor
  by_cases h : v = r
  · simp [List.filter_append, h]
  · simp [List.filter_append, h]

/-- What a step can do to the queue and to the record of sends. -/
theorem step_cases (s : SendService) (e : Event) :
    ((step s e).resultQueue = s.resultQueue ∧ (step s e).sent = s.sent ∧ added [e] = []) ∨
    (∃ x, e = Event.addResult x ∧ (step s e).resultQueue.Perm (x :: s.resultQueue) ∧
      (step s e).sent = s.sent) ∨
    (∃ v, e = Event.pass false ∧ v ∈ s.resultQueue ∧
      (step s e).resultQueue.Perm s.resultQueue ∧ (step s e).sent = s.sent ++ [(v, false)]) ∨
    (∃ v, e = Event.pass true ∧ (v :: (step s e).resultQueue).Perm s.resultQueue ∧
      (step s e).sent = s.sent ++ [(v, true)]) := by
  cases e with
  | addResult x =>
    right; left
    exact ⟨x, rfl, AddResult_perm _ _, rfl⟩
  | shutdown => left; exact ⟨rfl, rfl, rfl⟩
  | dispatcherStopped => left; exact ⟨rfl, rfl, rfl⟩
  | pass success =>
    cases hph : s.phase with
    | stopped =>
      left
      simp [step, hph, added]
    | looping =>
      by_cases hc : StartCondition s.ctx s.resultQueue = true
      · cases hg : (getTaskResult s.resultQueue).1 with
        | none =>
          left
          simp [step, hph, hc, StartBody_none success s.resultQueue hg, added]
        | some v =>
          have hperm := getTaskResult_perm s.resultQueue v hg
          right; right
          cases success with
          | false =>
            left
            refine ⟨v, rfl, hperm.subset (List.mem_cons_self _ _), ?_, ?_⟩
            · simp only [step, hph, hc, if_true, StartBody_some false s.resultQueue v hg]
              exact (AddResult_perm _ _).trans hperm
            · simp only [step, hph, hc, if_true, StartBody_some false s.resultQueue v hg]
              rfl
          | true =>
            right
            refine ⟨v, rfl, ?_, ?_⟩
            · simp only [step, hph, hc, if_true, StartBody_some true s.resultQueue v hg]
              exact hperm
            · simp only [step, hph, hc, if_true, StartBody_some true s.resultQueue v hg]
              rfl
      · left
        simp [step, hph, hc, added]

theorem step_conserves (s : SendService) (e : Event) :
    ((step s e).resultQueue ++ delivered (step s e).sent).Perm
      ((s.resultQueue ++ delivered s.sent) ++ added [e]) := by
  rcases step_cases s e with ⟨h1, h2, h3⟩ | ⟨x, rfl, h1, h2⟩ | ⟨v, rfl, _, h1, h2⟩ |
    ⟨v, rfl, h1, h2⟩
  · rw [h1, h2, h3, List.append_nil]
  · rw [h2]
    simp only [added]
    refine (h1.append_right _).trans ?_
    simpa using (List.perm_append_singleton x (s.resultQueue ++ delivered s.sent)).symm
  · rw [h2, delivered_append]
    simpa [added] using h1.append_right (delivered s.sent)
  · rw [h2, delivered_append]
    simp only [added, if_true, List.append_nil]
    have : ((step s (Event.pass true)).resultQueue ++ (delivered s.sent ++ [v])).Perm
        ((v :: (step s (Event.pass true)).resultQueue) ++ delivered s.sent) := by
      simpa using @List.perm_middle _ v
        ((step s (Event.pass true)).resultQueue ++ delivered s.sent) []
    exact this.trans (h1.append_right _)

theorem step_ordered (s : SendService) (e : Event)
    (h : HeapOrdered TaskResult.RealExecutionTime s.resultQueue) :
    HeapOrdered TaskResult.RealExecutionTime (step s e).resultQueue := by
  cases e with
  | addResult x => exact AddResult_ordered _ _ h
  | shutdown => exact h
  | dispatcherStopped => exact h
  | pass success =>
    cases hph : s.phase with
    | stopped =>
      simp only [step, hph]
      exact h
    | looping =>
      simp only [step, hph]
      split_ifs with hc
      · cases hg : (getTaskResult s.resultQueue).1 with
        | none =>
          rw [StartBody_none success s.resultQueue hg]
          exact h
        | some v =>
          rw [StartBody_some success s.resultQueue v hg]
          cases success
          · exact AddResult_ordered _ _ (getTaskResult_ordered _ h)
          · exact getTaskResult_ordered _ h
      · exact h

theorem run_ordered (events : List Event) : ∀ s : SendService,
    HeapOrdered TaskResult.RealExecutionTime s.resultQueue →
    HeapOrdered TaskResult.RealExecutionTime (run s events).resultQueue := by
  induction events with
  | nil => intro s h; exact h
  | cons e es ih => intro s h; exact ih _ (step_ordered s e h)

theorem run_conserves (events : List Event) : ∀ s : SendService,
    ((run s events).resultQueue ++ delivered (run s events).sent).Perm
      ((s.resultQueue ++ delivered s.sent) ++ added events) := by
  induction events with
  | nil => intro s; simp [run_nil, added]
  | cons e es ih =>
    intro s
    rw [run_cons]
    refine (ih (step s e)).trans ?_
    refine ((step_conserves s e).append_right _).trans ?_
    have : added (e :: es) = added [e] ++ added es := added_append [e] es
    rw [this, List.append_assoc]

theorem step_SentOnce (r : TaskResult) (s : SendService) (e : Event)
    (hcount : ((s.resultQueue ++ delivered s.sent) ++ added [e]).count r ≤ 1)
    (hinv : SentOnce r s) : SentOnce r (step s e) := by
  simp only [List.count_append] at hcount
  rcases step_cases s e with ⟨h1, h2, _⟩ | ⟨x, rfl, h1, h2⟩ | ⟨v, rfl, hv, h1, h2⟩ |
    ⟨v, rfl, h1, h2⟩
  · unfold SentOnce
    rw [h1, h2]
    exact hinv
  · unfold SentOnce at hinv ⊢
    rw [h2]
    rcases hinv with hA | ⟨hk, hq, hd⟩
    · exact Or.inl hA
    · refine Or.inr ⟨hk, ?_, hd⟩
      rw [h1.count_eq, List.count_cons]
      simp only [added, List.count_cons, List.count_nil] at hcount
      split_ifs at hcount ⊢ <;> omega
  · unfold SentOnce at hinv ⊢
    rw [h2, delivered_append, answersFor_append, h1.count_eq]
    simp only [Bool.false_eq_true, if_false, List.append_nil]
    rcases hinv with ⟨⟨k, hk⟩, hd⟩ | ⟨hk, hq, hd⟩
    · left
      refine ⟨?_, hd⟩
      by_cases hvr : v = r
      · refine ⟨k + 1, ?_⟩
        rw [if_pos hvr, hk, List.replicate_succ']
      · exact ⟨k, by rw [if_neg hvr, hk, List.append_nil]⟩
    · right
      have hvr : v ≠ r := by
        intro h
        subst h
        exact absurd (List.count_pos_iff.2 hv) (by omega)
      rw [if_neg hvr, List.append_nil]
      exact ⟨hk, hq, hd⟩
  · unfold SentOnce at hinv ⊢
    rw [h2, delivered_append, answersFor_append]
    simp only [if_true, List.count_append]
    have hc := h1.count_eq r
    rw [List.count_cons] at hc
    by_cases hvr : v = r
    · subst hvr
      simp only [beq_self_eq_true, if_true] at hc
      rcases hinv with ⟨⟨k, hk⟩, hd⟩ | ⟨_, hq, _⟩
      · right
        refine ⟨⟨k, by rw [if_pos rfl, hk]⟩, by omega, ?_⟩
        simp [hd]
      · omega
    · have hb : (v == r) = false := by simpa using hvr
      rw [hb] at hc
      simp only [Bool.false_eq_true, if_false, Nat.add_zero] at hc
      have hcn : List.count r [v] = 0 := by simp [List.count_cons, hb]
      rw [if_neg hvr, List.append_nil, hcn, Nat.add_zero, hc]
      exact hinv

theorem run_SentOnce (r : TaskResult) (events : List Event) : ∀ s : SendService,
    ((s.resultQueue ++ delivered s.sent) ++ added events).count r ≤ 1 →
    SentOnce r s → SentOnce r (run s events) := by
  induction events with
  | nil => intro s _ h; exact h
  | cons e es ih =>
    intro s hcount hinv
    rw [run_cons]
    have hsplit : added (e :: es) = added [e] ++ added es := added_append [e] es
    rw [hsplit, ← List.append_assoc] at hcount
    have h1 : ((s.resultQueue ++ delivered s.sent) ++ added [e]).count r ≤ 1 := by
      rw [List.count_append] at hcount
      omega
    apply ih (step s e) _ (step_SentOnce r s e h1 hinv)
    rw [List.count_append, (step_conserves s e).count_eq]
    rw [List.count_append] at hcount
    exact hcount

theorem SentOnce_StartEnter (r : TaskResult) (ctx : Context) (resultQueue : List TaskResult) :
    SentOnce r (StartEnter ctx resultQueue) :=
  Or.inl ⟨⟨0, rfl⟩, rfl⟩

theorem getElem?_replicate_append_singleton (k n : Nat)
    (h : (List.replicate k false ++ [true])[n]? = some true) : n = k := by
  rw [List.getElem?_append] at h
  split_ifs at h with hlt
  · rw [List.getElem?_replicate] at h
    split_ifs at h
    simp at h
  · simp only [List.length_replicate] at hlt h
    rcases Nat.eq_or_lt_of_le (Nat.le_of_not_lt hlt) with heq | hgt
    · exact heq.symm
    · have : (n - k) ≠ 0 := by omega
      rcases hnk : n - k with _ | m
      · omega
      · rw [hnk] at h; simp at h

theorem pass_false_single (s : SendService) (r : TaskResult)
    (hq : s.resultQueue = [r]) (hph : s.phase = Phase.looping) :
    step s (Event.pass false) = { s with sent := s.sent ++ [(r, false)] } := by
  have hc : StartCondition s.ctx s.resultQueue = true := by simp [StartCondition, hq, Size]
  have hb : resultSendServiceImpl.StartBody false [r] = ([r], some (r, false)) := rfl
  simp only [step, hph]
  rw [if_pos hc]
  simp only [hq, hb]

theorem pass_true_single (s : SendService) (r : TaskResult)
    (hq : s.resultQueue = [r]) (hph : s.phase = Phase.looping) :
    step s (Event.pass true) = { s with resultQueue := [], sent := s.sent ++ [(r, true)] } := by
  have hc : StartCondition s.ctx s.resultQueue = true := by simp [StartCondition, hq, Size]
  have hb : resultSendServiceImpl.StartBody true [r] = ([], some (r, true)) := rfl
  simp only [step, hph]
  rw [if_pos hc]
  simp only [hq, hb]

theorem run_failures_single (r : TaskResult) (N : Nat) : ∀ s : SendService,
    s.resultQueue = [r] → s.phase = Phase.looping →
    run s (List.replicate N (Event.pass false)) =
      { s with sent := s.sent ++ List.replicate N (r, false) } := by
  induction N with
  | zero => intro s _ _; simp [run_nil]
  | succ n ih =>
    intro s hq hph
    rw [List.replicate_succ, run_cons, pass_false_single s r hq hph,
      ih { s with sent := s.sent ++ [(r, false)] } hq hph]
    simp [List.replicate_succ]

/-- C8: the delivery loop never loses a result. After any sequence of loop passes, added
results and flag changes, the results still queued together with the results delivered are
exactly the initial results and the added ones. For a result that is in the system once: it
is queued or delivered, once in all; and if its sends fail N times and then succeed, its
sends are exactly those N + 1, it is delivered once (on send N + 1) and has left the queue.
With one queued result, N failing passes and a succeeding one make N + 1 sends and one
delivery. -/
theorem C8_delivery_never_loses_a_result (ctx : Context) (resultQueue : List TaskResult)
    (events : List Event) :
    ((run (StartEnter ctx resultQueue) events).resultQueue
        ++ delivered (run (StartEnter ctx resultQueue) events).sent).Perm
      (resultQueue ++ added events) ∧
    (∀ r : TaskResult, (resultQueue ++ added events).count r = 1 →
      (run (StartEnter ctx resultQueue) events).resultQueue.count r
        + (delivered (run (StartEnter ctx resultQueue) events).sent).count r = 1 ∧
      ∀ N : Nat,
        (answersFor r (run (StartEnter ctx resultQueue) events).sent).take (N + 1)
          = List.replicate N false ++ [true] →
        answersFor r (run (StartEnter ctx resultQueue) events).sent
          = List.replicate N false ++ [true] ∧
        (delivered (run (StartEnter ctx resultQueue) events).sent).count r = 1 ∧
        r ∉ (run (StartEnter ctx resultQueue) events).resultQueue) ∧
    (∀ (N : Nat) (r : TaskResult),
      (run (StartEnter ctx [r])
          (List.replicate N (Event.pass false) ++ [Event.pass true])).sent
        = List.replicate N (r, false) ++ [(r, true)] ∧
      delivered (run (StartEnter ctx [r])
          (List.replicate N (Event.pass false) ++ [Event.pass true])).sent = [r] ∧
      (run (StartEnter ctx [r])
          (List.replicate N (Event.pass false) ++ [Event.pass true])).resultQueue = []) := by
  have hcons := run_conserves events (StartEnter ctx resultQueue)
  have hcons2 : ((run (StartEnter ctx resultQueue) events).resultQueue
        ++ delivered (run (StartEnter ctx resultQueue) events).sent).Perm
      (resultQueue ++ added events) := by
    simpa [StartEnter, delivered] using hcons
  refine ⟨hcons2, ?_, ?_⟩
  · intro r hr
    have hsum := hcons2.count_eq r
    rw [hr, List.count_append] at hsum
    refine ⟨hsum, ?_⟩
    intro N htake
    have hinv : SentOnce r (run (StartEnter ctx resultQueue) events) := by
      apply run_SentOnce r events _ _ (SentOnce_StartEnter r ctx resultQueue)
      have : (StartEnter ctx resultQueue).resultQueue ++ delivered (StartEnter ctx resultQueue).sent
          ++ added events = resultQueue ++ added events := by
        simp [StartEnter, delivered]
      rw [this, hr]
    have hN : (answersFor r (run (StartEnter ctx resultQueue) events).sent)[N]? = some true := by
      have h1 : ((answersFor r (run (StartEnter ctx resultQueue) events).sent).take (N + 1))[N]?
          = some true := by
        rw [htake, List.getElem?_append_right (by simp)]
        simp
      rwa [List.getElem?_take_of_lt (by omega)] at h1
    rcases hinv with ⟨⟨k, hk⟩, _⟩ | ⟨⟨k, hk⟩, hq, hd⟩
    · rw [hk, List.getElem?_replicate] at hN
      split_ifs at hN
      simp at hN
    · rw [hk] at hN
      have := getElem?_replicate_append_singleton k N hN
      subst this
      exact ⟨hk, hd, fun hmem => absurd (List.count_pos_iff.2 hmem) (by omega)⟩
  · intro N r
    rw [run_append, run_failures_single r N (StartEnter ctx [r]) rfl rfl, run_cons, run_nil,
      pass_true_single _ r rfl rfl]
    refine ⟨by simp [StartEnter], ?_, rfl⟩
    simp [StartEnter, delivered, List.filter_append]

/-- C8, two failures and then a success on the one queued result: three sends, one delivery,
and the queue is empty. -/
theorem C8_delivery_never_loses_a_result_witness :
    ([({ TaskLogId := 1, State := TaskLogState.EXECUTION_SUCCESS, RealExecutionTime := 5 }
        : TaskResult)]
      ++ added [Event.pass false, Event.pass false, Event.pass true]).count
        { TaskLogId := 1, State := TaskLogState.EXECUTION_SUCCESS, RealExecutionTime := 5 } = 1 ∧
    answersFor { TaskLogId := 1, State := TaskLogState.EXECUTION_SUCCESS, RealExecutionTime := 5 }
      (run (StartEnter {}
        [{ TaskLogId := 1, State := TaskLogState.EXECUTION_SUCCESS, RealExecutionTime := 5 }])
        [Event.pass false, Event.pass false, Event.pass true]).sent = [false, false, true] ∧
    (delivered (run (StartEnter {}
        [{ TaskLogId := 1, State := TaskLogState.EXECUTION_SUCCESS, RealExecutionTime := 5 }])
        [Event.pass false, Event.pass false, Event.pass true]).sent).count
      { TaskLogId := 1, State := TaskLogState.EXECUTION_SUCCESS, RealExecutionTime := 5 } = 1 ∧
    { TaskLogId := 1, State := TaskLogState.EXECUTION_SUCCESS, RealExecutionTime := 5 } ∉
      (run (StartEnter {}
        [{ TaskLogId := 1, State := TaskLogState.EXECUTION_SUCCESS, RealExecutionTime := 5 }])
        [Event.pass false, Event.pass false, Event.pass true]).resultQueue :=
  ⟨by decide,
    ((C8_delivery_never_loses_a_result {}
      [{ TaskLogId := 1, State := TaskLogState.EXECUTION_SUCCESS, RealExecutionTime := 5 }]
      [Event.pass false, Event.pass false, Event.pass true]).2.1
      { TaskLogId := 1, State := TaskLogState.EXECUTION_SUCCESS, RealExecutionTime := 5 }
      (by decide)).2 2 (by decide)⟩

end DeliveryRun

section DeliveryExit

open resultSendServiceImpl

theorem StartCondition_iff (ctx : Context) (resultQueue : List TaskResult) :
    StartCondition ctx resultQueue = true ↔
      (Size resultQueue > 0 ∨ ctx.Shutdown = false ∨ ctx.DispatcherStopped = false) := by
  unfold StartCondition
  simp [Bool.or_eq_true, or_assoc]

theorem StartCondition_false_iff (ctx : Context) (resultQueue : List TaskResult) :
    ¬ StartCondition ctx resultQueue = true ↔
      (resultQueue = [] ∧ ctx.Shutdown = true ∧ ctx.DispatcherStopped = true) := by
  rw [StartCondition_iff]
  simp only [Size, not_or, gt_iff_lt, not_lt, Nat.le_zero, List.length_eq_zero,
    Bool.not_eq_false]

theorem step_pass_of_condition (s : SendService) (success : Bool)
    (hloop : s.phase = Phase.looping) (hc : StartCondition s.ctx s.resultQueue = true) :
    (step s (Event.pass success)).phase = Phase.looping ∧
    (step s (Event.pass success)).doneCalls = s.doneCalls ∧
    (step s (Event.pass success)).ctx = s.ctx := by
  simp only [step, hloop]
  rw [if_pos hc]
  exact ⟨rfl, rfl, rfl⟩

theorem step_pass_of_not_condition (s : SendService) (success : Bool)
    (hloop : s.phase = Phase.looping) (hc : ¬ StartCondition s.ctx s.resultQueue = true) :
    step s (Event.pass success) =
      { s with
        ctx := { s.ctx with WaitGroup := s.ctx.WaitGroup - 1 }
        phase := Phase.stopped
        doneCalls := s.doneCalls + 1 } := by
  simp only [step, hloop]
  rw [if_neg hc]

theorem step_phase_of_not_pass (s : SendService) (e : Event) (h : ∀ b, e ≠ Event.pass b) :
    (step s e).phase = s.phase ∧ (step s e).doneCalls = s.doneCalls ∧
    (step s e).ctx.WaitGroup = s.ctx.WaitGroup := by
  cases e with
  | pass b => exact absurd rfl (h b)
  | addResult x => exact ⟨rfl, rfl, rfl⟩
  | shutdown => exact ⟨rfl, rfl, rfl⟩
  | dispatcherStopped => exact ⟨rfl, rfl, rfl⟩

theorem step_stopped (s : SendService) (e : Event) (h : s.phase = Phase.stopped) :
    (step s e).phase = Phase.stopped ∧ (step s e).doneCalls = s.doneCalls ∧
    (step s e).ctx.WaitGroup = s.ctx.WaitGroup := by
  cases e with
  | pass b =>
    simp [step, h]
  | addResult x => exact ⟨h, rfl, rfl⟩
  | shutdown => exact ⟨h, rfl, rfl⟩
  | dispatcherStopped => exact ⟨h, rfl, rfl⟩

theorem step_DoneOnce (w : Int) (s : SendService) (e : Event) (h : DoneOnce w s) :
    DoneOnce w (step s e) := by
  rcases h with ⟨hp, hd, hw⟩ | ⟨hp, hd, hw⟩
  · by_cases hpass : ∃ b, e = Event.pass b
    · obtain ⟨b, rfl⟩ := hpass
      by_cases hc : StartCondition s.ctx s.resultQueue = true
      · obtain ⟨h1, h2, h3⟩ := step_pass_of_condition s b hp hc
        exact Or.inl ⟨h1, by rw [h2, hd], by rw [h3, hw]⟩
      · rw [step_pass_of_not_condition s b hp hc]
        refine Or.inr ⟨rfl, ?_, ?_⟩
        · simp only [hd]
        · simp only [hw]; omega
    · obtain ⟨h1, h2, h3⟩ := step_phase_of_not_pass s e (fun b hb => hpass ⟨b, hb⟩)
      exact Or.inl ⟨by rw [h1, hp], by rw [h2, hd], by rw [h3, hw]⟩
  · obtain ⟨h1, h2, h3⟩ := step_stopped s e hp
    exact Or.inr ⟨h1, by rw [h2, hd], by rw [h3, hw]⟩

theorem run_DoneOnce (w : Int) (events : List Event) : ∀ s : SendService,
    DoneOnce w s → DoneOnce w (run s events) := by
  induction events with
  | nil => intro s h; exact h
  | cons e es ih => intro s h; exact ih _ (step_DoneOnce w s e h)

theorem run_exit_point (events : List Event) : ∀ s : SendService,
    s.phase = Phase.looping → (run s events).phase = Phase.stopped →
    ∃ (before : List Event) (b : Bool) (after : List Event),
      events = before ++ Event.pass b :: after ∧
      (run s before).phase = Phase.looping ∧
      (run s before).resultQueue = [] ∧
      (run s before).ctx.Shutdown = true ∧
      (run s before).ctx.DispatcherStopped = true := by
  induction events with
  | nil =>
    intro s hl hs
    rw [run_nil, hl] at hs
    cases hs
  | cons e es ih =>
    intro s hl hs
    rw [run_cons] at hs
    cases hph : (step s e).phase with
    | looping =>
      obtain ⟨before, b, after, h1, h2, h3, h4, h5⟩ := ih (step s e) hph hs
      exact ⟨e :: before, b, after, by rw [h1]; rfl, h2, h3, h4, h5⟩
    | stopped =>
      by_cases hpass : ∃ b, e = Event.pass b
      · obtain ⟨b, rfl⟩ := hpass
        by_cases hc : StartCondition s.ctx s.resultQueue = true
        · rw [(step_pass_of_condition s b hl hc).1] at hph
          cases hph
        · obtain ⟨h3, h4, h5⟩ := (StartCondition_false_iff _ _).1 hc
          exact ⟨[], b, es, rfl, hl, h3, h4, h5⟩
      · rw [(step_phase_of_not_pass s e (fun b hb => hpass ⟨b, hb⟩)).1, hl] at hph
        cases hph

/-- C9: in its loop, the delivery goroutine makes another pass whenever the result queue is
non-empty or Shutdown is unset or DispatcherStopped is unset, without touching the wait
group; it leaves the loop exactly when it finds the queue empty and both flags set, and then
calls Done once. Over any run after the entry of Start (which adds 1 to the wait group), Done
is called at most once, exactly when the loop has been left, the wait group counter is the
initial one plus 1 minus the calls of Done, and a loop that has been left was left by a pass
that found the queue empty and Shutdown and DispatcherStopped both true. -/
theorem C9_delivery_loop_exit (ctx : Context) (resultQueue : List TaskResult)
    (events : List Event) :
    (∀ (s : SendService) (success : Bool), s.phase = Phase.looping →
      (StartCondition s.ctx s.resultQueue = true ↔
        (Size s.resultQueue > 0 ∨ s.ctx.Shutdown = false ∨ s.ctx.DispatcherStopped = false)) ∧
      (StartCondition s.ctx s.resultQueue = true →
        (step s (Event.pass success)).phase = Phase.looping ∧
        (step s (Event.pass success)).doneCalls = s.doneCalls ∧
        (step s (Event.pass success)).ctx = s.ctx) ∧
      ((step s (Event.pass success)).phase = Phase.stopped ↔
        (s.resultQueue = [] ∧ s.ctx.Shutdown = true ∧ s.ctx.DispatcherStopped = true)) ∧
      ((step s (Event.pass success)).phase = Phase.stopped →
        (step s (Event.pass success)).doneCalls = s.doneCalls + 1 ∧
        (step s (Event.pass success)).ctx.WaitGroup = s.ctx.WaitGroup - 1)) ∧
    (run (StartEnter ctx resultQueue) events).doneCalls ≤ 1 ∧
    ((run (StartEnter ctx resultQueue) events).phase = Phase.stopped ↔
      (run (StartEnter ctx resultQueue) events).doneCalls = 1) ∧
    (run (StartEnter ctx resultQueue) events).ctx.WaitGroup
      = ctx.WaitGroup + 1 - (run (StartEnter ctx resultQueue) events).doneCalls ∧
    ((run (StartEnter ctx resultQueue) events).phase = Phase.stopped →
      ∃ (before : List Event) (b : Bool) (after : List Event),
        events = before ++ Event.pass b :: after ∧
        (run (StartEnter ctx resultQueue) before).phase = Phase.looping ∧
        (run (StartEnter ctx resultQueue) before).resultQueue = [] ∧
        (run (StartEnter ctx resultQueue) before).ctx.Shutdown = true ∧
        (run (StartEnter ctx resultQueue) before).ctx.DispatcherStopped = true) := by
  refine ⟨?_, ?_⟩
  · intro s success hloop
    have hstop : (step s (Event.pass success)).phase = Phase.stopped ↔
        ¬ StartCondition s.ctx s.resultQueue = true := by
      constructor
      · intro h hc
        rw [(step_pass_of_condition s success hloop hc).1] at h
        cases h
      · intro hc
        rw [step_pass_of_not_condition s success hloop hc]
    refine ⟨StartCondition_iff _ _, step_pass_of_condition s success hloop, ?_, ?_⟩
    · rw [hstop, StartCondition_false_iff]
    · intro h
      rw [step_pass_of_not_condition s success hloop (hstop.1 h)]
      exact ⟨rfl, rfl⟩
  · have hinv : DoneOnce ctx.WaitGroup (run (StartEnter ctx resultQueue) events) :=
      run_DoneOnce ctx.WaitGroup events _ (Or.inl ⟨rfl, rfl, rfl⟩)
    refine ⟨?_, ?_, ?_, ?_⟩
    · rcases hinv with ⟨_, hd, _⟩ | ⟨_, hd, _⟩ <;> omega
    · rcases hinv with ⟨hp, hd, _⟩ | ⟨hp, hd, _⟩
      · rw [hp, hd]
        simp
      · rw [hp, hd]
        simp
    · rcases hinv with ⟨_, hd, hw⟩ | ⟨_, hd, hw⟩
      · rw [hd, hw]
        simp
      · rw [hd, hw]
        simp
    · intro h
      exact run_exit_point events (StartEnter ctx resultQueue) rfl h

/-- C9 on an empty queue: after Shutdown and DispatcherStopped are set, the next pass leaves
the loop; Done has been called once and the wait group counter is back at its initial
value. -/
theorem C9_delivery_loop_exit_witness :
    (run (StartEnter {} []) [Event.pass true, Event.shutdown, Event.pass true,
      Event.dispatcherStopped, Event.pass true]).phase = Phase.stopped ∧
    (run (StartEnter {} []) [Event.pass true, Event.shutdown, Event.pass true,
      Event.dispatcherStopped]).phase = Phase.looping ∧
    (run (StartEnter {} []) [Event.pass true, Event.shutdown, Event.pass true,
      Event.dispatcherStopped, Event.pass true]).doneCalls = 1 ∧
    (run (StartEnter {} []) [Event.pass true, Event.shutdown, Event.pass true,
      Event.dispatcherStopped, Event.pass true]).ctx.WaitGroup = 0 :=
  ⟨by decide, by decide,
    (C9_delivery_loop_exit {} [] [Event.pass true, Event.shutdown, Event.pass true,
      Event.dispatcherStopped, Event.pass true]).2.2.1.1 (by decide),
    by decide⟩

end DeliveryExit

/-! ## Request signing -/

section Signing

theorem bytesLess_nil_right (a : List Nat) : bytesLess a [] = false := by
  cases a <;> rfl

theorem bytesLess_negTrans : ∀ a b c : List Nat,
    bytesLess b a = false → bytesLess c b = false → bytesLess c a = false
  | [], _, c, _, _ => bytesLess_nil_right c
  | _ :: _, [], _, h1, _ => by simp [bytesLess] at h1
  | _ :: _, _ :: _, [], _, h2 => by simp [bytesLess] at h2
  | x :: as, y :: bs, z :: cs, h1, h2 => by
    simp only [bytesLess] at h1 h2 ⊢
    split_ifs at h1 h2 ⊢
    all_goals first
      | omega
      | rfl
      | exact bytesLess_negTrans as bs cs h1 h2

theorem bytesLess_asymm : ∀ a b : List Nat, bytesLess a b = true → bytesLess b a = false
  | [], [], h => by simp [bytesLess] at h
  | [], _ :: _, _ => rfl
  | _ :: _, [], h => by simp [bytesLess] at h
  | x :: as, y :: bs, h => by
    simp only [bytesLess] at h ⊢
    split_ifs at h ⊢
    all_goals first
      | omega
      | rfl
      | exact bytesLess_asymm as bs h

theorem stringLE_total (a b : String) : stringLE a b ∨ stringLE b a := by
  unfold stringLE
  cases h : bytesLess (goBytes b) (goBytes a) with
  | false => exact Or.inl rfl
  | true => exact Or.inr (bytesLess_asymm _ _ h)

theorem stringLE_trans (a b c : String) (h1 : stringLE a b) (h2 : stringLE b c) :
    stringLE a c :=
  bytesLess_negTrans _ _ _ h1 h2

theorem sortStrings_sorted (keys : List String) : (sortStrings keys).Pairwise stringLE := by
  haveI : IsTotal String stringLE := ⟨stringLE_total⟩
  haveI : IsTrans String stringLE := ⟨stringLE_trans⟩
  exact List.sorted_insertionSort stringLE keys

theorem sortStrings_perm (keys : List String) : (sortStrings keys).Perm keys :=
  List.perm_insertionSort stringLE keys

theorem GoMap.get_map_ne {β : Type} (k k2 : String) (v : β) (hne : k2 ≠ k) :
    ∀ m : GoMap β,
      List.lookup k2 (m.map (fun e => if e.1 == k then (k, v) else e)) = List.lookup k2 m
  | [] => rfl
  | (a, b) :: t => by
    have ih := GoMap.get_map_ne k k2 v hne t
    by_cases hak : a = k
    · subst hak
      simp only [List.map_cons, beq_self_eq_true, if_true, List.lookup_cons]
      have : (k2 == a) = false := by simpa using hne
      rw [this]
      exact ih
    · have hf : (a == k) = false := by simpa using hak
      simp only [List.map_cons, hf, Bool.false_eq_true, if_false, List.lookup_cons]
      rw [ih]

theorem GoMap.get_map_eq {β : Type} (k : String) (v : β) :
    ∀ m : GoMap β, m.any (fun e => e.1 == k) = true →
      List.lookup k (m.map (fun e => if e.1 == k then (k, v) else e)) = some v
  | [], h => by simp at h
  | (a, b) :: t, h => by
    by_cases hak : a = k
    · subst hak
      simp [List.lookup_cons]
    · have hf : (a == k) = false := by simpa using hak
      have hf2 : (k == a) = false := by simpa using Ne.symm hak
      simp only [List.any_cons, hf, Bool.false_or] at h
      simp only [List.map_cons, hf, Bool.false_eq_true, if_false, List.lookup_cons, hf2]
      exact GoMap.get_map_eq k v t h

theorem GoMap.lookup_eq_none_of_not_any {β : Type} (k : String) :
    ∀ m : GoMap β, ¬ m.any (fun e => e.1 == k) = true → List.lookup k m = none
  | [], _ => rfl
  | (a, b) :: t, h => by
    simp only [List.any_cons, Bool.or_eq_true, not_or] at h
    have hf2 : (k == a) = false := by
      have : ¬ a = k := by simpa using h.1
      simpa using Ne.symm this
    simp only [List.lookup_cons, hf2]
    exact GoMap.lookup_eq_none_of_not_any k t h.2

theorem GoMap.get_put {β : Type} (m : GoMap β) (k : String) (v : β) (k2 : String) :
    GoMap.get (GoMap.put m k v) k2 = if k2 = k then some v else GoMap.get m k2 := by
  unfold GoMap.get GoMap.put
  by_cases hany : m.any (fun e => e.1 == k) = true
  · rw [if_pos hany]
    by_cases hk : k2 = k
    · subst hk
      rw [if_pos rfl]
      exact GoMap.get_map_eq k2 v m hany
    · rw [if_neg hk]
      exact GoMap.get_map_ne k k2 v hk m
  · rw [if_neg hany, List.lookup_append]
    by_cases hk : k2 = k
    · subst hk
      rw [if_pos rfl, GoMap.lookup_eq_none_of_not_any k2 m hany]
      simp [List.lookup_cons]
    · rw [if_neg hk]
      have hf : (k2 == k) = false := by simpa using hk
      simp [List.lookup_cons, hf]

theorem GoMap.mem_keys_iff {β : Type} (k : String) :
    ∀ m : GoMap β, k ∈ GoMap.keys m ↔ (GoMap.get m k).isSome = true
  | [] => by simp [GoMap.keys, GoMap.get]
  | (a, b) :: t => by
    have ih := GoMap.mem_keys_iff k t
    unfold GoMap.keys GoMap.get at ih ⊢
    by_cases hak : k = a
    · subst hak
      simp [List.lookup_cons]
    · have hf : (k == a) = false := by simpa using hak
      simp only [List.map_cons, List.mem_cons, hak, false_or, List.lookup_cons, hf]
      exact ih

theorem GoMap.keys_put {β : Type} (m : GoMap β) (k : String) (v : β) :
    GoMap.keys (GoMap.put m k v) =
      if k ∈ GoMap.keys m then GoMap.keys m else GoMap.keys m ++ [k] := by
  have hmem : k ∈ GoMap.keys m ↔ m.any (fun e => e.1 == k) = true := by
    unfold GoMap.keys
    simp [List.any_eq_true]
  unfold GoMap.put
  by_cases hany : m.any (fun e => e.1 == k) = true
  · rw [if_pos hany, if_pos (hmem.2 hany)]
    unfold GoMap.keys
    rw [List.map_map]
    apply List.map_congr_left
    intro e _
    by_cases hek : e.1 = k
    · simp [hek]
    · simp [hek]
  · rw [if_neg hany, if_neg (fun h => hany (hmem.1 h))]
    simp [GoMap.keys]

theorem GoMap.nodup_keys_put {β : Type} (m : GoMap β) (k : String) (v : β)
    (h : (GoMap.keys m).Nodup) : (GoMap.keys (GoMap.put m k v)).Nodup := by
  rw [GoMap.keys_put]
  split_ifs with hk
  · exact h
  · exact List.Nodup.append h (List.nodup_singleton k) (by simpa using hk)

theorem foldl_put_get (k : String) : ∀ (params m : GoMap String),
    GoMap.get (params.foldl (fun paramsMap e => GoMap.put paramsMap e.1 e.2) m) k =
      (List.lookup k params.reverse).or (GoMap.get m k)
  | [], m => by simp
  | (a, b) :: ps, m => by
    rw [List.foldl_cons, foldl_put_get k ps, GoMap.get_put, List.reverse_cons,
      List.lookup_append]
    cases List.lookup k ps.reverse with
    | some w => simp
    | none =>
      by_cases hk : k = a
      · subst hk
        simp [List.lookup_cons]
      · have hf : (k == a) = false := by simpa using hk
        simp [List.lookup_cons, hf, hk]

theorem foldl_put_nodup : ∀ (params m : GoMap String), (GoMap.keys m).Nodup →
    (GoMap.keys (params.foldl (fun paramsMap e => GoMap.put paramsMap e.1 e.2) m)).Nodup
  | [], _, h => h
  | e :: ps, m, h => by
    rw [List.foldl_cons]
    exact foldl_put_nodup ps _ (GoMap.nodup_keys_put m e.1 e.2 h)

theorem fixed_map_eq (signKey token times body : String) :
    GoMap.put (GoMap.put (GoMap.put (GoMap.put [] "_signKey_" signKey) "times" times)
      "token" token) "rb" body
    = [("_signKey_", signKey), ("times", times), ("token", token), ("rb", body)] := rfl

theorem signParamsMap_get (signKey token times body : String) (params : GoMap String)
    (key : String) :
    GoMap.get (signParamsMap signKey token times body params) key
      = mergedValue signKey token times body params key := by
  unfold signParamsMap mergedValue
  rw [foldl_put_get, fixed_map_eq]
  congr 1
  unfold GoMap.get
  simp only [List.lookup_cons, List.lookup_nil]
  by_cases h1 : key = "_signKey_"
  · simp [h1]
  · have f1 : (key == "_signKey_") = false := by simpa using h1
    rw [if_neg h1, f1]
    by_cases h2 : key = "times"
    · simp [h2]
    · have f2 : (key == "times") = false := by simpa using h2
      rw [if_neg h2, f2]
      by_cases h3 : key = "token"
      · simp [h3]
      · have f3 : (key == "token") = false := by simpa using h3
        rw [if_neg h3, f3]
        by_cases h4 : key = "rb"
        · simp [h4]
        · have f4 : (key == "rb") = false := by simpa using h4
          rw [if_neg h4, f4]

theorem signParamsMap_nodup (signKey token times body : String) (params : GoMap String) :
    (GoMap.keys (signParamsMap signKey token times body params)).Nodup := by
  unfold signParamsMap
  apply foldl_put_nodup
  rw [fixed_map_eq]
  simp [GoMap.keys]

theorem lookup_isSome_iff (k : String) : ∀ m : GoMap String,
    (List.lookup k m).isSome = true ↔ k ∈ GoMap.keys m := fun m =>
  (GoMap.mem_keys_iff k m).symm

theorem mergedValue_isSome_iff (signKey token times body : String) (params : GoMap String)
    (key : String) :
    (mergedValue signKey token times body params key).isSome = true ↔
      (key ∈ ["_signKey_", "times", "token", "rb"] ∨ key ∈ GoMap.keys params) := by
  have hrev : (List.lookup key params.reverse).isSome = true ↔ key ∈ GoMap.keys params := by
    rw [lookup_isSome_iff]
    simp [GoMap.keys]
  unfold mergedValue
  cases hl : List.lookup key params.reverse with
  | some w =>
    rw [hl] at hrev
    simp only [Option.or_some, Option.isSome_some, true_iff]
    exact Or.inr (hrev.1 rfl)
  | none =>
    rw [hl] at hrev
    have hnot : ¬ key ∈ GoMap.keys params := fun h => by simpa using hrev.2 h
    simp only [Option.none_or, List.mem_cons, List.mem_singleton, List.not_mem_nil, or_false,
      hnot]
    by_cases h1 : key = "_signKey_"
    · simp [h1]
    · by_cases h2 : key = "times"
      · simp [h2]
      · by_cases h3 : key = "token"
        · simp [h3]
        · by_cases h4 : key = "rb"
          · simp [h4]
          · simp [h1, h2, h3, h4]

theorem foldl_append_eq_join (f : String → String) : ∀ (keys : List String) (sb : String),
    keys.foldl (fun sb key => sb ++ f key) sb = sb ++ String.join (keys.map f)
  | [], sb => by simp [String.join]
  | k :: ks, sb => by
    rw [List.foldl_cons, foldl_append_eq_join f ks, List.map_cons]
    have hj : String.join (f k :: ks.map f) = f k ++ String.join (ks.map f) := by
      unfold String.join
      rw [List.foldl_cons]
      have key2 : ∀ (l : List String) (a : String),
          l.foldl (fun r s => r ++ s) a = a ++ l.foldl (fun r s => r ++ s) "" := by
        intro l
        induction l with
        | nil => intro a; simp
        | cons x xs ih =>
          intro a
          rw [List.foldl_cons, List.foldl_cons, ih (a ++ x), ih ("" ++ x)]
          simp [String.append_assoc]
      rw [key2]
      simp
    rw [hj, String.append_assoc]

theorem signString_eq_join (signKey token times body : String) (params : GoMap String) :
    signString signKey token times body params =
      String.join ((sortStrings (GoMap.keys (signParamsMap signKey token times body params))).map
        (fun key => key ++ "=" ++ sprintfV (mergedValue signKey token times body params key)
          ++ "&")) := by
  unfold signString
  have h : ∀ (sb key : String),
      sb ++ key ++ "=" ++ sprintfV (GoMap.get (signParamsMap signKey token times body params) key)
        ++ "&" =
      sb ++ (key ++ "=" ++ sprintfV (mergedValue signKey token times body params key) ++ "&") := by
    intro sb key
    rw [signParamsMap_get]
    simp [String.append_assoc]
  simp only [h]
  rw [foldl_append_eq_join]
  simp

theorem md5_Sum_length (msg : List Nat) : (md5.Sum msg).length = 16 := by
  simp [md5.Sum, md5.le32]

theorem md5_Sum_lt (msg : List Nat) : ∀ b ∈ md5.Sum msg, b < 256 := by
  intro b hb
  simp only [md5.Sum, md5.le32, List.mem_append, List.mem_cons, List.mem_singleton,
    List.not_mem_nil, or_false] at hb
  rcases hb with ((h | h) | h) | h <;> rcases h with h | h | h | h <;> omega

theorem hexDigit_mem : ∀ n, n < 16 → hexDigit n ∈ "0123456789abcdef".data := by
  decide

theorem sprintfHex_length (bytes : List Nat) : (sprintfHex bytes).length = 2 * bytes.length := by
  unfold sprintfHex
  rw [String.length_mk]
  induction bytes with
  | nil => rfl
  | cons b bs ih =>
    simp only [List.flatMap_cons, List.length_append, List.length_cons, List.length_nil, ih]
    omega

theorem sprintfHex_chars (bytes : List Nat) (h : ∀ b ∈ bytes, b < 256) :
    ∀ c ∈ (sprintfHex bytes).data, c ∈ "0123456789abcdef".data := by
  intro c hc
  unfold sprintfHex at hc
  simp only [List.mem_flatMap, List.mem_cons, List.mem_singleton, List.not_mem_nil,
    or_false] at hc
  obtain ⟨b, hb, hcb⟩ := hc
  have hlt := h b hb
  rcases hcb with rfl | rfl
  · exact hexDigit_mem _ (by omega)
  · exact hexDigit_mem _ (by omega)

theorem signString_nil (signKey token times body : String) :
    signString signKey token times body [] =
      "_signKey_=" ++ signKey ++ "&rb=" ++ body ++ "&times=" ++ times ++ "&token=" ++ token
        ++ "&" := by
  rw [signString_eq_join]
  have hkeys : sortStrings (GoMap.keys (signParamsMap signKey token times body []))
      = ["_signKey_", "rb", "times", "token"] := by
    have : GoMap.keys (signParamsMap signKey token times body [])
        = ["_signKey_", "times", "token", "rb"] := rfl
    rw [this]
    decide
  rw [hkeys]
  have v1 : mergedValue signKey token times body [] "_signKey_" = some signKey := rfl
  have v2 : mergedValue signKey token times body [] "rb" = some body := rfl
  have v3 : mergedValue signKey token times body [] "times" = some times := rfl
  have v4 : mergedValue signKey token times body [] "token" = some token := rfl
  simp only [List.map_cons, List.map_nil, v1, v2, v3, v4, sprintfV, String.join,
    List.foldl_cons, List.foldl_nil]
  apply String.ext
  simp

set_option maxRecDepth 100000 in
theorem md5_test_vectors :
    sprintfHex (md5.Sum (goBytes "")) = "d41d8cd98f00b204e9800998ecf8427e" ∧
    sprintfHex (md5.Sum (goBytes "abc")) = "900150983cd24fb0d6963f7d28e17f72" ∧
    sprintfHex (md5.Sum (goBytes "message digest")) = "f96b697d7cb7938d525a2f31aaf161d0" := by
  decide

set_option maxRecDepth 100000 in
theorem Sign_example :
    signString "k" "t" "1" "b" [("zz", "1"), ("a", "2"), ("rb", "X")]
      = "_signKey_=k&a=2&rb=X&times=1&token=t&zz=1&" ∧
    Sign "k" "t" "1" "b" [] = "e6c00df79b2ddeb83136f7a301d7502c" := by
  decide

/-- C10: Sign returns the 32 lowercase hexadecimal digits of the MD5 digest of the string
built from the map of the four fixed entries (_signKey_, times, token, rb) with the extra
params written over it: the keys of the merged map, each once, in ascending byte order, each
as "<key>=<value>&" with the value the merged map holds; with no extra params the hashed
string is "_signKey_=<signKey>&rb=<body>&times=<times>&token=<token>&". -/
theorem C10_Sign_hashes_sorted_params (signKey token times body : String)
    (params : GoMap String) :
    (∃ keys : List String,
      keys.Pairwise stringLE ∧ keys.Nodup ∧
      (∀ key, key ∈ keys ↔
        (key ∈ ["_signKey_", "times", "token", "rb"] ∨ key ∈ GoMap.keys params)) ∧
      (∀ key ∈ keys, (mergedValue signKey token times body params key).isSome = true) ∧
      signString signKey token times body params =
        String.join (keys.map (fun key =>
          key ++ "=" ++ sprintfV (mergedValue signKey token times body params key) ++ "&"))) ∧
    Sign signKey token times body params =
      sprintfHex (md5.Sum (goBytes (signString signKey token times body params))) ∧
    (Sign signKey token times body params).length = 32 ∧
    (∀ c ∈ (Sign signKey token times body params).data, c ∈ "0123456789abcdef".data) ∧
    signString signKey token times body [] =
      "_signKey_=" ++ signKey ++ "&rb=" ++ body ++ "&times=" ++ times ++ "&token=" ++ token
        ++ "&" := by
  refine ⟨⟨sortStrings (GoMap.keys (signParamsMap signKey token times body params)),
    sortStrings_sorted _, ?_, ?_, ?_, signString_eq_join _ _ _ _ _⟩, rfl, ?_, ?_,
    signString_nil _ _ _ _⟩
  · exact (sortStrings_perm _).symm.nodup_iff.1 (signParamsMap_nodup _ _ _ _ _)
  · intro key
    rw [(sortStrings_perm _).mem_iff, GoMap.mem_keys_iff, signParamsMap_get,
      mergedValue_isSome_iff]
  · intro key hkey
    rw [(sortStrings_perm _).mem_iff, GoMap.mem_keys_iff, signParamsMap_get] at hkey
    exact hkey
  · unfold Sign
    rw [sprintfHex_length, md5_Sum_length]
  · unfold Sign
    exact sprintfHex_chars _ (md5_Sum_lt _)

end Signing

/-! ## Order independence and ambiguity of the signed string -/

section SigningOrder

theorem Char_eq_of_toNat_eq (c d : Char) (h : c.toNat = d.toNat) : c = d := by
  apply Char.ext
  exact UInt32.ext (by simpa [Char.toNat] using h)

theorem utf8EncodeChar_append_inj (c d : Char) (r1 r2 : List Nat)
    (h : utf8EncodeChar c ++ r1 = utf8EncodeChar d ++ r2) : c = d ∧ r1 = r2 := by
  unfold utf8EncodeChar at h
  have key : c.toNat = d.toNat ∧ r1 = r2 := by
    split_ifs at h <;>
      simp only [List.cons_append, List.nil_append, List.cons.injEq] at h <;>
      first
        | (exfalso; have h1 := h.1; omega)
        | exact ⟨by have h1 := h.1; omega, h.2⟩
        | exact ⟨by have h1 := h.1; have h2 := h.2.1; omega, h.2.2⟩
        | exact ⟨by have h1 := h.1; have h2 := h.2.1; have h3 := h.2.2.1; omega, h.2.2.2⟩
        | exact ⟨by have h1 := h.1; have h2 := h.2.1; have h3 := h.2.2.1
                    have h4 := h.2.2.2.1; omega, h.2.2.2.2⟩
  exact ⟨Char_eq_of_toNat_eq c d key.1, key.2⟩

theorem goBytes_injective : ∀ (a b : List Char),
    a.flatMap utf8EncodeChar = b.flatMap utf8EncodeChar → a = b
  | [], [], _ => rfl
  | [], d :: ds, h => by
    exfalso
    simp only [List.flatMap_nil, List.flatMap_cons] at h
    have hl := congrArg List.length h
    unfold utf8EncodeChar at hl
    split_ifs at hl <;> simp at hl
  | c :: cs, [], h => by
    exfalso
    simp only [List.flatMap_nil, List.flatMap_cons] at h
    have hl := congrArg List.length h
    unfold utf8EncodeChar at hl
    split_ifs at hl <;> simp at hl
  | c :: cs, d :: ds, h => by
    simp only [List.flatMap_cons] at h
    obtain ⟨h1, h2⟩ := utf8EncodeChar_append_inj c d _ _ h
    rw [h1, goBytes_injective cs ds h2]

theorem bytesLess_antisymm : ∀ a b : List Nat,
    bytesLess a b = false → bytesLess b a = false → a = b
  | [], [], _, _ => rfl
  | [], _ :: _, h, _ => by simp [bytesLess] at h
  | _ :: _, [], _, h => by simp [bytesLess] at h
  | x :: as, y :: bs, h1, h2 => by
    simp only [bytesLess] at h1 h2
    split_ifs at h1 h2
    have hxy : x = y := by omega
    rw [hxy, bytesLess_antisymm as bs h1 h2]

theorem stringLE_antisymm (a b : String) (h1 : stringLE a b) (h2 : stringLE b a) : a = b := by
  unfold stringLE at h1 h2
  have hb : goBytes a = goBytes b := bytesLess_antisymm _ _ h2 h1
  exact String.ext (goBytes_injective _ _ hb)

theorem lookup_eq_some_iff_mem (k v : String) : ∀ l : GoMap String, (GoMap.keys l).Nodup →
    (List.lookup k l = some v ↔ (k, v) ∈ l)
  | [], _ => by simp
  | (a, b) :: t, hnd => by
    have hnd2 : a ∉ GoMap.keys t ∧ (GoMap.keys t).Nodup := by
      simpa [GoMap.keys] using hnd
    have ih := lookup_eq_some_iff_mem k v t hnd2.2
    by_cases hk : k = a
    · subst hk
      simp only [List.lookup_cons, beq_self_eq_true, Option.some.injEq, List.mem_cons,
        Prod.mk.injEq, true_and]
      constructor
      · intro h; exact Or.inl h.symm
      · rintro (h | h)
        · exact h.symm
        · exact absurd (List.mem_map_of_mem (fun e => e.1) h) hnd2.1
    · have hf : (k == a) = false := by simpa using hk
      simp only [List.lookup_cons, hf, List.mem_cons, Prod.mk.injEq, hk, false_and, false_or]
      exact ih

theorem lookup_eq_of_mem_iff (k : String) (l1 l2 : GoMap String)
    (h1 : (GoMap.keys l1).Nodup) (h2 : (GoMap.keys l2).Nodup)
    (hmem : ∀ e, e ∈ l1 ↔ e ∈ l2) : List.lookup k l1 = List.lookup k l2 := by
  apply Option.ext
  intro v
  simp only [Option.mem_def]
  rw [lookup_eq_some_iff_mem k v l1 h1, lookup_eq_some_iff_mem k v l2 h2]
  exact hmem (k, v)

theorem lookup_reverse (k : String) (l : GoMap String) (h : (GoMap.keys l).Nodup) :
    List.lookup k l.reverse = GoMap.get l k := by
  unfold GoMap.get
  apply lookup_eq_of_mem_iff k _ _ _ h (fun e => List.mem_reverse)
  unfold GoMap.keys at h ⊢
  rw [List.map_reverse]
  exact List.nodup_reverse.2 h

theorem get_eq_of_perm (l1 l2 : GoMap String) (h : (GoMap.keys l1).Nodup) (hp : l1.Perm l2)
    (k : String) : GoMap.get l1 k = GoMap.get l2 k := by
  unfold GoMap.get
  exact lookup_eq_of_mem_iff k l1 l2 h ((hp.map _).nodup_iff.1 h) (fun e => hp.mem_iff)

theorem signString_congr (signKey token times body : String) (p1 p2 : GoMap String)
    (h : ∀ key, mergedValue signKey token times body p1 key
      = mergedValue signKey token times body p2 key) :
    signString signKey token times body p1 = signString signKey token times body p2 := by
  haveI : IsAntisymm String stringLE := ⟨stringLE_antisymm⟩
  have hmem : ∀ (p : GoMap String) (key : String),
      key ∈ sortStrings (GoMap.keys (signParamsMap signKey token times body p)) ↔
        (mergedValue signKey token times body p key).isSome = true := by
    intro p key
    rw [(sortStrings_perm _).mem_iff, GoMap.mem_keys_iff, signParamsMap_get]
  have hnd : ∀ p : GoMap String,
      (sortStrings (GoMap.keys (signParamsMap signKey token times body p))).Nodup := fun p =>
    (sortStrings_perm _).symm.nodup_iff.1 (signParamsMap_nodup _ _ _ _ _)
  have hkeys : sortStrings (GoMap.keys (signParamsMap signKey token times body p1))
      = sortStrings (GoMap.keys (signParamsMap signKey token times body p2)) := by
    apply List.eq_of_perm_of_sorted _ (sortStrings_sorted _) (sortStrings_sorted _)
    rw [List.perm_ext_iff_of_nodup (hnd p1) (hnd p2)]
    intro key
    rw [hmem, hmem, h]
  rw [signString_eq_join, signString_eq_join, hkeys]
  congr 1
  apply List.map_congr_left
  intro key _
  rw [h]

theorem mergedValue_congr (signKey token times body : String) (p1 p2 : GoMap String)
    (h1 : (GoMap.keys p1).Nodup) (h2 : (GoMap.keys p2).Nodup)
    (hsame : ∀ key, GoMap.get p1 key = GoMap.get p2 key) (key : String) :
    mergedValue signKey token times body p1 key = mergedValue signKey token times body p2 key := by
  unfold mergedValue
  rw [lookup_reverse key p1 h1, lookup_reverse key p2 h2, hsame]

/-- C11: Sign depends on the extra params only through their content as a map. Two parameter
maps (association lists with distinct keys) that hold the same value for every key give the
same hashed string and the same digest; in particular any reordering of the entries of a map
gives the same digest. -/
theorem C11_Sign_independent_of_params_order (signKey token times body : String)
    (p1 p2 : GoMap String) (h1 : (GoMap.keys p1).Nodup) (h2 : (GoMap.keys p2).Nodup)
    (hsame : ∀ key, GoMap.get p1 key = GoMap.get p2 key) :
    signString signKey token times body p1 = signString signKey token times body p2 ∧
    Sign signKey token times body p1 = Sign signKey token times body p2 ∧
    (∀ p3 : GoMap String, p1.Perm p3 →
      Sign signKey token times body p3 = Sign signKey token times body p1) := by
  have hs := signString_congr signKey token times body p1 p2
    (mergedValue_congr signKey token times body p1 p2 h1 h2 hsame)
  refine ⟨hs, by unfold Sign; rw [hs], ?_⟩
  intro p3 hp
  have h3 : (GoMap.keys p3).Nodup := (hp.map _).nodup_iff.1 h1
  have hs3 := signString_congr signKey token times body p3 p1
    (mergedValue_congr signKey token times body p3 p1 h3 h1
      (fun key => (get_eq_of_perm p1 p3 h1 hp key).symm))
  unfold Sign
  rw [hs3]

/-- C11 on two orders of the same two extra params. -/
theorem C11_Sign_independent_of_params_order_witness :
    (GoMap.keys [("page", "1"), ("size", "20")]).Nodup ∧
    (GoMap.keys [("size", "20"), ("page", "1")]).Nodup ∧
    signString "k" "t" "1" "b" [("page", "1"), ("size", "20")]
      = signString "k" "t" "1" "b" [("size", "20"), ("page", "1")] ∧
    signString "k" "t" "1" "b" [("page", "1"), ("size", "20")]
      = "_signKey_=k&page=1&rb=b&size=20&times=1&token=t&" :=
  ⟨by decide, by decide,
    (C11_Sign_independent_of_params_order "k" "t" "1" "b" [("page", "1"), ("size", "20")]
      [("size", "20"), ("page", "1")] (by decide) (by decide)
      (get_eq_of_perm _ _ (by decide) (List.Perm.swap _ _ _))).1,
    by decide⟩

end SigningOrder

section SigningAmbiguity

theorem amp_split (x x2 y y2 : List Char) (hy : '&' ∉ y) (hy2 : '&' ∉ y2)
    (h : x ++ '&' :: y = x2 ++ '&' :: y2) : x = x2 ∧ y = y2 := by
  rcases List.append_eq_append_iff.1 h with ⟨c, hc1, hc2⟩ | ⟨c, hc1, hc2⟩
  · cases c with
    | nil =>
      simp only [List.append_nil, List.nil_append, List.cons.injEq, true_and] at hc1 hc2
      exact ⟨hc1.symm, hc2⟩
    | cons d c2 =>
      exfalso
      simp only [List.cons_append, List.cons.injEq] at hc2
      apply hy
      rw [hc2.2]
      simp
  · cases c with
    | nil =>
      simp only [List.append_nil, List.nil_append, List.cons.injEq, true_and] at hc1 hc2
      exact ⟨hc1, hc2.symm⟩
    | cons d c2 =>
      exfalso
      simp only [List.cons_append, List.cons.injEq] at hc2
      apply hy2
      rw [hc2.2]
      simp

theorem signString_nil_data (signKey token times body : String) :
    (signString signKey token times body []).data =
      ("_signKey_=" ++ signKey ++ "&rb=").data ++
        (body.data ++ '&' :: ("times=".data ++ times.data)) ++
        ("&token=" ++ token ++ "&").data := by
  rw [signString_nil]
  simp [String.data_append]

theorem signString_nil_split (signKey token times1 body1 times2 body2 : String)
    (h : signString signKey token times1 body1 [] = signString signKey token times2 body2 []) :
    body1.data ++ '&' :: ("times=".data ++ times1.data)
      = body2.data ++ '&' :: ("times=".data ++ times2.data) := by
  have hd := congrArg String.data h
  rw [signString_nil_data, signString_nil_data] at hd
  exact List.append_cancel_left (List.append_cancel_right hd)

theorem hexDigit_injective : ∀ n, n < 16 → ∀ m, m < 16 → hexDigit n = hexDigit m → n = m := by
  decide

theorem sprintfHex_data (l : List Nat) :
    (sprintfHex l).data = l.flatMap (fun b => [hexDigit (b / 16), hexDigit (b % 16)]) := rfl

theorem sprintfHex_injective : ∀ l1 l2 : List Nat, (∀ b ∈ l1, b < 256) → (∀ b ∈ l2, b < 256) →
    sprintfHex l1 = sprintfHex l2 → l1 = l2
  | [], [], _, _, _ => rfl
  | [], _ :: _, _, _, h => by
    have hd := congrArg String.data h
    simp [sprintfHex_data] at hd
  | _ :: _, [], _, _, h => by
    have hd := congrArg String.data h
    simp [sprintfHex_data] at hd
  | a :: as, b :: bs, h1, h2, h => by
    have ha := h1 a (List.mem_cons_self _ _)
    have hb := h2 b (List.mem_cons_self _ _)
    have hd := congrArg String.data h
    simp only [sprintfHex_data, List.flatMap_cons, List.cons_append, List.nil_append,
      List.cons.injEq] at hd
    obtain ⟨e1, e2, e3⟩ := hd
    have q1 := hexDigit_injective _ (by omega) _ (by omega) e1
    have q2 := hexDigit_injective _ (by omega) _ (by omega) e2
    have hab : a = b := by omega
    have ih := sprintfHex_injective as bs (fun x hx => h1 x (List.mem_cons_of_mem _ hx))
      (fun x hx => h2 x (List.mem_cons_of_mem _ hx))
      (String.ext (by rw [sprintfHex_data, sprintfHex_data]; exact e3))
    rw [hab, ih]

/-- C12 (as stated, refuted): with sign key "k", token "t" and no extra params, body
"a&times=b" with times "c" and body "a" with times "b&times=c" differ in both inputs, yet the
hashed strings are the same string, and so are the digests. -/
theorem C12_distinct_inputs_same_signed_string :
    ("a&times=b" : String) ≠ "a" ∧ ("c" : String) ≠ "b&times=c" ∧
    signString "k" "t" "c" "a&times=b" [] = signString "k" "t" "b&times=c" "a" [] ∧
    signString "k" "t" "c" "a&times=b" [] = "_signKey_=k&rb=a&times=b&times=c&token=t&" ∧
    Sign "k" "t" "c" "a&times=b" [] = Sign "k" "t" "b&times=c" "a" [] :=
  ⟨by decide, by decide, by decide, by decide,
    congrArg (fun s => sprintfHex (md5.Sum (goBytes s)))
      (by decide : signString "k" "t" "c" "a&times=b" []
        = signString "k" "t" "b&times=c" "a" [])⟩

/-- C12 (amended): for every signKey and token, with empty extraParams, two calls of Sign
whose (body, times) inputs differ hash different strings whenever the two times values are
equal, or the two bodies are equal, or neither times value contains the character "&" (as
the decimal timestamps of Request do not); their digests then differ unless MD5 collides on
the two strings. -/
theorem C12_differing_inputs_change_signed_string (signKey token body1 times1 body2 times2 : String)
    (hdiff : (body1, times1) ≠ (body2, times2))
    (hshape : times1 = times2 ∨ body1 = body2 ∨ ('&' ∉ times1.data ∧ '&' ∉ times2.data)) :
    signString signKey token times1 body1 [] ≠ signString signKey token times2 body2 [] ∧
    (Sign signKey token times1 body1 [] = Sign signKey token times2 body2 [] →
      goBytes (signString signKey token times1 body1 [])
        ≠ goBytes (signString signKey token times2 body2 []) ∧
      md5.Sum (goBytes (signString signKey token times1 body1 []))
        = md5.Sum (goBytes (signString signKey token times2 body2 []))) := by
  have hne : signString signKey token times1 body1 []
      ≠ signString signKey token times2 body2 [] := by
    intro h
    have hs := signString_nil_split signKey token times1 body1 times2 body2 h
    apply hdiff
    rcases hshape with ht | hb | ⟨h1, h2⟩
    · subst ht
      have := List.append_cancel_right hs
      rw [String.ext this]
    · subst hb
      have := List.append_cancel_left (List.cons.inj (List.append_cancel_left hs)).2
      rw [String.ext this]
    · have hamp : ∀ t : String, '&' ∉ t.data → '&' ∉ "times=".data ++ t.data := by
        intro t ht hmem
        rcases List.mem_append.1 hmem with hm | hm
        · revert hm; decide
        · exact ht hm
      obtain ⟨e1, e2⟩ := amp_split _ _ _ _ (hamp times1 h1) (hamp times2 h2) hs
      rw [String.ext e1, String.ext (List.append_cancel_left e2)]
  refine ⟨hne, fun hsign => ⟨fun hb => hne (String.ext (goBytes_injective _ _ hb)), ?_⟩⟩
  exact sprintfHex_injective _ _ (md5_Sum_lt _) (md5_Sum_lt _) hsign

/-- C12 (amended) on two decimal times values with the same body. -/
theorem C12_differing_inputs_change_signed_string_witness :
    (("b", "1700000000000") : String × String) ≠ ("b", "1700000000001") ∧
    signString "k" "t" "1700000000000" "b" [] ≠ signString "k" "t" "1700000000001" "b" [] :=
  ⟨by decide,
    (C12_differing_inputs_change_signed_string "k" "t" "b" "1700000000000" "b" "1700000000001"
      (by decide) (Or.inr (Or.inl rfl))).1⟩

end SigningAmbiguity

/-! ## Inbound verification and outbound signing -/

section InboundVerification

open ExecutorControllerImpl

theorem Sign_length_and_chars (signKey token times body : String) (params : GoMap String) :
    (Sign signKey token times body params).length = 32 ∧
    ∀ c ∈ (Sign signKey token times body params).data, c ∈ "0123456789abcdef".data := by
  unfold Sign
  exact ⟨by rw [sprintfHex_length, md5_Sum_length], sprintfHex_chars _ (md5_Sum_lt _)⟩

/-- C13: verifySign accepts a request iff its sign header equals, character for character,
the value Sign gives for the stored sign key, the token and times headers, the request body
and no extra params; a sign header of another length than 32, or with a character that is
not a lowercase hexadecimal digit (an upper-case letter, say), is rejected. -/
theorem C13_verifySign_exact_match (signKey : String) (request : InboundRequest)
    (body : String) :
    (verifySign signKey request body = true ↔
      request.GetHeader "sign"
        = Sign signKey (request.GetHeader "token") (request.GetHeader "times") body []) ∧
    (request.GetHeader "sign"
        ≠ Sign signKey (request.GetHeader "token") (request.GetHeader "times") body [] →
      verifySign signKey request body = false) ∧
    ((request.GetHeader "sign").length ≠ 32 → verifySign signKey request body = false) ∧
    ((∃ c ∈ (request.GetHeader "sign").data, c ∉ "0123456789abcdef".data) →
      verifySign signKey request body = false) := by
  have hiff : verifySign signKey request body = true ↔
      request.GetHeader "sign"
        = Sign signKey (request.GetHeader "token") (request.GetHeader "times") body [] := by
    unfold verifySign
    rw [beq_iff_eq]
    exact eq_comm
  have hfalse : request.GetHeader "sign"
        ≠ Sign signKey (request.GetHeader "token") (request.GetHeader "times") body [] →
      verifySign signKey request body = false := by
    intro hne
    cases hv : verifySign signKey request body with
    | false => rfl
    | true => exact absurd (hiff.1 hv) hne
  have hsign := Sign_length_and_chars signKey (request.GetHeader "token")
    (request.GetHeader "times") body []
  refine ⟨hiff, hfalse, ?_, ?_⟩
  · intro hlen
    apply hfalse
    intro heq
    rw [heq] at hlen
    exact hlen hsign.1
  · rintro ⟨c, hc, hnot⟩
    apply hfalse
    intro heq
    rw [heq] at hc
    exact hnot (hsign.2 c hc)

set_option maxRecDepth 100000 in
/-- C13 on a request signed with key "k": the digest in lowercase is accepted, the same
digest in upper case is rejected, and so is a truncated one. -/
theorem C13_verifySign_exact_match_witness :
    verifySign "k"
      { Header := [("sign", "e6c00df79b2ddeb83136f7a301d7502c"), ("token", "t"), ("times", "1")]
        Body := some "b" } "b" = true ∧
    verifySign "k"
      { Header := [("sign", "E6C00DF79B2DDEB83136F7A301D7502C"), ("token", "t"), ("times", "1")]
        Body := some "b" } "b" = false ∧
    verifySign "k"
      { Header := [("sign", "e6c00df79b2ddeb83136f7a301d7502"), ("token", "t"), ("times", "1")]
        Body := some "b" } "b" = false :=
  ⟨by decide,
    (C13_verifySign_exact_match "k"
      { Header := [("sign", "E6C00DF79B2DDEB83136F7A301D7502C"), ("token", "t"), ("times", "1")]
        Body := some "b" } "b").2.2.2 ⟨'E', by decide, by decide⟩,
    (C13_verifySign_exact_match "k"
      { Header := [("sign", "e6c00df79b2ddeb83136f7a301d7502"), ("token", "t"), ("times", "1")]
        Body := some "b" } "b").2.2.1 (by decide)⟩

end InboundVerification

section HeaderNames

end HeaderNames
section OutboundSigning

open ExecutorControllerImpl httpClientImpl

end OutboundSigning

section DispatchEndpoint

open ExecutorControllerImpl

theorem AddTask_perm (taskQueue : List TaskParams) (params : TaskParams) :
    (dispatcherServiceImpl.AddTask taskQueue params).1.Perm (params :: taskQueue) :=
  Push_perm _ _ _

/-- C15: for a dispatch request whose body could be read, Dispatcher answers ERROR_SIGN
(code 6) when verifySign rejects; otherwise ERROR_EXECUTE_SHUTDOWN (code 15) when Shutdown is
set; otherwise ERROR (code 1000) when the body does not decode to TaskParams; otherwise
SUCCESS (code 0). In the code-0 case the decoded task, stamped with the receipt time, is
added to the execution queue, whose size grows by one; in every other case the queue is
unchanged. -/
theorem C15_Dispatcher_answers (unmarshal : String → Option TaskParams) (signKey : String)
    (Shutdown : Bool) (now : Int) (request : InboundRequest) (taskQueue : List TaskParams)
    (body : String) (hbody : request.Body = some body) :
    (verifySign signKey request body = false →
      Dispatcher unmarshal signKey Shutdown now request taskQueue = (ERROR_SIGN, taskQueue)) ∧
    (verifySign signKey request body = true → Shutdown = true →
      Dispatcher unmarshal signKey Shutdown now request taskQueue
        = (ERROR_EXECUTE_SHUTDOWN, taskQueue)) ∧
    (verifySign signKey request body = true → Shutdown = false → unmarshal body = none →
      Dispatcher unmarshal signKey Shutdown now request taskQueue = (ERROR, taskQueue)) ∧
    (∀ taskParams, verifySign signKey request body = true → Shutdown = false →
      unmarshal body = some taskParams →
      Dispatcher unmarshal signKey Shutdown now request taskQueue
        = (SUCCESS, (dispatcherServiceImpl.AddTask taskQueue
            { taskParams with ReceivedDispatcherTime := now }).1) ∧
      (Dispatcher unmarshal signKey Shutdown now request taskQueue).2.Perm
        ({ taskParams with ReceivedDispatcherTime := now } :: taskQueue)) ∧
    ERROR_SIGN.Code = 6 ∧ ERROR_EXECUTE_SHUTDOWN.Code = 15 ∧ ERROR.Code = 1000 ∧
    SUCCESS.Code = 0 ∧
    ((Dispatcher unmarshal signKey Shutdown now request taskQueue).1.Code = 0 →
      Size (Dispatcher unmarshal signKey Shutdown now request taskQueue).2
        = Size taskQueue + 1) ∧
    ((Dispatcher unmarshal signKey Shutdown now request taskQueue).1.Code ≠ 0 →
      (Dispatcher unmarshal signKey Shutdown now request taskQueue).2 = taskQueue) := by
  have h1 : verifySign signKey request body = false →
      Dispatcher unmarshal signKey Shutdown now request taskQueue = (ERROR_SIGN, taskQueue) := by
    intro hv
    simp [Dispatcher, hbody, hv]
  have h2 : verifySign signKey request body = true → Shutdown = true →
      Dispatcher unmarshal signKey Shutdown now request taskQueue
        = (ERROR_EXECUTE_SHUTDOWN, taskQueue) := by
    intro hv hs
    simp [Dispatcher, hbody, hv, hs]
  have h3 : verifySign signKey request body = true → Shutdown = false → unmarshal body = none →
      Dispatcher unmarshal signKey Shutdown now request taskQueue = (ERROR, taskQueue) := by
    intro hv hs hu
    simp [Dispatcher, hbody, hv, hs, hu]
  have h4 : ∀ taskParams, verifySign signKey request body = true → Shutdown = false →
      unmarshal body = some taskParams →
      Dispatcher unmarshal signKey Shutdown now request taskQueue
        = (SUCCESS, (dispatcherServiceImpl.AddTask taskQueue
            { taskParams with ReceivedDispatcherTime := now }).1) := by
    intro taskParams hv hs hu
    simp [Dispatcher, hbody, hv, hs, hu]
  refine ⟨h1, h2, h3, ?_, rfl, rfl, rfl, rfl, ?_, ?_⟩
  · intro taskParams hv hs hu
    refine ⟨h4 taskParams hv hs hu, ?_⟩
    rw [h4 taskParams hv hs hu]
    exact AddTask_perm _ _
  · intro hcode
    cases hv : verifySign signKey request body with
    | false => rw [h1 hv] at hcode; exact absurd hcode (by simp [ERROR_SIGN])
    | true =>
      rcases Bool.eq_false_or_eq_true Shutdown with hs | hs
      · rw [h2 hv hs] at hcode; exact absurd hcode (by simp [ERROR_EXECUTE_SHUTDOWN])
      · cases hu : unmarshal body with
        | none => rw [h3 hv hs hu] at hcode; exact absurd hcode (by simp [ERROR])
        | some taskParams =>
          rw [h4 taskParams hv hs hu]
          simpa [Size] using (AddTask_perm taskQueue
            { taskParams with ReceivedDispatcherTime := now }).length_eq
  · intro hcode
    cases hv : verifySign signKey request body with
    | false => rw [h1 hv]
    | true =>
      rcases Bool.eq_false_or_eq_true Shutdown with hs | hs
      · rw [h2 hv hs]
      · cases hu : unmarshal body with
        | none => rw [h3 hv hs hu]
        | some taskParams =>
          rw [h4 taskParams hv hs hu] at hcode
          exact absurd rfl hcode

set_option maxRecDepth 100000 in
/-- C15 on a correctly signed request with body "{}": answered with code 0 and queued with
the receipt time; the same request is answered with code 15 once Shutdown is set, and with
code 6 when its sign header is altered. -/
theorem C15_Dispatcher_answers_witness :
    Dispatcher demoUnmarshal "k" false 1700000000123
      { Header := [("sign", "b52377257b63ce5f5c3e0a2be977b89e"), ("token", "t"), ("times", "1")]
        Body := some "{}" } []
      = (SUCCESS, [{ ReceivedDispatcherTime := 1700000000123 }]) ∧
    Dispatcher demoUnmarshal "k" true 1700000000123
      { Header := [("sign", "b52377257b63ce5f5c3e0a2be977b89e"), ("token", "t"), ("times", "1")]
        Body := some "{}" } []
      = (ERROR_EXECUTE_SHUTDOWN, []) ∧
    Dispatcher demoUnmarshal "k" false 1700000000123
      { Header := [("sign", "052377257b63ce5f5c3e0a2be977b89e"), ("token", "t"), ("times", "1")]
        Body := some "{}" } []
      = (ERROR_SIGN, []) :=
  ⟨((C15_Dispatcher_answers demoUnmarshal "k" false 1700000000123
      { Header := [("sign", "b52377257b63ce5f5c3e0a2be977b89e"), ("token", "t"), ("times", "1")]
        Body := some "{}" } [] "{}" rfl).2.2.2.1 {} (by decide) rfl rfl).1,
    (C15_Dispatcher_answers demoUnmarshal "k" true 1700000000123
      { Header := [("sign", "b52377257b63ce5f5c3e0a2be977b89e"), ("token", "t"), ("times", "1")]
        Body := some "{}" } [] "{}" rfl).2.1 (by decide) rfl,
    (C15_Dispatcher_answers demoUnmarshal "k" false 1700000000123
      { Header := [("sign", "052377257b63ce5f5c3e0a2be977b89e"), ("token", "t"), ("times", "1")]
        Body := some "{}" } [] "{}" rfl).1 (by decide)⟩

end DispatchEndpoint

section Registry

open executorClientImpl

theorem AddTask_of_empty_cron (client : executorClientImpl) (handler : TaskHandler)
    (options : TaskOptions) (h : options.Cron = "") :
    AddTask client handler options
      = (client, some "invalid cronjob options, please set cron.") := by
  unfold AddTask
  rw [if_pos h]

theorem AddTask_of_empty_name (client : executorClientImpl) (handler : TaskHandler)
    (options : TaskOptions) (hc : options.Cron ≠ "") (h : options.Name = "") :
    AddTask client handler options
      = (client, some "invalid task options, please set name.") := by
  unfold AddTask
  rw [if_neg hc, if_pos h]

theorem AddTask_of_valid (client : executorClientImpl) (handler : TaskHandler)
    (options : TaskOptions) (hc : options.Cron ≠ "") (hn : options.Name ≠ "") :
    AddTask client handler options
      = ({ client with
            handlers := GoMap.put client.handlers (taskKey client.options.AppName handler)
              handler.Handle
            taskOptions := GoMap.put client.taskOptions
              (taskKey client.options.AppName handler) (applyDefaults options) },
          none) := by
  unfold AddTask
  rw [if_neg hc, if_neg hn]
  rfl

/-- C16: AddTask panics iff options.Cron is empty or options.Name is empty (the check of the
Handle method cannot fail for a handler value), and a call that panics leaves the client,
with its handler registry and its task-options registry, as it was; with an empty Cron the
panic is "invalid cronjob options, please set cron.". -/
theorem C16_AddTask_panics_iff_cron_or_name_empty (client : executorClientImpl)
    (handler : TaskHandler) (options : TaskOptions) :
    ((AddTask client handler options).2.isSome = true ↔
      (options.Cron = "" ∨ options.Name = "")) ∧
    ((AddTask client handler options).2.isSome = true →
      (AddTask client handler options).1 = client) ∧
    (options.Cron = "" →
      (AddTask client handler options).2 = some "invalid cronjob options, please set cron.") ∧
    (options.Cron ≠ "" → options.Name = "" →
      (AddTask client handler options).2 = some "invalid task options, please set name.") := by
  by_cases hc : options.Cron = ""
  · rw [AddTask_of_empty_cron client handler options hc]
    exact ⟨⟨fun _ => Or.inl hc, fun _ => rfl⟩, fun _ => rfl, fun _ => rfl,
      fun h => absurd hc h⟩
  · by_cases hn : options.Name = ""
    · rw [AddTask_of_empty_name client handler options hc hn]
      exact ⟨⟨fun _ => Or.inr hn, fun _ => rfl⟩, fun _ => rfl, fun h => absurd h hc,
        fun _ _ => rfl⟩
    · rw [AddTask_of_valid client handler options hc hn]
      refine ⟨⟨fun h => by simp at h, fun h => ?_⟩, fun h => by simp at h,
        fun h => absurd h hc, fun _ h => absurd h hn⟩
      rcases h with h | h
      · exact absurd h hc
      · exact absurd h hn

/-- C16 on a registration with Cron = "": it panics and both registries stay empty. -/
theorem C16_AddTask_panics_iff_cron_or_name_empty_witness :
    (AddTask (init { AppName := "go-example-executor" }) demoTask
      { Name := "demo", Cron := "" }).2 = some "invalid cronjob options, please set cron." ∧
    GoMap.keys (AddTask (init { AppName := "go-example-executor" }) demoTask
      { Name := "demo", Cron := "" }).1.handlers = [] ∧
    GoMap.keys (AddTask (init { AppName := "go-example-executor" }) demoTask
      { Name := "demo", Cron := "" }).1.taskOptions = [] :=
  ⟨(C16_AddTask_panics_iff_cron_or_name_empty (init { AppName := "go-example-executor" })
      demoTask { Name := "demo", Cron := "" }).2.2.1 rfl, rfl, rfl⟩

/-- The seven default steps of AddTask, field by field. -/
theorem applyDefaults_eq (options : TaskOptions) :
    applyDefaults options =
      { Name := options.Name
        Cron := options.Cron
        RouterStrategy := if options.RouterStrategy = 0 then 1 else options.RouterStrategy
        ExpiredStrategy := if options.ExpiredStrategy = 0 then 2 else options.ExpiredStrategy
        ExpireTime := if options.ExpireTime = 0 then 180000 else options.ExpireTime
        FailureStrategy := if options.FailureStrategy = 0 then 1 else options.FailureStrategy
        MaxRetryCount := if options.MaxRetryCount = 0 then 5 else options.MaxRetryCount
        FailureRetryInterval :=
          if options.FailureRetryInterval = 0 then 5000 else options.FailureRetryInterval
        Timeout := if options.Timeout = 0 then 10000 else options.Timeout
        Remark := options.Remark } := by
  obtain ⟨n, c, r, e, t, f, m, i, o, k⟩ := options
  simp only [applyDefaults, RANDOM, ExpiredExecute, FailureRetry]
  by_cases h1 : r = 0 <;> by_cases h2 : e = 0 <;> by_cases h3 : t = 0 <;>
    by_cases h4 : f = 0 <;> by_cases h5 : m = 0 <;> by_cases h6 : i = 0 <;>
    by_cases h7 : o = 0 <;> simp only [h1, h2, h3, h4, h5, h6, h7, if_true, if_false] <;> rfl

/-- C17: for options with non-empty Cron and Name, AddTask does not panic and stores under
the task key the input options with each zero field among RouterStrategy, ExpiredStrategy,
ExpireTime, FailureStrategy, MaxRetryCount, FailureRetryInterval and Timeout replaced by its
default (1, 2, 180000, 1, 5, 5000, 10000) and every other field as given. -/
theorem C17_AddTask_stores_options_with_defaults (client : executorClientImpl)
    (handler : TaskHandler) (options : TaskOptions)
    (hc : options.Cron ≠ "") (hn : options.Name ≠ "") :
    (AddTask client handler options).2 = none ∧
    GoMap.get (AddTask client handler options).1.taskOptions
        (taskKey client.options.AppName handler)
      = some
        { Name := options.Name
          Cron := options.Cron
          RouterStrategy := if options.RouterStrategy = 0 then 1 else options.RouterStrategy
          ExpiredStrategy := if options.ExpiredStrategy = 0 then 2 else options.ExpiredStrategy
          ExpireTime := if options.ExpireTime = 0 then 180000 else options.ExpireTime
          FailureStrategy := if options.FailureStrategy = 0 then 1 else options.FailureStrategy
          MaxRetryCount := if options.MaxRetryCount = 0 then 5 else options.MaxRetryCount
          FailureRetryInterval :=
            if options.FailureRetryInterval = 0 then 5000 else options.FailureRetryInterval
          Timeout := if options.Timeout = 0 then 10000 else options.Timeout
          Remark := options.Remark } ∧
    RANDOM = 1 ∧ ExpiredExecute = 2 ∧ FailureRetry = 1 := by
  rw [AddTask_of_valid client handler options hc hn]
  refine ⟨rfl, ?_, rfl, rfl, rfl⟩
  simp only
  rw [GoMap.get_put, if_pos rfl]
  rw [applyDefaults_eq]

/-- C17 on options that hold only Cron and Name: all seven defaults are stored. -/
theorem C17_AddTask_stores_options_with_defaults_witness :
    ({ Cron := "* * * * * ? ", Name := "Go测试任务" } : TaskOptions).Cron ≠ "" ∧
    ({ Cron := "* * * * * ? ", Name := "Go测试任务" } : TaskOptions).Name ≠ "" ∧
    GoMap.get (AddTask (init { AppName := "go-example-executor" }) demoTask
        { Cron := "* * * * * ? ", Name := "Go测试任务" }).1.taskOptions
        "go-example-executor/cronjob.DemoTask.Handle"
      = some
        { Name := "Go测试任务"
          Cron := "* * * * * ? "
          RouterStrategy := 1
          ExpiredStrategy := 2
          ExpireTime := 180000
          FailureStrategy := 1
          MaxRetryCount := 5
          FailureRetryInterval := 5000
          Timeout := 10000
          Remark := "" } :=
  ⟨by decide, by decide,
    (C17_AddTask_stores_options_with_defaults (init { AppName := "go-example-executor" })
      demoTask { Cron := "* * * * * ? ", Name := "Go测试任务" } (by decide) (by decide)).2.1⟩

/-- C18 fails on the code: AddTask stores an ExpireTime of 600000 ms and a Timeout of
60000 ms as given, above the maxima of 300000 ms and 10000 ms that the comments of
TaskOptions state. -/
theorem C18_AddTask_stores_values_above_the_maxima :
    (AddTask (init { AppName := "go-example-executor" }) demoTask
        { Cron := "* * * * * ? ", Name := "demo", ExpireTime := 600000, Timeout := 60000 }).2
      = none ∧
    GoMap.get (AddTask (init { AppName := "go-example-executor" }) demoTask
        { Cron := "* * * * * ? ", Name := "demo", ExpireTime := 600000,
          Timeout := 60000 }).1.taskOptions
        "go-example-executor/cronjob.DemoTask.Handle"
      = some
        { Name := "demo"
          Cron := "* * * * * ? "
          RouterStrategy := 1
          ExpiredStrategy := 2
          ExpireTime := 600000
          FailureStrategy := 1
          MaxRetryCount := 5
          FailureRetryInterval := 5000
          Timeout := 60000
          Remark := "" } ∧
    ¬ ((600000 : Int) ≤ 300000) ∧ ¬ ((60000 : Int) ≤ 10000) := by
  decide

end Registry

section RegistryKeys
open executorClientImpl

theorem AddTask_options (client : executorClientImpl) (handler : TaskHandler)
    (options : TaskOptions) : (AddTask client handler options).1.options = client.options := by
  by_cases hc : options.Cron = ""
  · rw [AddTask_of_empty_cron client handler options hc]
  · by_cases hn : options.Name = ""
    · rw [AddTask_of_empty_name client handler options hc hn]
    · rw [AddTask_of_valid client handler options hc hn]

theorem AddTask_agree (client : executorClientImpl) (handler : TaskHandler)
    (options : TaskOptions) (h : RegistriesAgree client) :
    RegistriesAgree (AddTask client handler options).1 := by
  by_cases hc : options.Cron = ""
  · rw [AddTask_of_empty_cron client handler options hc]
    exact h
  · by_cases hn : options.Name = ""
    · rw [AddTask_of_empty_name client handler options hc hn]
      exact h
    · rw [AddTask_of_valid client handler options hc hn]
      refine ⟨?_, GoMap.nodup_keys_put _ _ _ h.2⟩
      simp only
      rw [GoMap.keys_put, GoMap.keys_put, h.1]

theorem addTasks_options : ∀ (tasks : List (TaskHandler × TaskOptions))
    (client : executorClientImpl), (addTasks client tasks).options = client.options := by
  intro tasks
  induction tasks with
  | nil => intro client; rfl
  | cons t ts ih =>
    intro client
    show (addTasks (AddTask client t.1 t.2).1 ts).options = client.options
    rw [ih, AddTask_options]

theorem addTasks_agree : ∀ (tasks : List (TaskHandler × TaskOptions))
    (client : executorClientImpl), RegistriesAgree client →
    RegistriesAgree (addTasks client tasks) := by
  intro tasks
  induction tasks with
  | nil => intro client h; exact h
  | cons t ts ih =>
    intro client h
    exact ih _ (AddTask_agree client t.1 t.2 h)

theorem init_agree (options : ExecutorOptions) : RegistriesAgree (init options) :=
  ⟨rfl, List.nodup_nil⟩

/-- C19: the key AddTask uses is AppName ++ "/" ++ type name ++ ".Handle", the same for two
handlers of one type; in a client built by any sequence of AddTask calls the two registries
have the same keys, each once; and adding a task whose key is registered leaves the keys of
both registries as they were, with the new handler and the new options (after defaults)
stored under that key, which is held once. -/
theorem C19_AddTask_keeps_one_entry_per_key (options0 : ExecutorOptions)
    (tasks : List (TaskHandler × TaskOptions)) (handler : TaskHandler) (options : TaskOptions)
    (hc : options.Cron ≠ "") (hn : options.Name ≠ "")
    (hreg : taskKey options0.AppName handler ∈
      GoMap.keys (addTasks (init options0) tasks).handlers) :
    taskKey options0.AppName handler
      = options0.AppName ++ "/" ++ handler.TypeString ++ ".Handle" ∧
    (∀ other : TaskHandler, other.TypeString = handler.TypeString →
      taskKey options0.AppName other = taskKey options0.AppName handler) ∧
    GoMap.keys (addTasks (init options0) tasks).handlers
      = GoMap.keys (addTasks (init options0) tasks).taskOptions ∧
    (GoMap.keys (addTasks (init options0) tasks).handlers).Nodup ∧
    GoMap.keys (AddTask (addTasks (init options0) tasks) handler options).1.handlers
      = GoMap.keys (addTasks (init options0) tasks).handlers ∧
    GoMap.keys (AddTask (addTasks (init options0) tasks) handler options).1.taskOptions
      = GoMap.keys (addTasks (init options0) tasks).taskOptions ∧
    (GoMap.keys (AddTask (addTasks (init options0) tasks) handler options).1.handlers).count
      (taskKey options0.AppName handler) = 1 ∧
    (GoMap.keys (AddTask (addTasks (init options0) tasks) handler options).1.taskOptions).count
      (taskKey options0.AppName handler) = 1 ∧
    GoMap.get (AddTask (addTasks (init options0) tasks) handler options).1.handlers
      (taskKey options0.AppName handler) = some handler.Handle ∧
    GoMap.get (AddTask (addTasks (init options0) tasks) handler options).1.taskOptions
      (taskKey options0.AppName handler) = some (applyDefaults options) := by
  have hagree := addTasks_agree tasks (init options0) (init_agree options0)
  have hopt : (addTasks (init options0) tasks).options = options0 :=
    addTasks_options tasks (init options0)
  have hreg2 : taskKey options0.AppName handler ∈
      GoMap.keys (addTasks (init options0) tasks).taskOptions := hagree.1 ▸ hreg
  have hk1 : GoMap.keys (AddTask (addTasks (init options0) tasks) handler options).1.handlers
      = GoMap.keys (addTasks (init options0) tasks).handlers := by
    rw [AddTask_of_valid _ handler options hc hn]
    simp only
    rw [GoMap.keys_put, hopt, if_pos hreg]
  have hk2 : GoMap.keys (AddTask (addTasks (init options0) tasks) handler options).1.taskOptions
      = GoMap.keys (addTasks (init options0) tasks).taskOptions := by
    rw [AddTask_of_valid _ handler options hc hn]
    simp only
    rw [GoMap.keys_put, hopt, if_pos hreg2]
  refine ⟨rfl, ?_, hagree.1, hagree.2, hk1, hk2, ?_, ?_, ?_, ?_⟩
  · intro other h
    unfold taskKey
    rw [h]
  · rw [hk1]
    exact List.count_eq_one_of_mem hagree.2 hreg
  · rw [hk2]
    exact List.count_eq_one_of_mem (hagree.1 ▸ hagree.2) hreg2
  · rw [AddTask_of_valid _ handler options hc hn]
    simp only
    rw [hopt, GoMap.get_put, if_pos rfl]
  · rw [AddTask_of_valid _ handler options hc hn]
    simp only
    rw [hopt, GoMap.get_put, if_pos rfl]

/-- C19 on a client that holds the demo task: adding it again with another cron expression
keeps the one key and stores the new options. -/
theorem C19_AddTask_keeps_one_entry_per_key_witness :
    GoMap.keys (AddTask (addTasks (init { AppName := "go-example-executor" })
        [(demoTask, { Cron := "* * * * * ? ", Name := "demo" })]) demoTask
        { Cron := "0 0 * * * ? ", Name := "demo" }).1.taskOptions
      = ["go-example-executor/cronjob.DemoTask.Handle"] ∧
    GoMap.get (AddTask (addTasks (init { AppName := "go-example-executor" })
        [(demoTask, { Cron := "* * * * * ? ", Name := "demo" })]) demoTask
        { Cron := "0 0 * * * ? ", Name := "demo" }).1.taskOptions
        (taskKey "go-example-executor" demoTask)
      = some (applyDefaults { Cron := "0 0 * * * ? ", Name := "demo" }) :=
  ⟨(C19_AddTask_keeps_one_entry_per_key { AppName := "go-example-executor" }
      [(demoTask, { Cron := "* * * * * ? ", Name := "demo" })] demoTask
      { Cron := "0 0 * * * ? ", Name := "demo" } (by decide) (by decide)
      (by decide)).2.2.2.2.2.1.trans (by decide),
   (C19_AddTask_keeps_one_entry_per_key { AppName := "go-example-executor" }
      [(demoTask, { Cron := "* * * * * ? ", Name := "demo" })] demoTask
      { Cron := "0 0 * * * ? ", Name := "demo" } (by decide) (by decide)
      (by decide)).2.2.2.2.2.2.2.2.2⟩

end RegistryKeys

section Registration
open registerServiceImpl

theorem RegisterExecutor_succ (answer shutdown : Nat → Bool) (fuel attempt : Nat)
    (success : Bool) :
    RegisterExecutor answer shutdown (fuel + 1) attempt success =
      if answer attempt = false ∧ shutdown attempt = false then
        { attempts := 1 + (RegisterExecutor answer shutdown fuel (attempt + 1) false).attempts
          returned := (RegisterExecutor answer shutdown fuel (attempt + 1) false).returned
          success := (RegisterExecutor answer shutdown fuel (attempt + 1) false).success }
      else { attempts := 1, returned := true, success := answer attempt } := by
  rw [RegisterExecutor]
  cases ha : answer attempt <;> cases hs : shutdown attempt <;> simp

theorem RegisterTask_succ (answer shutdown : Nat → Bool) (fuel attempt : Nat)
    (success : Bool) :
    RegisterTask answer shutdown (fuel + 1) attempt success =
      if answer attempt = false ∧ shutdown attempt = false then
        { attempts := 1 + (RegisterTask answer shutdown fuel (attempt + 1) success).attempts
          returned := (RegisterTask answer shutdown fuel (attempt + 1) success).returned
          success := (RegisterTask answer shutdown fuel (attempt + 1) success).success }
      else { attempts := 1, returned := true, success := success } := by
  rw [RegisterTask]
  cases ha : answer attempt <;> cases hs : shutdown attempt <;> simp

theorem RegisterExecutor_returns (answer shutdown : Nat → Bool) :
    ∀ (n attempt fuel : Nat) (success : Bool),
      (∀ i, i < n → answer (attempt + i) = false ∧ shutdown (attempt + i) = false) →
      (answer (attempt + n) = true ∨ shutdown (attempt + n) = true) → n < fuel →
      RegisterExecutor answer shutdown fuel attempt success
        = { attempts := n + 1, returned := true, success := answer (attempt + n) } := by
  intro n
  induction n with
  | zero =>
    intro attempt fuel success _ hstop hfuel
    obtain ⟨fuel, rfl⟩ := Nat.exists_eq_succ_of_ne_zero (Nat.pos_iff_ne_zero.mp hfuel)
    rw [RegisterExecutor_succ, if_neg]
    · rfl
    · rintro ⟨ha, hs⟩
      rcases hstop with h | h
      · rw [Nat.add_zero, ha] at h; cases h
      · rw [Nat.add_zero, hs] at h; cases h
  | succ n ih =>
    intro attempt fuel success hfail hstop hfuel
    obtain ⟨fuel, rfl⟩ := Nat.exists_eq_succ_of_ne_zero (by omega : fuel ≠ 0)
    have h0 := hfail 0 (Nat.succ_pos n)
    rw [Nat.add_zero] at h0
    rw [RegisterExecutor_succ, if_pos h0]
    have hrec := ih (attempt + 1) fuel false
      (fun i hi => by
        have := hfail (i + 1) (by omega)
        rwa [show attempt + (i + 1) = attempt + 1 + i by omega] at this)
      (by rwa [show attempt + (n + 1) = attempt + 1 + n by omega] at hstop)
      (by omega)
    rw [hrec]
    simp only [RegisterRun.mk.injEq, true_and]
    exact ⟨by omega, by rw [show attempt + (n + 1) = attempt + 1 + n by omega]⟩

theorem RegisterTask_returns (answer shutdown : Nat → Bool) :
    ∀ (n attempt fuel : Nat) (success : Bool),
      (∀ i, i < n → answer (attempt + i) = false ∧ shutdown (attempt + i) = false) →
      (answer (attempt + n) = true ∨ shutdown (attempt + n) = true) → n < fuel →
      RegisterTask answer shutdown fuel attempt success
        = { attempts := n + 1, returned := true, success := success } := by
  intro n
  induction n with
  | zero =>
    intro attempt fuel success _ hstop hfuel
    obtain ⟨fuel, rfl⟩ := Nat.exists_eq_succ_of_ne_zero (Nat.pos_iff_ne_zero.mp hfuel)
    rw [RegisterTask_succ, if_neg]
    rintro ⟨ha, hs⟩
    rcases hstop with h | h
    · rw [Nat.add_zero, ha] at h; cases h
    · rw [Nat.add_zero, hs] at h; cases h
  | succ n ih =>
    intro attempt fuel success hfail hstop hfuel
    obtain ⟨fuel, rfl⟩ := Nat.exists_eq_succ_of_ne_zero (by omega : fuel ≠ 0)
    have h0 := hfail 0 (Nat.succ_pos n)
    rw [Nat.add_zero] at h0
    rw [RegisterTask_succ, if_pos h0]
    have hrec := ih (attempt + 1) fuel success
      (fun i hi => by
        have := hfail (i + 1) (by omega)
        rwa [show attempt + (i + 1) = attempt + 1 + i by omega] at this)
      (by rwa [show attempt + (n + 1) = attempt + 1 + n by omega] at hstop)
      (by omega)
    rw [hrec]
    simp only [RegisterRun.mk.injEq, true_and, and_true]
    omega

theorem RegisterExecutor_unbounded (answer shutdown : Nat → Bool)
    (hfail : ∀ i, answer i = false ∧ shutdown i = false) :
    ∀ (fuel attempt : Nat) (success : Bool),
      (RegisterExecutor answer shutdown fuel attempt success).attempts = fuel ∧
      (RegisterExecutor answer shutdown fuel attempt success).returned = false := by
  intro fuel
  induction fuel with
  | zero => intro attempt success; exact ⟨rfl, rfl⟩
  | succ fuel ih =>
    intro attempt success
    rw [RegisterExecutor_succ, if_pos (hfail attempt)]
    exact ⟨by simp only [(ih (attempt + 1) false).1]; omega, (ih (attempt + 1) false).2⟩

theorem RegisterTask_unbounded (answer shutdown : Nat → Bool)
    (hfail : ∀ i, answer i = false ∧ shutdown i = false) :
    ∀ (fuel attempt : Nat) (success : Bool),
      (RegisterTask answer shutdown fuel attempt success).attempts = fuel ∧
      (RegisterTask answer shutdown fuel attempt success).returned = false := by
  intro fuel
  induction fuel with
  | zero => intro attempt success; exact ⟨rfl, rfl⟩
  | succ fuel ih =>
    intro attempt success
    rw [RegisterTask_succ, if_pos (hfail attempt)]
    exact ⟨by simp only [(ih (attempt + 1) success).1]; omega, (ih (attempt + 1) success).2⟩

/-- C20: RegisterExecutor sends request number n + 1 after request number n iff that request
failed and Shutdown was unset when read after it. When requests 0 .. n - 1 fail with Shutdown
unset after each, and request n succeeds or Shutdown is set after it, the call returns
having sent exactly n + 1 requests, with the flag success holding the answer to the last
one; when every request fails and Shutdown is never set, the call sends as many requests as
it is given passes and never returns. RegisterTask follows the same rule. -/
theorem C20_register_retries_until_success_or_shutdown (answer shutdown : Nat → Bool)
    (n : Nat) (success : Bool)
    (hfail : ∀ i, i < n → answer i = false ∧ shutdown i = false)
    (hstop : answer n = true ∨ shutdown n = true) :
    (∀ fuel, n < fuel →
      RegisterExecutor answer shutdown fuel 0 success
        = { attempts := n + 1, returned := true, success := answer n }) ∧
    (∀ fuel, n < fuel →
      RegisterTask answer shutdown fuel 0 success
        = { attempts := n + 1, returned := true, success := success }) ∧
    (∀ (answer2 shutdown2 : Nat → Bool) (fuel attempt : Nat) (s : Bool),
      RegisterExecutor answer2 shutdown2 (fuel + 1) attempt s =
        if answer2 attempt = false ∧ shutdown2 attempt = false then
          { attempts :=
              1 + (RegisterExecutor answer2 shutdown2 fuel (attempt + 1) false).attempts
            returned := (RegisterExecutor answer2 shutdown2 fuel (attempt + 1) false).returned
            success := (RegisterExecutor answer2 shutdown2 fuel (attempt + 1) false).success }
        else { attempts := 1, returned := true, success := answer2 attempt }) ∧
    (∀ (answer2 shutdown2 : Nat → Bool) (fuel attempt : Nat) (s : Bool),
      RegisterTask answer2 shutdown2 (fuel + 1) attempt s =
        if answer2 attempt = false ∧ shutdown2 attempt = false then
          { attempts := 1 + (RegisterTask answer2 shutdown2 fuel (attempt + 1) s).attempts
            returned := (RegisterTask answer2 shutdown2 fuel (attempt + 1) s).returned
            success := (RegisterTask answer2 shutdown2 fuel (attempt + 1) s).success }
        else { attempts := 1, returned := true, success := s }) ∧
    (∀ answer2 shutdown2 : Nat → Bool,
      (∀ i, answer2 i = false ∧ shutdown2 i = false) → ∀ fuel,
        (RegisterExecutor answer2 shutdown2 fuel 0 success).attempts = fuel ∧
        (RegisterExecutor answer2 shutdown2 fuel 0 success).returned = false ∧
        (RegisterTask answer2 shutdown2 fuel 0 success).attempts = fuel ∧
        (RegisterTask answer2 shutdown2 fuel 0 success).returned = false) := by
  refine ⟨fun fuel hfuel => ?_, fun fuel hfuel => ?_, RegisterExecutor_succ, RegisterTask_succ,
    fun answer2 shutdown2 h fuel => ?_⟩
  · have := RegisterExecutor_returns answer shutdown n 0 fuel success
      (fun i hi => by rw [Nat.zero_add]; exact hfail i hi)
      (by rw [Nat.zero_add]; exact hstop) hfuel
    rwa [Nat.zero_add] at this
  · exact RegisterTask_returns answer shutdown n 0 fuel success
      (fun i hi => by rw [Nat.zero_add]; exact hfail i hi)
      (by rw [Nat.zero_add]; exact hstop) hfuel
  · exact ⟨(RegisterExecutor_unbounded answer2 shutdown2 h fuel 0 success).1,
      (RegisterExecutor_unbounded answer2 shutdown2 h fuel 0 success).2,
      (RegisterTask_unbounded answer2 shutdown2 h fuel 0 success).1,
      (RegisterTask_unbounded answer2 shutdown2 h fuel 0 success).2⟩

/-- C20 on a scheduler that never accepts, with Shutdown set after the third request: three
requests are sent and the call returns, however many passes it is given beyond three. -/
theorem C20_register_retries_until_success_or_shutdown_witness :
    (∀ i, i < 2 → (fun _ : Nat => false) i = false ∧ (fun k : Nat => decide (2 ≤ k)) i = false) ∧
    RegisterExecutor (fun _ => false) (fun k => decide (2 ≤ k)) 10 0 false
      = { attempts := 3, returned := true, success := false } ∧
    RegisterTask (fun _ => false) (fun k => decide (2 ≤ k)) 10 0 false
      = { attempts := 3, returned := true, success := false } :=
  ⟨by decide,
    (C20_register_retries_until_success_or_shutdown (fun _ => false)
      (fun k => decide (2 ≤ k)) 2 false (by decide) (by decide)).1 10 (by decide),
    (C20_register_retries_until_success_or_shutdown (fun _ => false)
      (fun k => decide (2 ≤ k)) 2 false (by decide) (by decide)).2.1 10 (by decide)⟩

end Registration

/-! ## Heartbeat and HTTP results -/

section Heartbeat

open heartbeatServiceImpl

/-- C21: a heartbeat tick sends a heartbeat request, for the address of the agent and once,
iff the Shutdown flag it reads is unset and the register service reports success; when
Shutdown is set, or the register service reports no success, the tick sends nothing (and on
unset Shutdown without success it sleeps a second first). -/
theorem C21_heartbeat_tick_sends_iff_running_and_registered (Shutdown IsSuccess : Bool)
    (address : String) :
    ((StartTick Shutdown IsSuccess address).heartbeats ≠ [] ↔
      (Shutdown = false ∧ IsSuccess = true)) ∧
    ((StartTick Shutdown IsSuccess address).heartbeats = [address] ↔
      (Shutdown = false ∧ IsSuccess = true)) ∧
    (Shutdown = true → (StartTick Shutdown IsSuccess address).heartbeats = []) ∧
    (IsSuccess = false → (StartTick Shutdown IsSuccess address).heartbeats = []) ∧
    ((StartTick Shutdown IsSuccess address).slept = true ↔
      (Shutdown = false ∧ IsSuccess = false)) := by
  cases Shutdown <;> cases IsSuccess <;> simp [StartTick]

/-- C21 on the four readings of the two flags: only unset Shutdown with success sends. -/
theorem C21_heartbeat_tick_sends_iff_running_and_registered_witness :
    (StartTick false true "10.0.0.1:8080").heartbeats = ["10.0.0.1:8080"] ∧
    (StartTick true true "10.0.0.1:8080").heartbeats = [] ∧
    (StartTick false false "10.0.0.1:8080").heartbeats = [] ∧
    (StartTick true false "10.0.0.1:8080").heartbeats = [] :=
  ⟨(C21_heartbeat_tick_sends_iff_running_and_registered false true "10.0.0.1:8080").2.1.2
      ⟨rfl, rfl⟩,
    (C21_heartbeat_tick_sends_iff_running_and_registered true true "10.0.0.1:8080").2.2.1 rfl,
    (C21_heartbeat_tick_sends_iff_running_and_registered false false "10.0.0.1:8080").2.2.2.1
      rfl,
    (C21_heartbeat_tick_sends_iff_running_and_registered true false "10.0.0.1:8080").2.2.1
      rfl⟩

end Heartbeat

section HttpResults

open HttpResult

theorem IsStatusSuccess_iff (result : HttpResult) :
    result.IsStatusSuccess = true ↔
      ((result.Status = 200 ∨ result.Status = 201 ∨ result.Status = 302) ∧
        result.Err = none) := by
  unfold IsStatusSuccess
  by_cases hs : result.Status = 200 ∨ result.Status = 201 ∨ result.Status = 302
  · by_cases he : result.Err = none
    · simp [hs, he]
    · simp [hs, he]
  · simp [hs]

theorem IsSuccess_of_status (unmarshal : List Nat → Except String MsgObject)
    (result : HttpResult) (h : result.IsStatusSuccess = true) :
    IsSuccess unmarshal result =
      match unmarshal result.Body with
      | Except.error _ => (result, some false)
      | Except.ok msgObject =>
        ({ result with MsgObject := msgObject }, some (decide (msgObject.Code = 0))) := by
  have h2 := (IsStatusSuccess_iff result).1 h
  unfold IsSuccess toMsgObject
  rw [if_pos h2.1, if_pos h2.2, h]
  cases unmarshal result.Body with
  | error err => rfl
  | ok msgObject =>
    rfl

theorem IsSuccess_of_not_status (unmarshal : List Nat → Except String MsgObject)
    (result : HttpResult) (h : result.IsStatusSuccess = false) :
    IsSuccess unmarshal result = (result, some false) := by
  have h2 : ¬ ((result.Status = 200 ∨ result.Status = 201 ∨ result.Status = 302) ∧
        result.Err = none) := fun hh => by
    rw [(IsStatusSuccess_iff result).2 hh] at h
    cases h
  unfold IsSuccess
  by_cases hs : result.Status = 200 ∨ result.Status = 201 ∨ result.Status = 302
  · have he : ¬ result.Err = none := fun he => h2 ⟨hs, he⟩
    rw [if_pos hs, if_neg he]
  · rw [if_neg hs]

/-- C22: IsSuccess always returns (it never reads through a nil pointer), and it returns true
iff Status is 200, 201 or 302, Err is nil and the body decodes without error to a message
object whose code is 0. A response with one of the three statuses and no error whose body
decodes to a non-zero code gives false, and whenever IsSuccess gives true so does
IsStatusSuccess. -/
theorem C22_IsSuccess_iff_status_and_code_zero
    (unmarshal : List Nat → Except String MsgObject) (result : HttpResult) :
    (∃ answer : Bool, (IsSuccess unmarshal result).2 = some answer) ∧
    ((IsSuccess unmarshal result).2 = some true ↔
      ((result.Status = 200 ∨ result.Status = 201 ∨ result.Status = 302) ∧
        result.Err = none ∧
        ∃ msgObject, unmarshal result.Body = Except.ok msgObject ∧ msgObject.Code = 0)) ∧
    (∀ msgObject, unmarshal result.Body = Except.ok msgObject → msgObject.Code ≠ 0 →
      (IsSuccess unmarshal result).2 = some false) ∧
    ((IsSuccess unmarshal result).2 = some true → result.IsStatusSuccess = true) ∧
    SUCCESS.Code = 0 := by
  cases hst : result.IsStatusSuccess with
  | false =>
    have hno : ¬ ((result.Status = 200 ∨ result.Status = 201 ∨ result.Status = 302) ∧
        result.Err = none) := fun hh => by
      rw [(IsStatusSuccess_iff result).2 hh] at hst
      cases hst
    rw [IsSuccess_of_not_status unmarshal result hst]
    refine ⟨⟨false, rfl⟩, ⟨fun h => (by simp at h), fun h => absurd ⟨h.1, h.2.1⟩ hno⟩,
      fun _ _ _ => rfl, fun h => (by simp at h), rfl⟩
  | true =>
    have hyes := (IsStatusSuccess_iff result).1 hst
    rw [IsSuccess_of_status unmarshal result hst]
    cases hu : unmarshal result.Body with
    | error err =>
      refine ⟨⟨false, rfl⟩, ⟨fun h => (by simp at h), fun h => ?_⟩,
        fun m hm => (by cases hm), fun h => (by simp at h), rfl⟩
      obtain ⟨_, _, m, hm, _⟩ := h
      cases hm
    | ok msgObject =>
      refine ⟨⟨decide (msgObject.Code = 0), rfl⟩, ⟨fun h => ?_, fun h => ?_⟩,
        fun m hm hne => ?_, fun _ => rfl, rfl⟩
      · simp only [Option.some.injEq, decide_eq_true_eq] at h
        exact ⟨hyes.1, hyes.2, msgObject, rfl, h⟩
      · obtain ⟨_, _, m, hm, hc⟩ := h
        cases hm
        simp [hc]
      · cases hm
        simp [hne]

/-- C22 on a status-200 response: with body {"code":0} it is a success, with body
{"code":7} a failure. -/
theorem C22_IsSuccess_iff_status_and_code_zero_witness :
    (IsSuccess demoUnmarshalMsg
      { Status := 200, Body := [123, 34, 99, 111, 100, 101, 34, 58, 48, 125] }).2
      = some true ∧
    (IsSuccess demoUnmarshalMsg
      { Status := 200, Body := [123, 34, 99, 111, 100, 101, 34, 58, 55, 125] }).2
      = some false :=
  ⟨(C22_IsSuccess_iff_status_and_code_zero demoUnmarshalMsg
      { Status := 200, Body := [123, 34, 99, 111, 100, 101, 34, 58, 48, 125] }).2.1.2
      ⟨Or.inl rfl, rfl, { Code := 0 }, rfl, rfl⟩,
    (C22_IsSuccess_iff_status_and_code_zero demoUnmarshalMsg
      { Status := 200, Body := [123, 34, 99, 111, 100, 101, 34, 58, 55, 125] }).2.2.1
      { Code := 7 } rfl (by decide)⟩

end HttpResults

section AbsentToken

open ExecutorControllerImpl

theorem GetHeader_of_absent (request : InboundRequest) (key : String)
    (h : ∀ e ∈ request.Header,
      CanonicalMIMEHeaderKey e.1 ≠ CanonicalMIMEHeaderKey key) :
    request.GetHeader key = "" := by
  unfold InboundRequest.GetHeader
  have hnone : request.Header.find?
      (fun e => CanonicalMIMEHeaderKey e.1 == CanonicalMIMEHeaderKey key) = none := by
    rw [List.find?_eq_none]
    intro e he
    simpa using h e he
  rw [hnone]

theorem GetHeader_of_first (key value : String) (lines : GoMap String) (body : Option String)
    (name : String) (h : CanonicalMIMEHeaderKey name = CanonicalMIMEHeaderKey key) :
    InboundRequest.GetHeader { Header := (name, value) :: lines, Body := body } key = value := by
  unfold InboundRequest.GetHeader
  simp only [List.find?_cons, h, beq_self_eq_true]

theorem GetHeader_of_skip (key name value : String) (lines : GoMap String)
    (body : Option String)
    (h : CanonicalMIMEHeaderKey name ≠ CanonicalMIMEHeaderKey key) :
    InboundRequest.GetHeader { Header := (name, value) :: lines, Body := body } key
      = InboundRequest.GetHeader { Header := lines, Body := body } key := by
  have hb : (CanonicalMIMEHeaderKey name == CanonicalMIMEHeaderKey key) = false := by
    simpa using h
  unfold InboundRequest.GetHeader
  simp only [List.find?_cons, hb]

theorem signString_nil_token_ne (signKey times body token1 token2 : String)
    (hne : token1 ≠ token2) :
    signString signKey token1 times body [] ≠ signString signKey token2 times body [] := by
  intro h
  rw [signString_nil, signString_nil] at h
  have hd := congrArg String.data h
  simp only [String.data_append, List.append_assoc, List.append_cancel_left_eq,
    List.append_cancel_right_eq] at hd
  exact hne (String.ext hd)

set_option maxRecDepth 100000 in
/-- C23 (as stated, refuted): under sign key "k", a request with body "b" and times "1" that
is signed with the sentinel token "not-need-token" and carries no token header, in any
letter case, is rejected by verifySign. -/
theorem C23_sentinel_signed_request_without_token_header_rejected :
    Sign "k" "not-need-token" "1" "b" [] = "1f455eb975c869f9e1ae9f1ca35eae43" ∧
    (∀ e ∈ ([("times", "1"), ("sign", "1f455eb975c869f9e1ae9f1ca35eae43")] : GoMap String),
      CanonicalMIMEHeaderKey e.1 ≠ CanonicalMIMEHeaderKey "token") ∧
    InboundRequest.GetHeader
      { Header := [("times", "1"), ("sign", "1f455eb975c869f9e1ae9f1ca35eae43")]
        Body := some "b" } "token" = "" ∧
    verifySign "k"
      { Header := [("times", "1"), ("sign", "1f455eb975c869f9e1ae9f1ca35eae43")]
        Body := some "b" } "b" = false := by
  refine ⟨by decide, by decide, by decide, by decide⟩

/-- C23 (amended): when an inbound request carries no token header (no header line whose
name is token in any letter case), verifySign recomputes the signature with the empty string
as the token, so the request is accepted iff its sign header is the signature over the empty
token; the string hashed for the empty token differs from the one hashed for the sentinel
"not-need-token". A request signed with the sentinel token is accepted when it carries the
sentinel as its token header, together with the times and sign headers, as the outbound
Request sends it. -/
theorem C23_verifySign_without_token_header (signKey : String) (request : InboundRequest)
    (body : String)
    (habsent : ∀ e ∈ request.Header,
      CanonicalMIMEHeaderKey e.1 ≠ CanonicalMIMEHeaderKey "token") :
    request.GetHeader "token" = "" ∧
    (verifySign signKey request body = true ↔
      request.GetHeader "sign" = Sign signKey "" (request.GetHeader "times") body []) ∧
    signString signKey "" (request.GetHeader "times") body []
      ≠ signString signKey "not-need-token" (request.GetHeader "times") body [] ∧
    (∀ (other : InboundRequest) (times : String),
      other.GetHeader "token" = "not-need-token" → other.GetHeader "times" = times →
      other.GetHeader "sign" = Sign signKey "not-need-token" times body [] →
      verifySign signKey other body = true) ∧
    (∀ times : String,
      verifySign signKey
        { Header := ("token", "not-need-token") :: ("times", times) ::
            ("sign", Sign signKey "not-need-token" times body []) :: request.Header
          Body := some body } body = true) := by
  have htoken := GetHeader_of_absent request "token" habsent
  have hother : ∀ (other : InboundRequest) (times : String),
      other.GetHeader "token" = "not-need-token" → other.GetHeader "times" = times →
      other.GetHeader "sign" = Sign signKey "not-need-token" times body [] →
      verifySign signKey other body = true := by
    intro other times h1 h2 h3
    unfold verifySign
    rw [h1, h2, h3, beq_self_eq_true]
  refine ⟨htoken, ?_, signString_nil_token_ne _ _ _ _ _ (by decide), hother, fun times => ?_⟩
  · unfold verifySign
    rw [htoken, beq_iff_eq]
    exact eq_comm
  · apply hother _ times
    · exact GetHeader_of_first "token" _ _ _ "token" rfl
    · rw [GetHeader_of_skip "times" "token" _ _ _ (by decide)]
      exact GetHeader_of_first "times" _ _ _ "times" rfl
    · rw [GetHeader_of_skip "sign" "token" _ _ _ (by decide),
        GetHeader_of_skip "sign" "times" _ _ _ (by decide)]
      exact GetHeader_of_first "sign" _ _ _ "sign" rfl

set_option maxRecDepth 100000 in
/-- C23 (amended) on a request without a token header that is signed over the empty token
under sign key "k": it is accepted. -/
theorem C23_verifySign_without_token_header_witness :
    (∀ e ∈ ([("times", "1"), ("sign", "77c2292c3e0f22f2d6eae5f092102efa")] : GoMap String),
      CanonicalMIMEHeaderKey e.1 ≠ CanonicalMIMEHeaderKey "token") ∧
    verifySign "k"
      { Header := [("times", "1"), ("sign", "77c2292c3e0f22f2d6eae5f092102efa")]
        Body := some "b" } "b" = true :=
  ⟨by decide,
    (C23_verifySign_without_token_header "k"
      { Header := [("times", "1"), ("sign", "77c2292c3e0f22f2d6eae5f092102efa")]
        Body := some "b" } "b" (by decide)).2.1.2 (by decide)⟩

end AbsentToken

/-! ## The run loop of the dispatcher -/

section DispatcherExit

open dispatcherServiceImpl

theorem runEvents_nil (s : RunState) : runEvents s [] = s := rfl

theorem runEvents_cons (s : RunState) (e : RunEvent) (events : List RunEvent) :
    runEvents s (e :: events) = runEvents (runStep s e) events := rfl

theorem runEvents_append (s : RunState) (es fs : List RunEvent) :
    runEvents s (es ++ fs) = runEvents (runEvents s es) fs := by
  unfold runEvents
  rw [List.foldl_append]

theorem dispatcher_StartCondition_iff (ctx : Context) (taskQueue : List TaskParams) :
    dispatcherServiceImpl.StartCondition ctx taskQueue = true ↔
      (Size taskQueue > 0 ∨ ctx.Shutdown = false) := by
  unfold dispatcherServiceImpl.StartCondition
  simp [Bool.or_eq_true]

theorem dispatcher_StartCondition_false_iff (ctx : Context) (taskQueue : List TaskParams) :
    ¬ dispatcherServiceImpl.StartCondition ctx taskQueue = true ↔
      (taskQueue = [] ∧ ctx.Shutdown = true) := by
  rw [dispatcher_StartCondition_iff]
  simp only [Size, not_or, gt_iff_lt, not_lt, Nat.le_zero, List.length_eq_zero,
    Bool.not_eq_false]

theorem runStep_pass_of_condition (s : RunState) (now : Int)
    (hloop : s.phase = RunPhase.looping)
    (hc : dispatcherServiceImpl.StartCondition s.ctx s.taskQueue = true) :
    runStep s (RunEvent.pass now) =
      { s with
        taskQueue := (dispatcherServiceImpl.StartBody now s.taskQueue).1
        released :=
          recordRelease s.released (dispatcherServiceImpl.StartBody now s.taskQueue).2 } := by
  simp only [runStep, hloop]
  rw [if_pos hc]

theorem runStep_pass_of_not_condition (s : RunState) (now : Int)
    (hloop : s.phase = RunPhase.looping)
    (hc : ¬ dispatcherServiceImpl.StartCondition s.ctx s.taskQueue = true) :
    runStep s (RunEvent.pass now) = { s with phase := RunPhase.leaving } := by
  simp only [runStep, hloop]
  rw [if_neg hc]

theorem runStep_pass_of_not_looping (s : RunState) (now : Int)
    (h : s.phase ≠ RunPhase.looping) : runStep s (RunEvent.pass now) = s := by
  cases hp : s.phase with
  | looping => exact absurd hp h
  | leaving => simp only [runStep, hp]
  | stopped => simp only [runStep, hp]

theorem runStep_looping_of_not_pass (s : RunState) (e : RunEvent)
    (hloop : s.phase = RunPhase.looping) (h : ∀ now, e ≠ RunEvent.pass now) :
    (runStep s e).phase = RunPhase.looping ∧
    (runStep s e).ctx.DispatcherStopped = s.ctx.DispatcherStopped := by
  cases e with
  | pass now => exact absurd rfl (h now)
  | addTask params => exact ⟨hloop, rfl⟩
  | shutdown => exact ⟨hloop, rfl⟩
  | wake => simp only [runStep, hloop, and_self]

/-- The flag `DispatcherStopped` is unset as long as the store after the loop has not been
made. -/
theorem runStep_unset (s : RunState) (e : RunEvent)
    (h : s.phase ≠ RunPhase.stopped → s.ctx.DispatcherStopped = false) :
    (runStep s e).phase ≠ RunPhase.stopped → (runStep s e).ctx.DispatcherStopped = false := by
  cases e with
  | pass now =>
    cases hp : s.phase with
    | looping =>
      by_cases hc : dispatcherServiceImpl.StartCondition s.ctx s.taskQueue = true
      · rw [runStep_pass_of_condition s now hp hc]
        intro _
        exact h (by rw [hp]; decide)
      · rw [runStep_pass_of_not_condition s now hp hc]
        intro _
        exact h (by rw [hp]; decide)
    | leaving =>
      rw [runStep_pass_of_not_looping s now (by rw [hp]; decide)]
      exact h
    | stopped =>
      rw [runStep_pass_of_not_looping s now (by rw [hp]; decide)]
      exact h
  | addTask params => exact h
  | shutdown => exact h
  | wake =>
    cases hp : s.phase with
    | looping =>
      simp only [runStep, hp]
      intro _
      exact h (by rw [hp]; decide)
    | leaving =>
      simp only [runStep, hp]
      intro hne
      exact absurd rfl hne
    | stopped =>
      simp only [runStep, hp]
      intro hne
      exact absurd rfl hne

theorem runEvents_unset (events : List RunEvent) : ∀ s : RunState,
    (s.phase ≠ RunPhase.stopped → s.ctx.DispatcherStopped = false) →
    (runEvents s events).phase ≠ RunPhase.stopped →
      (runEvents s events).ctx.DispatcherStopped = false := by
  induction events with
  | nil => intro s h; exact h
  | cons e es ih => intro s h; exact ih _ (runStep_unset s e h)

theorem runEvents_exit_point (events : List RunEvent) : ∀ s : RunState,
    s.phase = RunPhase.looping → (runEvents s events).phase ≠ RunPhase.looping →
    ∃ (before : List RunEvent) (now : Int) (after : List RunEvent),
      events = before ++ RunEvent.pass now :: after ∧
      (runEvents s before).phase = RunPhase.looping ∧
      (runEvents s before).taskQueue = [] ∧
      (runEvents s before).ctx.Shutdown = true := by
  induction events with
  | nil =>
    intro s hl hs
    exact absurd hl hs
  | cons e es ih =>
    intro s hl hs
    rw [runEvents_cons] at hs
    by_cases hph : (runStep s e).phase = RunPhase.looping
    · obtain ⟨before, now, after, h1, h2, h3, h4⟩ := ih (runStep s e) hph hs
      exact ⟨e :: before, now, after, by rw [h1]; rfl, h2, h3, h4⟩
    · by_cases hpass : ∃ now, e = RunEvent.pass now
      · obtain ⟨now, rfl⟩ := hpass
        by_cases hc : dispatcherServiceImpl.StartCondition s.ctx s.taskQueue = true
        · rw [runStep_pass_of_condition s now hl hc] at hph
          exact absurd hl hph
        · obtain ⟨h3, h4⟩ := (dispatcher_StartCondition_false_iff _ _).1 hc
          exact ⟨[], now, es, rfl, hl, h3, h4⟩
      · exact absurd (runStep_looping_of_not_pass s e hl (fun now hb => hpass ⟨now, hb⟩)).1 hph

/-- C24: in its loop, the dispatcher goroutine makes another pass whenever the task queue is
non-empty or Shutdown is unset, and leaves the loop exactly at a test that finds the queue
empty and Shutdown set; a pass never writes DispatcherStopped. Over any run from the entry of
the loop with DispatcherStopped unset, DispatcherStopped is unset while the goroutine is in
the loop, it is set only once the loop has been left and the store after it made, and a loop
that has been left was left by a pass that found the queue empty, Shutdown true and
DispatcherStopped still unset. -/
theorem C24_dispatcher_loop_exit (ctx : Context) (taskQueue : List TaskParams)
    (events : List RunEvent) (hinit : ctx.DispatcherStopped = false) :
    (∀ (s : RunState) (now : Int), s.phase = RunPhase.looping →
      ((Size s.taskQueue > 0 ∨ s.ctx.Shutdown = false) →
        (runStep s (RunEvent.pass now)).phase = RunPhase.looping) ∧
      ((runStep s (RunEvent.pass now)).phase ≠ RunPhase.looping ↔
        (s.taskQueue = [] ∧ s.ctx.Shutdown = true)) ∧
      (runStep s (RunEvent.pass now)).ctx = s.ctx) ∧
    ((runEvents (RunEnter ctx taskQueue) events).phase = RunPhase.looping →
      (runEvents (RunEnter ctx taskQueue) events).ctx.DispatcherStopped = false) ∧
    ((runEvents (RunEnter ctx taskQueue) events).ctx.DispatcherStopped = true →
      (runEvents (RunEnter ctx taskQueue) events).phase = RunPhase.stopped) ∧
    ((runEvents (RunEnter ctx taskQueue) events).phase ≠ RunPhase.looping →
      ∃ (before : List RunEvent) (now : Int) (after : List RunEvent),
        events = before ++ RunEvent.pass now :: after ∧
        (runEvents (RunEnter ctx taskQueue) before).phase = RunPhase.looping ∧
        (runEvents (RunEnter ctx taskQueue) before).taskQueue = [] ∧
        (runEvents (RunEnter ctx taskQueue) before).ctx.Shutdown = true ∧
        (runEvents (RunEnter ctx taskQueue) before).ctx.DispatcherStopped = false) := by
  have hunset : ∀ es : List RunEvent,
      (runEvents (RunEnter ctx taskQueue) es).phase ≠ RunPhase.stopped →
        (runEvents (RunEnter ctx taskQueue) es).ctx.DispatcherStopped = false :=
    fun es => runEvents_unset es (RunEnter ctx taskQueue) (fun _ => hinit)
  refine ⟨?_, ?_, ?_, ?_⟩
  · intro s now hloop
    have hleft : (runStep s (RunEvent.pass now)).phase ≠ RunPhase.looping ↔
        ¬ dispatcherServiceImpl.StartCondition s.ctx s.taskQueue = true := by
      constructor
      · intro h hc
        rw [runStep_pass_of_condition s now hloop hc] at h
        exact h hloop
      · intro hc
        rw [runStep_pass_of_not_condition s now hloop hc]
        intro h
        cases h
    refine ⟨?_, ?_, ?_⟩
    · intro h
      rw [runStep_pass_of_condition s now hloop ((dispatcher_StartCondition_iff _ _).2 h)]
      exact hloop
    · rw [hleft, dispatcher_StartCondition_false_iff]
    · by_cases hc : dispatcherServiceImpl.StartCondition s.ctx s.taskQueue = true
      · rw [runStep_pass_of_condition s now hloop hc]
      · rw [runStep_pass_of_not_condition s now hloop hc]
  · intro h
    exact hunset events (by rw [h]; decide)
  · intro h
    by_contra hne
    rw [hunset events hne] at h
    cases h
  · intro h
    obtain ⟨before, now, after, h1, h2, h3, h4⟩ :=
      runEvents_exit_point events (RunEnter ctx taskQueue) rfl h
    exact ⟨before, now, after, h1, h2, h3, h4, hunset before (by rw [h2]; decide)⟩

/-- C24 on a queue holding one due task: with Shutdown set the loop still makes the pass that
releases the task, the next pass leaves the loop, and DispatcherStopped is set only by the
store that follows. -/
theorem C24_dispatcher_loop_exit_witness :
    ({} : Context).DispatcherStopped = false ∧
    (runEvents (RunEnter {} [{ ExecutionTime := 500 }])
      [RunEvent.shutdown, RunEvent.pass 1000]).phase = RunPhase.looping ∧
    (runEvents (RunEnter {} [{ ExecutionTime := 500 }])
      [RunEvent.shutdown, RunEvent.pass 1000, RunEvent.pass 1001]).phase = RunPhase.leaving ∧
    (runEvents (RunEnter {} [{ ExecutionTime := 500 }])
      [RunEvent.shutdown, RunEvent.pass 1000, RunEvent.pass 1001]).ctx.DispatcherStopped
      = false ∧
    (runEvents (RunEnter {} [{ ExecutionTime := 500 }])
      [RunEvent.shutdown, RunEvent.pass 1000, RunEvent.pass 1001,
        RunEvent.wake]).ctx.DispatcherStopped = true ∧
    (runEvents (RunEnter {} [{ ExecutionTime := 500 }])
      [RunEvent.shutdown, RunEvent.pass 1000, RunEvent.pass 1001,
        RunEvent.wake]).phase = RunPhase.stopped :=
  ⟨rfl, by decide, by decide, by decide, by decide,
    (C24_dispatcher_loop_exit {} [{ ExecutionTime := 500 }]
      [RunEvent.shutdown, RunEvent.pass 1000, RunEvent.pass 1001, RunEvent.wake] rfl).2.2.1
      (by decide)⟩

end DispatcherExit

section DispatcherConservation

open dispatcherServiceImpl

theorem getTask_perm (taskQueue : List TaskParams) (t : TaskParams)
    (h : (getTask taskQueue).1 = some t) : (t :: (getTask taskQueue).2).Perm taskQueue := by
  rw [getTask_eq] at h ⊢
  exact Pop_perm _ _ _ h

theorem StartBody_of_empty (now : Int) (taskQueue : List TaskParams)
    (h : (getTask taskQueue).1 = none) :
    dispatcherServiceImpl.StartBody now taskQueue = (taskQueue, Dispatch.idle) := by
  have hnil : taskQueue = [] := by
    rw [getTask_eq] at h
    exact (Pop_fst_eq_none _ _).1 h
  subst hnil
  rfl

theorem StartBody_conserves (now : Int) (taskQueue released : List TaskParams) :
    ((dispatcherServiceImpl.StartBody now taskQueue).1 ++
      recordRelease released (dispatcherServiceImpl.StartBody now taskQueue).2).Perm
      (taskQueue ++ released) := by
  cases hg : (getTask taskQueue).1 with
  | none =>
    rw [StartBody_of_empty now taskQueue hg]
    exact List.Perm.refl _
  | some t =>
    rw [StartBody_of_getTask now taskQueue t hg]
    have hp := getTask_perm taskQueue t hg
    by_cases hr : wrapInt64 (t.ExecutionTime - now) > 0
    · rw [if_pos hr]
      exact List.Perm.append_right released
        ((AddTask_perm (getTask taskQueue).2 t).trans hp)
    · rw [if_neg hr]
      show ((getTask taskQueue).2 ++ (released ++ [t])).Perm (taskQueue ++ released)
      rw [List.perm_iff_count]
      intro a
      have hc := hp.count_eq a
      simp only [List.count_append, List.count_cons, List.count_nil] at hc ⊢
      omega

theorem runStep_conserves (s : RunState) (e : RunEvent) :
    ((runStep s e).taskQueue ++ (runStep s e).released).Perm
      (s.taskQueue ++ s.released ++ addedTasks [e]) := by
  cases e with
  | pass now =>
    simp only [addedTasks, List.append_nil]
    cases hp : s.phase with
    | looping =>
      by_cases hc : dispatcherServiceImpl.StartCondition s.ctx s.taskQueue = true
      · rw [runStep_pass_of_condition s now hp hc]
        exact StartBody_conserves now s.taskQueue s.released
      · rw [runStep_pass_of_not_condition s now hp hc]
    | leaving => rw [runStep_pass_of_not_looping s now (by rw [hp]; decide)]
    | stopped => rw [runStep_pass_of_not_looping s now (by rw [hp]; decide)]
  | addTask params =>
    show ((dispatcherServiceImpl.AddTask s.taskQueue params).1 ++ s.released).Perm
      (s.taskQueue ++ s.released ++ [params])
    rw [List.perm_iff_count]
    intro a
    have hc := (AddTask_perm s.taskQueue params).count_eq a
    simp only [List.count_append, List.count_cons, List.count_nil] at hc ⊢
    omega
  | shutdown =>
    simp only [addedTasks, List.append_nil]
    exact List.Perm.refl _
  | wake =>
    simp only [addedTasks, List.append_nil]
    cases hp : s.phase <;> simp only [runStep, hp] <;> exact List.Perm.refl _

theorem addedTasks_cons (e : RunEvent) (events : List RunEvent) :
    addedTasks (e :: events) = addedTasks [e] ++ addedTasks events := by
  cases e <;> rfl

/-- Over any run, the queued and the released tasks together are the initial and the added
ones: no step drops a task or releases one twice. -/
theorem runEvents_conserves (events : List RunEvent) : ∀ s : RunState,
    ((runEvents s events).taskQueue ++ (runEvents s events).released).Perm
      (s.taskQueue ++ s.released ++ addedTasks events) := by
  induction events with
  | nil =>
    intro s
    simp only [runEvents_nil, addedTasks, List.append_nil]
    exact List.Perm.refl _
  | cons e es ih =>
    intro s
    rw [runEvents_cons, addedTasks_cons]
    refine (ih (runStep s e)).trans ?_
    rw [← List.append_assoc]
    exact List.Perm.append_right _ (runStep_conserves s e)

set_option maxRecDepth 100000 in
/-- C26 fails on the code: with the clock at 1700000000000 ms, a queued task whose
ExecutionTime is the least int64 is due, yet the pass adds it back to the queue and releases
nothing, because the int64 subtraction ExecutionTime - now wraps to the positive remaining
time 9223370336854775808; the sleep asked for wraps to a negative duration, so the loop
comes back at once, and further passes keep the task queued without releasing it. -/
theorem C26_due_task_requeued_on_wrap :
    isInt64 1700000000000 ∧ isInt64 (-9223372036854775808) ∧
    ({ ExecutionTime := -9223372036854775808 } : TaskParams).ExecutionTime ≤ 1700000000000 ∧
    dispatcherServiceImpl.StartBody 1700000000000 [{ ExecutionTime := -9223372036854775808 }]
      = ([{ ExecutionTime := -9223372036854775808 }],
          Dispatch.requeued { ExecutionTime := -9223372036854775808 } 9223370336854775808) ∧
    (dispatcherServiceImpl.StartBody 1700000000000
      [{ ExecutionTime := -9223372036854775808 }]).2.Sleep = -1700000000000000001 ∧
    (runEvents (RunEnter {} [{ ExecutionTime := -9223372036854775808 }])
      [RunEvent.pass 1700000000000, RunEvent.pass 1700000000001,
        RunEvent.pass 1700000000002]).released = [] ∧
    (runEvents (RunEnter {} [{ ExecutionTime := -9223372036854775808 }])
      [RunEvent.pass 1700000000000, RunEvent.pass 1700000000001,
        RunEvent.pass 1700000000002]).taskQueue
      = [{ ExecutionTime := -9223372036854775808 }] := by
  refine ⟨by decide, by decide, by decide, by decide, by decide, by decide, by decide⟩

end DispatcherConservation

/-! ## Stopping and task registration parameters -/

section Stopping

open executorClientImpl registerServiceImpl

theorem Unregister_eq (answer : Bool) (address : String) (s : StopState) :
    Unregister answer address s =
      ({ s with
          success := false
          steps := s.steps ++
            [StopStep.storeSuccess false,
              StopStep.unregisterExecutor address s.ctx.Shutdown false] },
        answer) := by
  unfold Unregister
  simp only [List.append_assoc, List.singleton_append]

theorem stop_eq (answer : Bool) (address : String) (s : StopState) :
    stop answer address s =
      { ctx := { s.ctx with Shutdown := true }
        success := false
        steps := s.steps ++
          [StopStep.storeShutdown, StopStep.storeSuccess false,
            StopStep.unregisterExecutor address true false, StopStep.waitGroupWait] } := by
  simp only [stop, Unregister_eq, List.append_assoc, List.singleton_append, List.cons_append,
    List.nil_append]

/-- C25: stop stores true into Shutdown, then calls Unregister, which stores false into the
flag success of the register service and then sends the unregister request (so the request
goes out with Shutdown set and success cleared), and then enters WaitGroup.Wait. Whatever
the answer to the unregister request, Shutdown is true and IsSuccess is false afterwards,
the other flags are untouched, and Unregister returns the answer to its request. -/
theorem C25_stop_sets_Shutdown_then_unregisters (answer : Bool) (address : String)
    (s : StopState) :
    (stop answer address s).steps = s.steps ++
      [StopStep.storeShutdown, StopStep.storeSuccess false,
        StopStep.unregisterExecutor address true false, StopStep.waitGroupWait] ∧
    (stop answer address s).ctx.Shutdown = true ∧
    IsSuccess (stop answer address s) = false ∧
    (stop answer address s).ctx.DispatcherStopped = s.ctx.DispatcherStopped ∧
    (stop answer address s).ctx.WaitGroup = s.ctx.WaitGroup ∧
    stop true address s = stop false address s ∧
    (Unregister answer address s).2 = answer ∧
    IsSuccess (Unregister answer address s).1 = false ∧
    (Unregister answer address s).1.ctx = s.ctx ∧
    (Unregister answer address s).1.steps = s.steps ++
      [StopStep.storeSuccess false,
        StopStep.unregisterExecutor address s.ctx.Shutdown false] := by
  refine ⟨?_, ?_, ?_, ?_, ?_, ?_, ?_, ?_, ?_, ?_⟩
  · rw [stop_eq]
  · rw [stop_eq]
  · rw [stop_eq]
    rfl
  · rw [stop_eq]
  · rw [stop_eq]
  · rw [stop_eq, stop_eq]
  · rw [Unregister_eq]
  · rw [Unregister_eq]
    rfl
  · rw [Unregister_eq]
  · rw [Unregister_eq]

/-- C25 on a registered, running agent whose unregister request fails: Shutdown is set and
the liveness flag is cleared all the same. -/
theorem C25_stop_sets_Shutdown_then_unregisters_witness :
    (stop false "10.0.0.1:8080" { ctx := {}, success := true, steps := [] }).ctx.Shutdown
      = true ∧
    IsSuccess (stop false "10.0.0.1:8080" { ctx := {}, success := true, steps := [] })
      = false ∧
    (Unregister false "10.0.0.1:8080" { ctx := {}, success := true, steps := [] }).2 = false :=
  ⟨(C25_stop_sets_Shutdown_then_unregisters false "10.0.0.1:8080"
      { ctx := {}, success := true, steps := [] }).2.1,
    by decide, by decide⟩

end Stopping

section RegisterParams

open registerServiceImpl

theorem buildTaskRegisterParams_from (options : ExecutorOptions) :
    ∀ (taskOptions : GoMap TaskOptions) (params : List TaskRegisterParams),
      taskOptions.foldl (fun params e => params ++ [taskRegisterParams options e.1 e.2]) params
        = params ++ taskOptions.map (fun e => taskRegisterParams options e.1 e.2) := by
  intro taskOptions
  induction taskOptions with
  | nil => intro params; simp
  | cons e es ih =>
    intro params
    rw [List.foldl_cons, ih, List.map_cons, List.append_assoc]
    rfl

theorem buildTaskRegisterParams_eq_map (options : ExecutorOptions)
    (taskOptions : GoMap TaskOptions) :
    buildTaskRegisterParams options taskOptions
      = taskOptions.map (fun e => taskRegisterParams options e.1 e.2) := by
  unfold buildTaskRegisterParams
  rw [buildTaskRegisterParams_from, List.nil_append]

theorem buildTaskRegisterParams_methods (options : ExecutorOptions)
    (taskOptions : GoMap TaskOptions) :
    (buildTaskRegisterParams options taskOptions).map TaskRegisterParams.Method
      = GoMap.keys taskOptions := by
  rw [buildTaskRegisterParams_eq_map, List.map_map]
  rfl

theorem get_of_mem_nodup {β : Type} : ∀ (m : GoMap β) (k : String) (v : β),
    (GoMap.keys m).Nodup → (k, v) ∈ m → GoMap.get m k = some v := by
  intro m
  induction m with
  | nil => intro k v _ h; cases h
  | cons e es ih =>
    intro k v hnd hmem
    obtain ⟨k2, v2⟩ := e
    have hnd2 : k2 ∉ GoMap.keys es ∧ (GoMap.keys es).Nodup := List.nodup_cons.1 hnd
    rcases List.mem_cons.1 hmem with heq | htail
    · cases heq
      simp [GoMap.get, List.lookup]
    · have hne : k ≠ k2 := by
        intro h
        subst h
        exact hnd2.1 (List.mem_map.2 ⟨(k, v), htail, rfl⟩)
      have hb : (k == k2) = false := by simpa using hne
      have := ih k v hnd2.2 htail
      unfold GoMap.get at this ⊢
      rw [List.lookup, hb]
      exact this

theorem mem_of_get {β : Type} : ∀ (m : GoMap β) (k : String) (v : β),
    GoMap.get m k = some v → (k, v) ∈ m := by
  intro m
  induction m with
  | nil => intro k v h; cases h
  | cons e es ih =>
    intro k v h
    obtain ⟨k2, v2⟩ := e
    unfold GoMap.get at h
    by_cases hk : k = k2
    · subst hk
      simp only [List.lookup, beq_self_eq_true, Option.some.injEq] at h
      subst h
      exact List.mem_cons_self _ _
    · have hb : (k == k2) = false := by simpa using hk
      rw [List.lookup, hb] at h
      exact List.mem_cons_of_mem _ (ih k v h)

/-- C27: for every executor options and every task registry (a map: its keys are distinct),
buildTaskRegisterParams returns as many entries as the registry has keys, and their Method
fields are the keys, each once, in the order the registry is visited (so another visiting
order gives the same entries in another order). The entry whose Method is k is the only one,
and it carries Cron, Name, Remark, ExpiredStrategy, ExpireTime, FailureStrategy,
MaxRetryCount, FailureRetryInterval, RouterStrategy and Timeout of the options stored under
k and AppName, AppDesc, Tag and Tenant of the executor options. -/
theorem C27_buildTaskRegisterParams_one_entry_per_key (options : ExecutorOptions)
    (taskOptions : GoMap TaskOptions) (hkeys : (GoMap.keys taskOptions).Nodup) :
    (buildTaskRegisterParams options taskOptions).length = (GoMap.keys taskOptions).length ∧
    (buildTaskRegisterParams options taskOptions).map TaskRegisterParams.Method
      = GoMap.keys taskOptions ∧
    (∀ (k : String) (taskOption : TaskOptions), GoMap.get taskOptions k = some taskOption →
      ((buildTaskRegisterParams options taskOptions).map TaskRegisterParams.Method).count k
        = 1 ∧
      { AppDesc := options.AppDesc
        AppName := options.AppName
        Cron := taskOption.Cron
        ExpiredStrategy := taskOption.ExpiredStrategy
        ExpiredTime := taskOption.ExpireTime
        FailureRetryInterval := taskOption.FailureRetryInterval
        FailureStrategy := taskOption.FailureStrategy
        MaxRetryCount := taskOption.MaxRetryCount
        Method := k
        Name := taskOption.Name
        Remark := taskOption.Remark
        RouterStrategy := taskOption.RouterStrategy
        Tag := options.Tag
        Tenant := options.Tenant
        Timeout := taskOption.Timeout } ∈ buildTaskRegisterParams options taskOptions ∧
      ∀ entry ∈ buildTaskRegisterParams options taskOptions, entry.Method = k →
        entry = taskRegisterParams options k taskOption) ∧
    (∀ entry ∈ buildTaskRegisterParams options taskOptions,
      ∃ taskOption, GoMap.get taskOptions entry.Method = some taskOption) ∧
    (∀ visited : GoMap TaskOptions, visited.Perm taskOptions →
      (buildTaskRegisterParams options visited).Perm
        (buildTaskRegisterParams options taskOptions)) := by
  have hmethods := buildTaskRegisterParams_methods options taskOptions
  have hentry : ∀ entry ∈ buildTaskRegisterParams options taskOptions,
      ∃ e ∈ taskOptions, entry = taskRegisterParams options e.1 e.2 ∧
        GoMap.get taskOptions e.1 = some e.2 := by
    intro entry hmem
    rw [buildTaskRegisterParams_eq_map] at hmem
    obtain ⟨e, he, rfl⟩ := List.mem_map.1 hmem
    exact ⟨e, he, rfl, get_of_mem_nodup taskOptions e.1 e.2 hkeys he⟩
  refine ⟨?_, hmethods, ?_, ?_, ?_⟩
  · rw [← hmethods, List.length_map]
  · intro k taskOption hget
    have hmem := mem_of_get taskOptions k taskOption hget
    refine ⟨?_, ?_, ?_⟩
    · rw [hmethods]
      exact List.count_eq_one_of_mem hkeys (List.mem_map.2 ⟨(k, taskOption), hmem, rfl⟩)
    · rw [buildTaskRegisterParams_eq_map]
      exact List.mem_map.2 ⟨(k, taskOption), hmem, rfl⟩
    · intro entry hin hk
      obtain ⟨e, _, rfl, hg⟩ := hentry entry hin
      have hk2 : e.1 = k := hk
      rw [hk2, hget] at hg
      rw [hk2, ← Option.some.inj hg]
  · intro entry hin
    obtain ⟨e, _, rfl, hg⟩ := hentry entry hin
    exact ⟨e.2, hg⟩
  · intro visited hperm
    rw [buildTaskRegisterParams_eq_map, buildTaskRegisterParams_eq_map]
    exact hperm.map _

/-- C27 on the registry that AddTask builds for the demo task: one entry, with the key as
Method, the stored options and the fields of the executor options. -/
theorem C27_buildTaskRegisterParams_one_entry_per_key_witness :
    (GoMap.keys ([("go-example-executor/cronjob.DemoTask.Handle",
        executorClientImpl.applyDefaults { Cron := "* * * * * ? ", Name := "demo" })] :
        GoMap TaskOptions)).Nodup ∧
    buildTaskRegisterParams
        { AppName := "go-example-executor", AppDesc := "example", Tag := "common",
          Tenant := "t1" }
        [("go-example-executor/cronjob.DemoTask.Handle",
          executorClientImpl.applyDefaults { Cron := "* * * * * ? ", Name := "demo" })]
      = [{ AppDesc := "example"
           AppName := "go-example-executor"
           Cron := "* * * * * ? "
           ExpiredStrategy := 2
           ExpiredTime := 180000
           FailureRetryInterval := 5000
           FailureStrategy := 1
           MaxRetryCount := 5
           Method := "go-example-executor/cronjob.DemoTask.Handle"
           Name := "demo"
           Remark := ""
           RouterStrategy := 1
           Tag := "common"
           Tenant := "t1"
           Timeout := 10000 }] ∧
    (buildTaskRegisterParams
        { AppName := "go-example-executor", AppDesc := "example", Tag := "common",
          Tenant := "t1" }
        [("go-example-executor/cronjob.DemoTask.Handle",
          executorClientImpl.applyDefaults { Cron := "* * * * * ? ", Name := "demo" })]).length
      = 1 :=
  ⟨by decide, by decide,
    (C27_buildTaskRegisterParams_one_entry_per_key
      { AppName := "go-example-executor", AppDesc := "example", Tag := "common",
        Tenant := "t1" }
      [("go-example-executor/cronjob.DemoTask.Handle",
        executorClientImpl.applyDefaults { Cron := "* * * * * ? ", Name := "demo" })]
      (by decide)).1⟩

end RegisterParams

/-! ## The result for a missing method -/

section NotFoundResult

open dispatcherServiceImpl resultSendServiceImpl

theorem invokeTask_found (handlers : GoMap Handler) (address : String) (params : TaskParams)
    (startTime endTime : Int) (stack : String) (resultQueue : List TaskResult)
    (handler : Handler) (hfound : GoMap.get handlers params.Method = some handler) :
    ∃ (state : TaskLogState) (reason : String),
      (invokeTask handlers address params startTime endTime stack resultQueue).resultQueue =
        (AddResult resultQueue
          { TaskLogId := (handler params).params.TaskLogId
            TaskId := (handler params).params.TaskId
            State := state
            FailedReason := reason
            RealExecutionTime := startTime
            ElapsedTime := wrapInt64 (endTime - startTime)
            Address := address }).1 := by
  unfold invokeTask
  rw [hfound]
  simp only [invokeTaskDeferred]
  exact ⟨_, _, rfl⟩

theorem addAllResults_from (results : List TaskResult) :
    ∀ queue : List TaskResult, HeapOrdered TaskResult.RealExecutionTime queue →
      HeapOrdered TaskResult.RealExecutionTime
        (results.foldl (fun queue result => (AddResult queue result).1) queue) ∧
      (results.foldl (fun queue result => (AddResult queue result).1) queue).Perm
        (queue ++ results) := by
  induction results with
  | nil =>
    intro queue h
    exact ⟨h, by rw [List.append_nil]; exact List.Perm.refl _⟩
  | cons r rs ih =>
    intro queue h
    obtain ⟨h1, h2⟩ := ih (AddResult queue r).1 (AddResult_ordered queue r h)
    refine ⟨h1, h2.trans ?_⟩
    have hp : ((AddResult queue r).1 ++ rs).Perm ((r :: queue) ++ rs) :=
      List.Perm.append_right rs (AddResult_perm queue r)
    refine hp.trans ?_
    rw [List.perm_iff_count]
    intro a
    simp only [List.count_append, List.count_cons, List.count_nil]
    omega

theorem getTaskResult_least_first (results : List TaskResult) (least : TaskResult)
    (hmem : least ∈ results)
    (hless : ∀ r ∈ results, r ≠ least → least.RealExecutionTime < r.RealExecutionTime) :
    (getTaskResult (addAllResults results)).1 = some least := by
  obtain ⟨hord, hperm⟩ := addAllResults_from results [] (HeapOrdered_nil _)
  rw [List.nil_append] at hperm
  change HeapOrdered TaskResult.RealExecutionTime (addAllResults results) at hord
  change (addAllResults results).Perm results at hperm
  cases hg : (getTaskResult (addAllResults results)).1 with
  | none =>
    exfalso
    rw [getTaskResult_eq] at hg
    have hnil := (Pop_fst_eq_none _ _).1 hg
    rw [hnil] at hperm
    rw [← hperm.mem_iff] at hmem
    cases hmem
  | some v =>
    have hv : v ∈ results :=
      hperm.mem_iff.1 ((getTaskResult_perm _ v hg).mem_iff.1 (List.mem_cons_self _ _))
    have hmin : v.RealExecutionTime ≤ least.RealExecutionTime := by
      have hg2 := hg
      rw [getTaskResult_eq, taskResultComparator_eq] at hg2
      exact Pop_min TaskResult.RealExecutionTime _ hord v hg2 least (hperm.mem_iff.2 hmem)
    by_cases hvl : v = least
    · rw [hvl]
    · have := hless v hv hvl
      omega

/-- C28: for a method key that is not registered, the result invokeTask adds carries the
TaskLogId and TaskId of the params and State EXECUTION_FAILED_NOT_FOUND; its FailedReason and
Address are empty and its RealExecutionTime and ElapsedTime are 0. For a registered key the
result added carries the start time as RealExecutionTime, the elapsed time and the executor
address, with the ids the params hold after the handler call. Against every result with a
positive RealExecutionTime the comparator of the delivery queue puts the not-found result
first, in both argument orders, and from a queue that holds it among results with positive
RealExecutionTime, added in any order, it is the result taken out first. -/
theorem C28_not_found_result_carries_ids_only (handlers : GoMap Handler) (address : String)
    (params : TaskParams) (startTime endTime : Int) (stack : String)
    (resultQueue : List TaskResult)
    (hmissing : GoMap.get handlers params.Method = none) :
    (invokeTask handlers address params startTime endTime stack resultQueue).resultQueue =
      (AddResult resultQueue
        { TaskLogId := params.TaskLogId
          TaskId := params.TaskId
          State := TaskLogState.EXECUTION_FAILED_NOT_FOUND
          FailedReason := ""
          RealExecutionTime := 0
          ElapsedTime := 0
          Address := "" }).1 ∧
    (∀ (handlers2 : GoMap Handler) (handler : Handler),
      GoMap.get handlers2 params.Method = some handler →
      ∃ (state : TaskLogState) (reason : String),
        (invokeTask handlers2 address params startTime endTime stack resultQueue).resultQueue =
          (AddResult resultQueue
            { TaskLogId := (handler params).params.TaskLogId
              TaskId := (handler params).params.TaskId
              State := state
              FailedReason := reason
              RealExecutionTime := startTime
              ElapsedTime := wrapInt64 (endTime - startTime)
              Address := address }).1) ∧
    (∀ r : TaskResult, 0 < r.RealExecutionTime →
      taskResultComparator
        { TaskLogId := params.TaskLogId, TaskId := params.TaskId,
          State := TaskLogState.EXECUTION_FAILED_NOT_FOUND } r = -1 ∧
      taskResultComparator r
        { TaskLogId := params.TaskLogId, TaskId := params.TaskId,
          State := TaskLogState.EXECUTION_FAILED_NOT_FOUND } = 1) ∧
    (∀ before after : List TaskResult,
      (∀ r ∈ before ++ after, 0 < r.RealExecutionTime) →
      (getTaskResult (addAllResults (before ++
        { TaskLogId := params.TaskLogId, TaskId := params.TaskId,
          State := TaskLogState.EXECUTION_FAILED_NOT_FOUND } :: after))).1
        = some { TaskLogId := params.TaskLogId, TaskId := params.TaskId,
                 State := TaskLogState.EXECUTION_FAILED_NOT_FOUND }) := by
  refine ⟨?_, ?_, ?_, ?_⟩
  · rw [invokeTask_not_found handlers address params startTime endTime stack resultQueue
      hmissing]
  · intro handlers2 handler hfound
    exact invokeTask_found handlers2 address params startTime endTime stack resultQueue
      handler hfound
  · intro r hr
    unfold taskResultComparator Int64Comparator
    simp only
    constructor
    · rw [if_neg (by omega), if_pos hr]
    · rw [if_pos hr]
  · intro before after hpos
    apply getTaskResult_least_first
    · exact List.mem_append_right _ (List.mem_cons_self _ _)
    · intro r hr hne
      have hin : r ∈ before ++ after := by
        rcases List.mem_append.1 hr with h | h
        · exact List.mem_append_left _ h
        · rcases List.mem_cons.1 h with h | h
          · exact absurd h hne
          · exact List.mem_append_right _ h
      exact hpos r hin

/-- C28 on an empty registry: the result added for task log 11 of task 3 has only the ids and
the state set, and it leaves the queue before a result with RealExecutionTime 1000 that was
added earlier. -/
theorem C28_not_found_result_carries_ids_only_witness :
    GoMap.get ([] : GoMap Handler)
      ({ Method := "app/main.Gone.Handle", TaskLogId := 11, TaskId := 3 } : TaskParams).Method
      = none ∧
    (invokeTask [] "10.0.0.1:8080"
      { Method := "app/main.Gone.Handle", TaskLogId := 11, TaskId := 3 } 1000 1250 "stack"
      []).resultQueue =
      [{ TaskLogId := 11, TaskId := 3, State := TaskLogState.EXECUTION_FAILED_NOT_FOUND,
         FailedReason := "", RealExecutionTime := 0, ElapsedTime := 0, Address := "" }] ∧
    (getTaskResult (addAllResults
      [{ TaskLogId := 10, TaskId := 3, State := TaskLogState.EXECUTION_SUCCESS,
         RealExecutionTime := 1000, ElapsedTime := 5, Address := "10.0.0.1:8080" },
       { TaskLogId := 11, TaskId := 3, State := TaskLogState.EXECUTION_FAILED_NOT_FOUND }])).1
      = some { TaskLogId := 11, TaskId := 3,
               State := TaskLogState.EXECUTION_FAILED_NOT_FOUND } :=
  ⟨rfl,
    (C28_not_found_result_carries_ids_only [] "10.0.0.1:8080"
      { Method := "app/main.Gone.Handle", TaskLogId := 11, TaskId := 3 } 1000 1250 "stack" []
      rfl).1.trans (by decide),
    by decide⟩

end NotFoundResult

end CronjobExecutor
